import Mathlib

/-!
# Chat-history persistence over PostgreSQL

A shallow embedding of `src/infrastructure/chatstorage/postgres_repository.go`, of the start-up
sequence `initApp` of `src/cmd/root.go` and of the middleware `SQLBasicAuthPostgres` of
`src/ui/rest/middleware/sql_basicauth_pg.go`.

* The database handle `r.db` is the explicit state `DB`: the rows of `chats`, `messages` and
  `schema_info`, the versioned scripts whose effects are committed, the trace of statements sent
  to the driver, and a fault plan.  Every round trip to the driver consumes one entry of the fault
  plan; `some e` makes that round trip fail with `e` and have no effect, `none` (or an exhausted
  plan) lets it through.
* `error` results are `Option Err` (`none` is Go's `nil`); `(*T, error)` results are a pair of
  options, so that the `!= nil` tests of the source keep their meaning.
* `time.Time` values are integers (an instant), `[]byte` values are lists of numbers, and the
  unsigned integers of the source are natural numbers (no arithmetic is done on them).
* The columns `created_at` and `updated_at` are filled by the server clock and read by no
  operation modelled here; they are left out of the rows.
* `types.JID.String` (whatsmeow) and the payload helpers of `pkg/utils` are not part of the
  sources at hand; they are parameters (`Extractors`).
-/

namespace ChatStorage

/-! ## Errors -/

/-- Go `error` values met in the repository: the sentinel `sql.ErrNoRows`, a failure reported by
the driver, a foreign-key violation reported by the server, and `fmt.Errorf("<context>%w", cause)`. -/
inductive Err where
  | ErrNoRows
  | driver (msg : String)
  | foreignKey (constraint : String)
  | wrap (context : String) (cause : Err)
  deriving DecidableEq, Repr

/-- The text of an error, `err.Error()`. -/
def Err.Error : Err → String
  | .ErrNoRows => "sql: no rows in result set"
  | .driver msg => msg
  | .foreignKey c => "pq: insert or update on table \"messages\" violates foreign key constraint \"" ++ c ++ "\""
  | .wrap context cause => context ++ cause.Error

/-- The chain walked by `errors.Is`: `e.Is target` holds when `target` is `e` or is wrapped by `e`. -/
def Err.Is : Err → Err → Bool
  | .wrap context cause, target => decide (Err.wrap context cause = target) || cause.Is target
  | e, target => decide (e = target)

/-! ## Data model -/

/-- Address `types.JID` of the protocol library. -/
structure JID where
  User : String
  RawAgent : Nat
  Device : Nat
  Integrator : Nat
  Server : String
  deriving DecidableEq, Repr

/-- Row `domainChatStorage.Chat`. -/
structure Chat where
  JID : String
  Name : String
  LastMessageTime : Int
  EphemeralExpiration : Nat
  deriving DecidableEq, Repr

/-- Row `domainChatStorage.Message`. -/
structure Message where
  ID : String
  ChatJID : String
  Sender : String
  Content : String
  Timestamp : Int
  IsFromMe : Bool
  MediaType : String
  Filename : String
  URL : String
  MediaKey : List Nat
  FileSHA256 : List Nat
  FileEncSHA256 : List Nat
  FileLength : Nat
  deriving DecidableEq, Repr

/-- The seven results of `utils.ExtractMediaInfo`. -/
structure MediaInfo where
  mediaType : String
  filename : String
  url : String
  mediaKey : List Nat
  fileSHA256 : List Nat
  fileEncSHA256 : List Nat
  fileLength : Nat
  deriving DecidableEq, Repr

/-- The fields of `types.MessageInfo` read by `CreateMessage`. -/
structure MessageInfo where
  Chat : JID
  Sender : JID
  IsFromMe : Bool
  ID : String
  PushName : String
  Timestamp : Int
  deriving DecidableEq, Repr

/-- Event `events.Message` over a payload type `P` (`*waE2E.Message`); `Message = none` is the
nil payload. -/
structure Event (P : Type) where
  Info : MessageInfo
  Message : Option P

/-- What `CreateMessage` calls outside this file: `types.JID.String` and the three payload
helpers of `pkg/utils`. -/
structure Extractors (P : Type) where
  JIDString : JID → String
  ExtractEphemeralExpiration : P → Nat
  ExtractMessageTextFromProto : P → String
  ExtractMediaInfo : P → MediaInfo

/-! ## The backend -/

/-- Values bound to the placeholders of a statement. -/
inductive Arg where
  | text (s : String)
  | time (t : Int)
  | bool (b : Bool)
  | int (n : Int)
  deriving DecidableEq, Repr

/-- Conditions of the `WHERE` clauses written in the repository; `p` is the number of the
placeholder `$p` the condition mentions. -/
inductive Cond where
  | chatJidEq (p : Nat)
  | timestampGe (p : Nat)
  | timestampLe (p : Nat)
  | mediaTypeSet
  | isFromMeEq (p : Nat)
  | contentILike (p : Nat)
  | nameILike (p : Nat)
  | hasMediaMessage
  deriving DecidableEq, Repr

/-- Tables read by the listings. -/
inductive Table where
  | messages
  | chats
  deriving DecidableEq, Repr

/-- A listing `SELECT <columns> FROM <table> [WHERE c1 AND c2 ...] ORDER BY <time> DESC
[LIMIT $l] [OFFSET $o]`, the shape of every query text assembled in the repository. -/
structure Select where
  table : Table
  conds : List Cond
  limit : Option Nat
  offset : Option Nat
  deriving DecidableEq, Repr

/-- Statements sent to the driver. -/
inductive Stmt where
  | selectChat (jid : String)
  | upsertChat (chat : Chat)
  | upsertMessage (message : Message)
  | createSchemaInfo
  | selectMaxVersion
  | txBegin
  | txExec (script : String)
  | txUpsertVersion (version : Nat)
  | txCommit
  | txRollback
  | txPrepare
  | stmtExec (message : Message)
  | stmtClose
  | query (q : Select) (args : List Arg)
  deriving DecidableEq, Repr

/-- State of the backend behind `r.db`. -/
structure DB where
  chats : List Chat
  messages : List Message
  schema_info : List Nat
  schema : List String
  faults : List (Option Err)
  trace : List Stmt
  deriving DecidableEq, Repr

/-- One round trip to the driver: the statement is appended to the trace and the head of the
fault plan tells whether the driver reports a failure. -/
def DB.send (db : DB) (s : Stmt) : Option Err × DB :=
  match db.faults with
  | [] => (none, { db with trace := db.trace ++ [s] })
  | f :: rest => (f, { db with faults := rest, trace := db.trace ++ [s] })

/-- Primary key of `chats`: no two rows share a `jid`. -/
def chatsKeyed (chats : List Chat) : Prop :=
  (chats.map (fun c => c.JID)).Nodup

instance (chats : List Chat) : Decidable (chatsKeyed chats) :=
  inferInstanceAs (Decidable (List.Nodup _))

/-- Primary key of `messages`: no two rows share `(id, chat_jid)`. -/
def messagesKeyed (messages : List Message) : Prop :=
  (messages.map (fun m => (m.ID, m.ChatJID))).Nodup

instance (messages : List Message) : Decidable (messagesKeyed messages) :=
  inferInstanceAs (Decidable (List.Nodup _))

/-- Rows of `chats` with the given `jid`. -/
def chatRows (chats : List Chat) (jid : String) : List Chat :=
  chats.filter (fun c => decide (c.JID = jid))

/-- Rows of `messages` with the given `(id, chat_jid)`. -/
def messageRows (messages : List Message) (id chatJID : String) : List Message :=
  messages.filter (fun m => decide (m.ID = id ∧ m.ChatJID = chatJID))

/-- Effect of `INSERT INTO chats ... ON CONFLICT (jid) DO UPDATE SET name, last_message_time,
ephemeral_expiration`: the row with the same `jid` is overwritten, a new row is added otherwise. -/
def upsertChatRow : List Chat → Chat → List Chat
  | [], chat => [chat]
  | c :: rest, chat => if c.JID = chat.JID then chat :: rest else c :: upsertChatRow rest chat

/-- Effect of `INSERT INTO messages ... ON CONFLICT (id, chat_jid) DO UPDATE SET ...` on the rows. -/
def upsertMessageRow : List Message → Message → List Message
  | [], message => [message]
  | m :: rest, message =>
    if m.ID = message.ID ∧ m.ChatJID = message.ChatJID then message :: rest
    else m :: upsertMessageRow rest message

/-! ## Entity store -/

/-- `scanChat`: a failed `Scan` gives `(nil, err)`, a scanned row gives `(&c, nil)`. -/
def scanChat (scanner : Except Err Chat) : Option Chat × Option Err :=
  match scanner with
  | .error err => (none, some err)
  | .ok c => (some c, none)

/-- `r.db.QueryRow("SELECT ... FROM chats WHERE jid = $1", jid)`: the row to scan, where `Scan`
reports the driver's failure, or `sql.ErrNoRows` when no row has that `jid`. -/
def queryChatRow (db : DB) (jid : String) : Except Err Chat × DB :=
  match db.send (.selectChat jid) with
  | (some e, db1) => (.error e, db1)
  | (none, db1) =>
    match (chatRows db1.chats jid).head? with
    | none => (.error .ErrNoRows, db1)
    | some c => (.ok c, db1)

/-- `GetChat`. -/
def GetChat (db : DB) (jid : String) : (Option Chat × Option Err) × DB :=
  let (row, db1) := queryChatRow db jid
  (scanChat row, db1)

/-- `StoreChat`. -/
def StoreChat (db : DB) (chat : Chat) : Option Err × DB :=
  match db.send (.upsertChat chat) with
  | (some e, db1) => (some e, db1)
  | (none, db1) => (none, { db1 with chats := upsertChatRow db1.chats chat })

/-- `StoreMessage`: the upsert is refused by the foreign key `chat_jid → chats.jid` when the chat
is missing. -/
def StoreMessage (db : DB) (message : Message) : Option Err × DB :=
  match db.send (.upsertMessage message) with
  | (some e, db1) => (some e, db1)
  | (none, db1) =>
    if (chatRows db1.chats message.ChatJID).isEmpty then
      (some (.foreignKey "messages_chat_jid_fkey"), db1)
    else (none, { db1 with messages := upsertMessageRow db1.messages message })

/-! ## Event ingestion -/

/-- The `switch jid.Server` of `GetChatNameWithPushName`: the name derived when nothing usable
is stored. -/
def deriveChatName (jid : JID) (senderUser pushName : String) : String :=
  if jid.Server = "g.us" then "Group " ++ jid.User
  else if jid.Server = "newsletter" then "Newsletter " ++ jid.User
  else if pushName ≠ "" ∧ pushName ≠ senderUser ∧ pushName ≠ jid.User then pushName
  else if senderUser ≠ "" then senderUser
  else jid.User

/-- `GetChatNameWithPushName`. -/
def GetChatNameWithPushName (db : DB) (jid : JID) (chatJID senderUser pushName : String) :
    String × DB :=
  let (found, db1) := GetChat db chatJID
  match found with
  | (some existingChat, none) =>
    if existingChat.Name ≠ "" then
      if pushName ≠ "" ∧ (existingChat.Name = jid.User ∨ existingChat.Name = senderUser) then
        (pushName, db1)
      else (existingChat.Name, db1)
    else (deriveChatName jid senderUser pushName, db1)
  | _ => (deriveChatName jid senderUser pushName, db1)

/-- `CreateMessage`. -/
def CreateMessage {P : Type} (x : Extractors P) (db : DB) (evt : Option (Event P)) :
    Option Err × DB :=
  match evt with
  | none => (none, db)
  | some evt =>
    match evt.Message with
    | none => (none, db)
    | some payload =>
      let chatJID := x.JIDString evt.Info.Chat
      let sender := x.JIDString evt.Info.Sender
      let (chatName, db1) :=
        GetChatNameWithPushName db evt.Info.Chat chatJID evt.Info.Sender.User evt.Info.PushName
      match GetChat db1 chatJID with
      | ((_, some err), db2) => (some (.wrap "get chat failed: " err), db2)
      | ((existingChat, none), db2) =>
        let ephemeralExpiration := x.ExtractEphemeralExpiration payload
        let chat : Chat :=
          { JID := chatJID
            Name := chatName
            LastMessageTime := evt.Info.Timestamp
            EphemeralExpiration :=
              if ephemeralExpiration > 0 then ephemeralExpiration
              else match existingChat with
                | some c => c.EphemeralExpiration
                | none => 0 }
        match StoreChat db2 chat with
        | (some err, db3) => (some err, db3)
        | (none, db3) =>
          let content := x.ExtractMessageTextFromProto payload
          let media := x.ExtractMediaInfo payload
          if content = "" ∧ media.mediaType = "" then (none, db3)
          else
            StoreMessage db3
              { ID := evt.Info.ID
                ChatJID := chatJID
                Sender := sender
                Content := content
                Timestamp := evt.Info.Timestamp
                IsFromMe := evt.Info.IsFromMe
                MediaType := media.mediaType
                Filename := media.filename
                URL := media.url
                MediaKey := media.mediaKey
                FileSHA256 := media.fileSHA256
                FileEncSHA256 := media.fileEncSHA256
                FileLength := media.fileLength }

/-! ## Transactions -/

/-- An open `*sql.Tx`: the rows as they were at `Begin`, and whether the transaction is over. -/
structure Tx where
  chats : List Chat
  messages : List Message
  schema_info : List Nat
  schema : List String
  done : Bool
  deriving DecidableEq, Repr

/-- `r.db.Begin()`. -/
def Begin (db : DB) : Except Err Tx × DB :=
  match db.send .txBegin with
  | (some e, db1) => (.error e, db1)
  | (none, db1) =>
    (.ok { chats := db1.chats, messages := db1.messages, schema_info := db1.schema_info,
           schema := db1.schema, done := false }, db1)

/-- What the server does when a transaction is abandoned: the rows are again those of `Begin`. -/
def Tx.restore (tx : Tx) (db : DB) : DB :=
  { db with chats := tx.chats, messages := tx.messages, schema_info := tx.schema_info,
            schema := tx.schema }

/-- `tx.Commit()`: the transaction is over either way; a failed commit keeps nothing. -/
def Tx.Commit (tx : Tx) (db : DB) : Option Err × Tx × DB :=
  match db.send .txCommit with
  | (some e, db1) => (some e, { tx with done := true }, tx.restore db1)
  | (none, db1) => (none, { tx with done := true }, db1)

/-- `tx.Rollback()` with its result dropped, as in `defer tx.Rollback()`: nothing is sent once
the transaction is over (`sql.ErrTxDone`). -/
def Tx.Rollback (tx : Tx) (db : DB) : DB :=
  if tx.done then db else tx.restore (db.send .txRollback).2

/-! ## Schema migration engine -/

/-- `getMigrations`. -/
def getMigrations : List String :=
  [ "
        CREATE TABLE IF NOT EXISTS chats (
            jid TEXT PRIMARY KEY,
            name TEXT NOT NULL,
            last_message_time TIMESTAMP NOT NULL,
            ephemeral_expiration INTEGER DEFAULT 0,
            created_at TIMESTAMP DEFAULT CURRENT_TIMESTAMP,
            updated_at TIMESTAMP DEFAULT CURRENT_TIMESTAMP
        );
        CREATE TABLE IF NOT EXISTS messages (
            id TEXT NOT NULL,
            chat_jid TEXT NOT NULL,
            sender TEXT NOT NULL,
            content TEXT,
            timestamp TIMESTAMP NOT NULL,
            is_from_me BOOLEAN DEFAULT FALSE,
            media_type TEXT,
            filename TEXT,
            url TEXT,
            media_key BYTEA,
            file_sha256 BYTEA,
            file_enc_sha256 BYTEA,
            file_length INTEGER DEFAULT 0,
            created_at TIMESTAMP DEFAULT CURRENT_TIMESTAMP,
            updated_at TIMESTAMP DEFAULT CURRENT_TIMESTAMP,
            PRIMARY KEY (id, chat_jid),
            FOREIGN KEY (chat_jid) REFERENCES chats(jid) ON DELETE CASCADE
        );
        CREATE INDEX IF NOT EXISTS idx_messages_chat_jid ON messages(chat_jid);
        CREATE INDEX IF NOT EXISTS idx_messages_timestamp ON messages(timestamp);
        CREATE INDEX IF NOT EXISTS idx_messages_media_type ON messages(media_type);
        CREATE INDEX IF NOT EXISTS idx_messages_sender ON messages(sender);
        CREATE INDEX IF NOT EXISTS idx_chats_last_message ON chats(last_message_time);
        CREATE INDEX IF NOT EXISTS idx_chats_name ON chats(name);
        ",
    "CREATE INDEX IF NOT EXISTS idx_messages_id ON messages(id);",
    "
        CREATE TABLE IF NOT EXISTS app_users (
            username TEXT PRIMARY KEY,
            password_hash TEXT NOT NULL,
            role TEXT DEFAULT 'admin',
            enabled BOOLEAN DEFAULT TRUE,
            created_at TIMESTAMP DEFAULT CURRENT_TIMESTAMP,
            updated_at TIMESTAMP DEFAULT CURRENT_TIMESTAMP
        );
        CREATE INDEX IF NOT EXISTS idx_app_users_enabled ON app_users(enabled);
        " ]

/-- Effect of `INSERT INTO schema_info (version) VALUES ($1) ON CONFLICT (version) DO UPDATE SET
updated_at = CURRENT_TIMESTAMP` on the recorded versions. -/
def recordVersion (ledger : List Nat) (version : Nat) : List Nat :=
  if version ∈ ledger then ledger else ledger ++ [version]

/-- Value of `SELECT COALESCE(MAX(version), 0) FROM schema_info`. -/
def maxVersion (ledger : List Nat) : Nat :=
  ledger.foldl max 0

/-- `getSchemaVersion`. -/
def getSchemaVersion (db : DB) : (Nat × Option Err) × DB :=
  match db.send .createSchemaInfo with
  | (some err, db1) => ((0, some err), db1)
  | (none, db1) =>
    match db1.send .selectMaxVersion with
    | (some err, db2) => ((0, some err), db2)
    | (none, db2) => ((maxVersion db2.schema_info, none), db2)

/-- `tx.Exec(migration)`: the script's effects join the schema inside the transaction. -/
def execScript (db : DB) (migration : String) : Option Err × DB :=
  match db.send (.txExec migration) with
  | (some e, db1) => (some e, db1)
  | (none, db1) => (none, { db1 with schema := db1.schema ++ [migration] })

/-- `tx.Exec("INSERT INTO schema_info ...", version)`. -/
def execRecordVersion (db : DB) (version : Nat) : Option Err × DB :=
  match db.send (.txUpsertVersion version) with
  | (some e, db1) => (some e, db1)
  | (none, db1) => (none, { db1 with schema_info := recordVersion db1.schema_info version })

/-- `runMigration`; the last line is the deferred `tx.Rollback()`. -/
def runMigration (db : DB) (migration : String) (version : Nat) : Option Err × DB :=
  match Begin db with
  | (.error err, db1) => (some err, db1)
  | (.ok tx, db1) =>
    let (err, tx1, db2) : Option Err × Tx × DB :=
      match execScript db1 migration with
      | (some err, db2) => (some err, tx, db2)
      | (none, db2) =>
        match execRecordVersion db2 version with
        | (some err, db3) => (some err, tx, db3)
        | (none, db3) => tx.Commit db3
    (err, tx1.Rollback db2)

/-- The loop `for i := version; i < len(migrations); i++` of `InitializeSchema`, entered at
index `i` with the migrations from `migrations[i]` on still to run. -/
def runMigrations : List String → Nat → DB → Option Err × DB
  | [], _, db => (none, db)
  | migration :: rest, i, db =>
    match runMigration db migration (i + 1) with
    | (some err, db1) =>
      (some (.wrap ("failed to run migration " ++ toString (i + 1) ++ ": ") err), db1)
    | (none, db1) => runMigrations rest (i + 1) db1

/-- `InitializeSchema`. -/
def InitializeSchema (db : DB) : Option Err × DB :=
  match getSchemaVersion db with
  | ((_, some err), db1) => (some err, db1)
  | ((version, none), db1) => runMigrations (getMigrations.drop version) version db1

/-! ## Fault plans and sample data -/

/-- The `domainChatStorage.Message` literal that `CreateMessage` hands to `StoreMessage`. -/
def storedMessage {P : Type} (x : Extractors P) (evt : Event P) (payload : P) : Message :=
  { ID := evt.Info.ID
    ChatJID := x.JIDString evt.Info.Chat
    Sender := x.JIDString evt.Info.Sender
    Content := x.ExtractMessageTextFromProto payload
    Timestamp := evt.Info.Timestamp
    IsFromMe := evt.Info.IsFromMe
    MediaType := (x.ExtractMediaInfo payload).mediaType
    Filename := (x.ExtractMediaInfo payload).filename
    URL := (x.ExtractMediaInfo payload).url
    MediaKey := (x.ExtractMediaInfo payload).mediaKey
    FileSHA256 := (x.ExtractMediaInfo payload).fileSHA256
    FileEncSHA256 := (x.ExtractMediaInfo payload).fileEncSHA256
    FileLength := (x.ExtractMediaInfo payload).fileLength }

/-- The next `n` round trips to the driver go through. -/
def passes : List (Option Err) → Nat → Bool
  | _, 0 => true
  | [], _ => true
  | f :: rest, n + 1 => f.isNone && passes rest n

/-- No round trip to the driver fails. -/
def healthy (faults : List (Option Err)) : Bool :=
  faults.all Option.isNone

/-- Statements sent by the loop of `InitializeSchema` when the migrations `migrations` run one
after the other without failure, the first of them under index `i + 1`. -/
def migrationTrace : List String → Nat → List Stmt
  | [], _ => []
  | migration :: rest, i =>
    [.txBegin, .txExec migration, .txUpsertVersion (i + 1), .txCommit] ++
      migrationTrace rest (i + 1)

/-- A fresh backend: no table, no ledger entry, a healthy driver. -/
def freshBackend : DB :=
  { chats := [], messages := [], schema_info := [], schema := [], faults := [], trace := [] }

/-- A fresh backend whose driver follows the given fault plan. -/
def faultyBackend (faults : List (Option Err)) : DB :=
  { chats := [], messages := [], schema_info := [], schema := [], faults := faults, trace := [] }

/-- A payload reduced to what the helpers read from it: text, timer, media. -/
structure SamplePayload where
  text : String
  expiration : Nat
  media : MediaInfo
  deriving DecidableEq, Repr

/-- Helpers for `SamplePayload`; an address is printed as `user@server`. -/
def sampleExtractors : Extractors SamplePayload :=
  { JIDString := fun j => j.User ++ "@" ++ j.Server
    ExtractEphemeralExpiration := fun p => p.expiration
    ExtractMessageTextFromProto := fun p => p.text
    ExtractMediaInfo := fun p => p.media }

/-- No media. -/
def noMedia : MediaInfo :=
  { mediaType := "", filename := "", url := "", mediaKey := [], fileSHA256 := [],
    fileEncSHA256 := [], fileLength := 0 }

/-- A direct address. -/
def directJID (user : String) : JID :=
  { User := user, RawAgent := 0, Device := 0, Integrator := 0, Server := "s.whatsapp.net" }

/-- A group address. -/
def groupJID (user : String) : JID :=
  { User := user, RawAgent := 0, Device := 0, Integrator := 0, Server := "g.us" }

/-- A backend holding the given chats and messages, with a healthy driver. -/
def storeOf (chats : List Chat) (messages : List Message) : DB :=
  { chats := chats, messages := messages, schema_info := [], schema := [], faults := [],
    trace := [] }

/-- An image descriptor. -/
def imageMedia : MediaInfo :=
  { mediaType := "image", filename := "cat.jpg", url := "https://mmg.whatsapp.net/cat",
    mediaKey := [1, 2], fileSHA256 := [3], fileEncSHA256 := [4], fileLength := 2048 }

/-- A message `M2` from `628111` in the direct chat with `628111`, with the given text and
media. -/
def mediaEvent (text : String) (media : MediaInfo) (timestamp : Int) : Event SamplePayload :=
  { Info := { Chat := directJID "628111", Sender := directJID "628111", IsFromMe := false,
              ID := "M2", PushName := "John", Timestamp := timestamp }
    Message := some { text := text, expiration := 0, media := media } }

/-- A text message `M3` that `628222` sends in the direct chat with `628111`, carrying the push
name `628111`. -/
def relayedEvent : Event SamplePayload :=
  { Info := { Chat := directJID "628111", Sender := directJID "628222", IsFromMe := false,
              ID := "M3", PushName := "628111", Timestamp := 100 }
    Message := some { text := "hi", expiration := 0, media := noMedia } }

/-- A text message `M1` from `628111` in the direct chat with `628111`. -/
def textEvent (text pushName : String) (timestamp : Int) (expiration : Nat) :
    Event SamplePayload :=
  { Info := { Chat := directJID "628111", Sender := directJID "628111", IsFromMe := false,
              ID := "M1", PushName := pushName, Timestamp := timestamp }
    Message := some { text := text, expiration := expiration, media := noMedia } }

/-! ## Batches -/

/-- `stmt.Exec(m.ID, ...)` on the statement prepared by `StoreMessagesBatch`: the upsert of
`StoreMessage`, inside the transaction. -/
def execPrepared (db : DB) (m : Message) : Option Err × DB :=
  match db.send (.stmtExec m) with
  | (some e, db1) => (some e, db1)
  | (none, db1) =>
    if (chatRows db1.chats m.ChatJID).isEmpty then
      (some (.foreignKey "messages_chat_jid_fkey"), db1)
    else (none, { db1 with messages := upsertMessageRow db1.messages m })

/-- The loop `for _, m := range messages` of `StoreMessagesBatch`: it stops at the first
failure. -/
def execBatch : List Message → DB → Option Err × DB
  | [], db => (none, db)
  | m :: rest, db =>
    match execPrepared db m with
    | (some err, db1) => (some err, db1)
    | (none, db1) => execBatch rest db1

/-- `stmt.Close()` with its result dropped, as in `defer stmt.Close()`; the statements of a
finished transaction are closed already. -/
def closePrepared (tx : Tx) (db : DB) : DB :=
  if tx.done then db else (db.send .stmtClose).2

/-- `StoreMessagesBatch`; the deferred calls run last, `stmt.Close()` before
`tx.Rollback()`. -/
def StoreMessagesBatch (db : DB) (messages : List Message) : Option Err × DB :=
  match Begin db with
  | (.error err, db1) => (some err, db1)
  | (.ok tx, db1) =>
    let (err, tx1, db2) : Option Err × Tx × DB :=
      match db1.send .txPrepare with
      | (some err, db2) => (some err, tx, db2)
      | (none, db2) =>
        let (err, tx1, db3) : Option Err × Tx × DB :=
          match execBatch messages db2 with
          | (some err, db3) => (some err, tx, db3)
          | (none, db3) => tx.Commit db3
        (err, tx1, closePrepared tx1 db3)
    (err, tx1.Rollback db2)

/-! ## Start-up -/

/-- Whether a statement is data definition: the unconditional `CREATE TABLE IF NOT EXISTS
schema_info` of `getSchemaVersion` and the versioned scripts. -/
def Stmt.isDDL : Stmt → Bool
  | .createSchemaInfo => true
  | .txExec _ => true
  | _ => false

/-- Steps of `initApp`, in the order of the source. -/
inductive StartupStep where
  | createFolder
  | initChatStorage
  | fatal (msg : String)
  | initializeSchema
  | seedDefaultAdmin
  | initAuthDBPostgres
  | initWaDB
  | initWaCLI
  | newUsecases
  deriving DecidableEq, Repr

/-- Outcome of `initApp`: the steps taken, whether the process was ended by `logrus.Fatalf`,
and the chat storage after `InitializeSchema`. -/
structure Startup where
  steps : List StartupStep
  exited : Bool
  storage : Option DB
  deriving DecidableEq, Repr

/-- `initApp`, for the outcome `opened` of `initChatStorage` and the method
`chatStorageRepo.InitializeSchema` of the repository selected; the value that method returns
is not bound to anything in the source. -/
def initApp (opened : Except Err DB) (initializeSchema : DB → Option Err × DB) : Startup :=
  match opened with
  | .error err =>
    { steps := [.createFolder, .initChatStorage,
        .fatal ("failed to initialize chat storage: " ++ err.Error)]
      exited := true
      storage := none }
  | .ok chatStorageDB =>
    let chatStorageDB1 := (initializeSchema chatStorageDB).2
    { steps := [.createFolder, .initChatStorage, .initializeSchema, .seedDefaultAdmin,
        .initAuthDBPostgres, .initWaDB, .initWaCLI, .newUsecases]
      exited := false
      storage := some chatStorageDB1 }

/-- A text message row. -/
def textMessage (id chatJID content : String) (timestamp : Int) : Message :=
  { ID := id, ChatJID := chatJID, Sender := "628111@s.whatsapp.net", Content := content,
    Timestamp := timestamp, IsFromMe := false, MediaType := "", Filename := "", URL := "",
    MediaKey := [], FileSHA256 := [], FileEncSHA256 := [], FileLength := 0 }

/-- A message row with a media type. -/
def mediaMessage (id chatJID mediaType : String) (timestamp : Int) : Message :=
  { ID := id, ChatJID := chatJID, Sender := "628111@s.whatsapp.net", Content := "",
    Timestamp := timestamp, IsFromMe := false, MediaType := mediaType, Filename := "f",
    URL := "u", MediaKey := [], FileSHA256 := [], FileEncSHA256 := [], FileLength := 1 }

/-- Five messages, the third of which names the chat `Y`. -/
def sampleBatch : List Message :=
  [textMessage "A1" "X" "one" 1, textMessage "A2" "X" "two" 2, textMessage "A3" "Y" "three" 3,
    textMessage "A4" "X" "four" 4, textMessage "A5" "X" "five" 5]

/-! ## Listings -/

/-- `domainChatStorage.MessageFilter`, the fields that `GetMessages` reads; a nil pointer
field is `none`. -/
structure MessageFilter where
  ChatJID : String
  StartTime : Option Int
  EndTime : Option Int
  MediaOnly : Bool
  IsFromMe : Option Bool
  Limit : Int
  deriving DecidableEq, Repr

/-- `domainChatStorage.ChatFilter`, the fields that `GetChats` reads. -/
structure ChatFilter where
  SearchName : String
  HasMedia : Bool
  Limit : Int
  Offset : Int
  deriving DecidableEq, Repr

/-- The SQL text of a condition, as written in the source. -/
def Cond.sql : Cond → String
  | .chatJidEq p => "chat_jid = $" ++ toString p
  | .timestampGe p => "timestamp >= $" ++ toString p
  | .timestampLe p => "timestamp <= $" ++ toString p
  | .mediaTypeSet => "media_type <> ''"
  | .isFromMeEq p => "is_from_me = $" ++ toString p
  | .contentILike p => "content ILIKE $" ++ toString p
  | .nameILike p => "c.name ILIKE $" ++ toString p
  | .hasMediaMessage =>
    "EXISTS (SELECT 1 FROM messages m WHERE m.chat_jid = c.jid AND m.media_type <> '')"

/-- The SQL text of a listing, assembled as `GetMessages` and `GetChats` assemble `base`:
the columns, ` WHERE ` and the conditions joined by ` AND ` when there is one, the ordering,
then ` LIMIT $l` and ` OFFSET $o`. -/
def Select.sql (q : Select) : String :=
  let base :=
    match q.table with
    | .messages =>
      "SELECT id, chat_jid, sender, content, timestamp, is_from_me, media_type, filename, url, media_key, file_sha256, file_enc_sha256, file_length, created_at, updated_at FROM messages"
    | .chats =>
      "SELECT jid, name, last_message_time, ephemeral_expiration, created_at, updated_at FROM chats c"
  let base :=
    if q.conds.length > 0 then base ++ " WHERE " ++ " AND ".intercalate (q.conds.map Cond.sql)
    else base
  let base :=
    match q.table with
    | .messages => base ++ " ORDER BY timestamp DESC"
    | .chats => base ++ " ORDER BY last_message_time DESC"
  let base :=
    match q.limit with
    | some p => base ++ " LIMIT $" ++ toString p
    | none => base
  match q.offset with
  | some p => base ++ " OFFSET $" ++ toString p
  | none => base

/-- The value bound to placeholder `$p`; placeholders are numbered from 1. -/
def bound (args : List Arg) : Nat → Option Arg
  | 0 => none
  | p + 1 => args.get? p

/-- What a `LIKE` pattern is made of: `%`, `_`, a character standing for itself, and the
lone backslash that ends a pattern. -/
inductive LikeToken where
  | any
  | one
  | lit (c : Char)
  | never
  deriving DecidableEq, Repr

/-- Reading of a `LIKE` pattern: `%` stands for any run of characters, `_` for one character,
and a backslash makes the next character stand for itself; the flag tells whether the
character before was such a backslash. -/
def likeTokens : Bool → List Char → List LikeToken
  | true, [] => [.never]
  | false, [] => []
  | true, c :: p => .lit c :: likeTokens false p
  | false, c :: p =>
    if c = '\\' then likeTokens true p
    else (if c = '%' then LikeToken.any else if c = '_' then .one else .lit c) ::
      likeTokens false p

/-- Whether the text matches the pattern read. A pattern ending in a lone backslash matches
nothing here (the server rejects it; no pattern built in this file ends so). -/
def matchTokens : List LikeToken → List Char → Bool
  | [], s => s.isEmpty
  | .any :: p, s => s.tails.any (fun t => matchTokens p t)
  | .one :: _, [] => false
  | .one :: p, _ :: s => matchTokens p s
  | .lit _ :: _, [] => false
  | .lit c :: p, d :: s => d == c && matchTokens p s
  | .never :: _, _ => false

/-- `LIKE` of the server. -/
def likeMatch (pattern text : List Char) : Bool :=
  matchTokens (likeTokens false pattern) text

/-- `text ILIKE pattern`: `LIKE` after both sides are put in lower case (the letters `A` to
`Z`, as in the C locale). -/
def ilike (pattern text : String) : Bool :=
  likeMatch (pattern.toList.map Char.toLower) (text.toList.map Char.toLower)

/-- Truth of a condition on a row of `messages`; `none` when the condition cannot be evaluated
on that table or with the values bound. -/
def Cond.onMessage (args : List Arg) (m : Message) : Cond → Option Bool
  | .chatJidEq p =>
    match bound args p with
    | some (.text s) => some (decide (m.ChatJID = s))
    | _ => none
  | .timestampGe p =>
    match bound args p with
    | some (.time t) => some (decide (t ≤ m.Timestamp))
    | _ => none
  | .timestampLe p =>
    match bound args p with
    | some (.time t) => some (decide (m.Timestamp ≤ t))
    | _ => none
  | .mediaTypeSet => some (decide (m.MediaType ≠ ""))
  | .isFromMeEq p =>
    match bound args p with
    | some (.bool b) => some (decide (m.IsFromMe = b))
    | _ => none
  | .contentILike p =>
    match bound args p with
    | some (.text pattern) => some (ilike pattern m.Content)
    | _ => none
  | .nameILike _ => none
  | .hasMediaMessage => none

/-- Truth of a condition on a row `c` of `chats`, the table `messages` being at hand for the
`EXISTS` subquery. -/
def Cond.onChat (args : List Arg) (messages : List Message) (c : Chat) : Cond → Option Bool
  | .nameILike p =>
    match bound args p with
    | some (.text pattern) => some (ilike pattern c.Name)
    | _ => none
  | .hasMediaMessage =>
    some (messages.any (fun m => decide (m.ChatJID = c.JID) && decide (m.MediaType ≠ "")))
  | _ => none

/-- Conjunction of the conditions of a `WHERE` clause on one row. -/
def allHold {α : Type} (eval : Cond → α → Option Bool) : List Cond → α → Option Bool
  | [], _ => some true
  | c :: rest, row =>
    match eval c row, allHold eval rest row with
    | some a, some b => some (a && b)
    | _, _ => none

/-- The rows on which a condition holds; `none` when it cannot be evaluated on some row. -/
def keepRows {α : Type} (p : α → Option Bool) : List α → Option (List α)
  | [] => some []
  | row :: rest =>
    match p row, keepRows p rest with
    | some true, some kept => some (row :: kept)
    | some false, some kept => some kept
    | _, _ => none

/-- The row count of a `LIMIT` or `OFFSET` clause: the server refuses a negative one. -/
def rowCount (clause : String) (args : List Arg) : Option Nat → Except Err (Option Nat)
  | none => .ok none
  | some p =>
    match bound args p with
    | some (.int n) =>
      if n < 0 then .error (.driver ("pq: " ++ clause ++ " must not be negative"))
      else .ok (some n.toNat)
    | _ => .error (.driver "pq: could not determine data type of parameter")

/-- `LIMIT`. -/
def limitRows {α : Type} : Option Nat → List α → List α
  | none, rows => rows
  | some n, rows => rows.take n

/-- `OFFSET`. -/
def offsetRows {α : Type} : Option Nat → List α → List α
  | none, rows => rows
  | some n, rows => rows.drop n

/-- `ORDER BY timestamp DESC`; rows with equal timestamps keep their order in the table. -/
def newestFirst (rows : List Message) : List Message :=
  rows.insertionSort (fun a b => b.Timestamp ≤ a.Timestamp)

/-- `ORDER BY last_message_time DESC`. -/
def latestFirst (rows : List Chat) : List Chat :=
  rows.insertionSort (fun a b => b.LastMessageTime ≤ a.LastMessageTime)

/-- The rows a listing of `messages` returns. -/
def Select.messages (q : Select) (args : List Arg) (db : DB) : Except Err (List Message) :=
  match keepRows (allHold (fun c row => Cond.onMessage args row c) q.conds) db.messages with
  | none => .error (.driver "pq: the statement cannot be evaluated")
  | some rows =>
    match rowCount "OFFSET" args q.offset, rowCount "LIMIT" args q.limit with
    | .ok offset, .ok limit => .ok (limitRows limit (offsetRows offset (newestFirst rows)))
    | .error e, _ => .error e
    | _, .error e => .error e

/-- The rows a listing of `chats` returns. -/
def Select.chats (q : Select) (args : List Arg) (db : DB) : Except Err (List Chat) :=
  match keepRows (allHold (fun c row => Cond.onChat args db.messages row c) q.conds) db.chats with
  | none => .error (.driver "pq: the statement cannot be evaluated")
  | some rows =>
    match rowCount "OFFSET" args q.offset, rowCount "LIMIT" args q.limit with
    | .ok offset, .ok limit => .ok (limitRows limit (offsetRows offset (latestFirst rows)))
    | .error e, _ => .error e
    | _, .error e => .error e

/-- `r.db.Query(base, args...)` on `messages` followed by the scan loop. -/
def queryMessages (db : DB) (q : Select) (args : List Arg) : Except Err (List Message) × DB :=
  match db.send (.query q args) with
  | (some e, db1) => (.error e, db1)
  | (none, db1) => (q.messages args db1, db1)

/-- `r.db.Query(base, args...)` on `chats` followed by the scan loop. -/
def queryChats (db : DB) (q : Select) (args : List Arg) : Except Err (List Chat) × DB :=
  match db.send (.query q args) with
  | (some e, db1) => (.error e, db1)
  | (none, db1) => (q.chats args db1, db1)

/-- The statement and the argument list that `GetMessages` assembles (lines 192 to 223). -/
def messagesQuery (filter : Option MessageFilter) : Select × List Arg :=
  let conds : List Cond := []
  let args : List Arg := []
  let (conds, args) : List Cond × List Arg :=
    match filter with
    | none => (conds, args)
    | some filter =>
      let (conds, args) : List Cond × List Arg :=
        if filter.ChatJID ≠ "" then
          (conds ++ [Cond.chatJidEq (args.length + 1)], args ++ [Arg.text filter.ChatJID])
        else (conds, args)
      let (conds, args) : List Cond × List Arg :=
        match filter.StartTime with
        | some t => (conds ++ [Cond.timestampGe (args.length + 1)], args ++ [Arg.time t])
        | none => (conds, args)
      let (conds, args) : List Cond × List Arg :=
        match filter.EndTime with
        | some t => (conds ++ [Cond.timestampLe (args.length + 1)], args ++ [Arg.time t])
        | none => (conds, args)
      let conds := if filter.MediaOnly then conds ++ [Cond.mediaTypeSet] else conds
      match filter.IsFromMe with
      | some b => (conds ++ [Cond.isFromMeEq (args.length + 1)], args ++ [Arg.bool b])
      | none => (conds, args)
  let (limit, args) : Option Nat × List Arg :=
    match filter with
    | some filter =>
      if filter.Limit > 0 then (some (args.length + 1), args ++ [Arg.int filter.Limit])
      else (none, args)
    | none => (none, args)
  ({ table := .messages, conds := conds, limit := limit, offset := none }, args)

/-- `GetMessages`. -/
def GetMessages (db : DB) (filter : Option MessageFilter) : Except Err (List Message) × DB :=
  queryMessages db (messagesQuery filter).1 (messagesQuery filter).2

/-- `SearchMessages`. -/
def SearchMessages (db : DB) (chatJID searchText : String) (limit : Int) :
    Except Err (List Message) × DB :=
  queryMessages db
    { table := .messages, conds := [Cond.chatJidEq 1, Cond.contentILike 2], limit := some 3,
      offset := none }
    [Arg.text chatJID, Arg.text ("%" ++ searchText ++ "%"), Arg.int limit]

/-- The statement and the argument list that `GetChats` assembles (lines 55 to 84). -/
def chatsQuery (filter : Option ChatFilter) : Select × List Arg :=
  let conds : List Cond := []
  let args : List Arg := []
  let (conds, args) : List Cond × List Arg :=
    match filter with
    | none => (conds, args)
    | some filter =>
      let (conds, args) : List Cond × List Arg :=
        if filter.SearchName ≠ "" then
          (conds ++ [Cond.nameILike (args.length + 1)],
            args ++ [Arg.text ("%" ++ filter.SearchName ++ "%")])
        else (conds, args)
      let conds := if filter.HasMedia then conds ++ [Cond.hasMediaMessage] else conds
      (conds, args)
  let (limit, offset, args) : Option Nat × Option Nat × List Arg :=
    match filter with
    | none => (none, none, args)
    | some filter =>
      let (limit, args) : Option Nat × List Arg :=
        if filter.Limit > 0 then (some (args.length + 1), args ++ [Arg.int filter.Limit])
        else (none, args)
      let (offset, args) : Option Nat × List Arg :=
        if filter.Offset > 0 then (some (args.length + 1), args ++ [Arg.int filter.Offset])
        else (none, args)
      (limit, offset, args)
  ({ table := .chats, conds := conds, limit := limit, offset := offset }, args)

/-- `GetChats`. -/
def GetChats (db : DB) (filter : Option ChatFilter) : Except Err (List Chat) × DB :=
  queryChats db (chatsQuery filter).1 (chatsQuery filter).2

instance {ε α : Type} [DecidableEq ε] [DecidableEq α] : DecidableEq (Except ε α)
  | .ok a, .ok b => if h : a = b then isTrue (by rw [h]) else isFalse (fun e => h (by cases e; rfl))
  | .error a, .error b =>
    if h : a = b then isTrue (by rw [h]) else isFalse (fun e => h (by cases e; rfl))
  | .ok _, .error _ => isFalse (fun e => by cases e)
  | .error _, .ok _ => isFalse (fun e => by cases e)

/-! ## What the listings are asked to return -/

/-- The wording of the claim on `GetMessages`: the chat JID is equal when the filter names
one, the timestamp is within `StartTime` and `EndTime` inclusive when given, the media type is
non-empty when `MediaOnly`, `IsFromMe` is equal when given. -/
def MessageFilter.admits (f : MessageFilter) (m : Message) : Bool :=
  (decide (f.ChatJID = "") || decide (m.ChatJID = f.ChatJID)) &&
  ((match f.StartTime with
    | some t => decide (t ≤ m.Timestamp)
    | none => true) &&
  ((match f.EndTime with
    | some t => decide (m.Timestamp ≤ t)
    | none => true) &&
  ((!f.MediaOnly || decide (m.MediaType ≠ "")) &&
  (match f.IsFromMe with
    | some b => decide (m.IsFromMe = b)
    | none => true))))

/-- A nil filter admits every message. -/
def admitsMessage : Option MessageFilter → Message → Bool
  | none, _ => true
  | some f, m => f.admits m

/-- The first `limit` rows when `limit > 0`, every row otherwise. -/
def cutTo {α : Type} (limit : Int) (rows : List α) : List α :=
  if limit > 0 then rows.take limit.toNat else rows

/-- The rows after the first `offset` ones when `offset > 0`, every row otherwise. -/
def skipTo {α : Type} (offset : Int) (rows : List α) : List α :=
  if offset > 0 then rows.drop offset.toNat else rows

/-- Case-insensitive containment: `sub`, in lower case, is a run of consecutive characters of
`text` in lower case. -/
def containsFold (text sub : String) : Prop :=
  (sub.toList.map Char.toLower) <:+: (text.toList.map Char.toLower)

instance (text sub : String) : Decidable (containsFold text sub) :=
  inferInstanceAs (Decidable (_ <:+: _))

/-- Whether a chat has at least one message with a non-empty media type. -/
def hasMedia (messages : List Message) (c : Chat) : Bool :=
  messages.any (fun m => decide (m.ChatJID = c.JID) && decide (m.MediaType ≠ ""))

/-- Whether a text is free of the characters that `LIKE` reads as more than themselves. -/
def plainText (s : String) : Bool :=
  s.toList.all (fun c => decide (c ≠ '%') && decide (c ≠ '_') && decide (c ≠ '\\'))

/-! ## Placeholders of a statement text -/

/-- One step of the scan for placeholders: the numbers read so far, and what is being read
(`none` outside a placeholder, `some none` right after `$`, `some (some n)` within digits). -/
def scanStep (st : List Nat × Option (Option Nat)) (c : Char) :
    List Nat × Option (Option Nat) :=
  if c = '$' then
    match st.2 with
    | some (some n) => (st.1 ++ [n], some none)
    | _ => (st.1, some none)
  else if c.isDigit then
    match st.2 with
    | some (some n) => (st.1, some (some (10 * n + (c.toNat - 48))))
    | some none => (st.1, some (some (c.toNat - 48)))
    | none => (st.1, none)
  else
    match st.2 with
    | some (some n) => (st.1 ++ [n], none)
    | _ => (st.1, none)

/-- The placeholders `$n` of a statement text, in their order of appearance. -/
def placeholders (text : String) : List Nat :=
  match text.toList.foldl scanStep ([], none) with
  | (out, some (some n)) => out ++ [n]
  | (out, _) => out

/-- Messages of the chats `X` and `Y`: two of the five messages of `X` carry a media type. -/
def sampleMessages : List Message :=
  [textMessage "1" "X" "abc" 1, mediaMessage "2" "X" "image" 2,
    textMessage "3" "X" "Hello a_c" 3, mediaMessage "4" "X" "video" 4,
    textMessage "5" "X" "five" 5, mediaMessage "6" "Y" "image" 6]

/-- A store with the chats `X` (Alice) and `Y` (Bob) and the sample messages. -/
def sampleStore : DB :=
  storeOf [⟨"X", "Alice", 10, 0⟩, ⟨"Y", "Bob", 20, 0⟩] sampleMessages

/-- What the statement of `SearchMessages` selects: the chat JID is equal and the content
matches the pattern `%searchText%`. -/
def likeSearch (chatJID searchText : String) (m : Message) : Bool :=
  decide (m.ChatJID = chatJID) && ilike ("%" ++ searchText ++ "%") m.Content

/-- The wording of the claim on `SearchMessages`: a message of that chat whose content
contains the search text as a case-insensitive substring. -/
def foundBySearch (chatJID searchText : String) (m : Message) : Prop :=
  m.ChatJID = chatJID ∧ containsFold m.Content searchText

instance (chatJID searchText : String) (m : Message) :
    Decidable (foundBySearch chatJID searchText m) :=
  inferInstanceAs (Decidable (_ ∧ _))

/-- What the statement of `GetChats` selects: the name matches the pattern `%SearchName%` when
`SearchName` is non-empty, and the chat has a media message when `HasMedia`. -/
def ChatFilter.matchesLike (f : ChatFilter) (messages : List Message) (c : Chat) : Bool :=
  (decide (f.SearchName = "") || ilike ("%" ++ f.SearchName ++ "%") c.Name) &&
    (!f.HasMedia || hasMedia messages c)

/-- The wording of the claim on `GetChats`: the name contains `SearchName` case-insensitively
when `SearchName` is non-empty, and the chat has at least one message with a non-empty media
type when `HasMedia`. -/
def ChatFilter.admits (f : ChatFilter) (messages : List Message) (c : Chat) : Prop :=
  (f.SearchName ≠ "" → containsFold c.Name f.SearchName) ∧
    (f.HasMedia = true → hasMedia messages c = true)

/-! ## Basic authentication against `app_users`

A shallow embedding of `SQLBasicAuthPostgres` of `src/ui/rest/middleware/sql_basicauth_pg.go`.

* A Go string is a sequence of bytes; it is a `String` here, one character for each byte (the
  decoder below yields characters of code below 256).
* The handle `db` of the middleware is the explicit state `AuthDB`: the rows of `app_users`, a
  fault plan read as the one of `DB`, and the usernames looked up.
* `*fiber.Ctx` is the explicit state `Ctx`: the headers of the request and the calls made on
  the context that answer the request or hand it on.
* `bcrypt.CompareHashAndPassword` (golang.org/x/crypto) is a parameter; `strings.HasPrefix`,
  `strings.TrimPrefix`, `strings.SplitN` and `base64.StdEncoding.DecodeString` are modelled on
  the Go standard library.
-/

/-- Row of `app_users`, the columns the middleware reads: `username TEXT PRIMARY KEY`,
`password_hash TEXT NOT NULL`, `enabled BOOLEAN DEFAULT TRUE`, which may hold `NULL`
(`ensurePGAppUsers` in `cmd/root.go`). -/
structure AppUser where
  username : String
  password_hash : String
  enabled : Option Bool
  deriving DecidableEq, Repr

/-- State of the backend behind the handle `db` of the middleware. -/
structure AuthDB where
  app_users : List AppUser
  faults : List (Option Err)
  lookups : List String
  deriving DecidableEq, Repr

/-- Primary key of `app_users`: no two rows share a `username`. -/
def usersKeyed (users : List AppUser) : Prop :=
  (users.map (fun u => u.username)).Nodup

instance (users : List AppUser) : Decidable (usersKeyed users) :=
  inferInstanceAs (Decidable (List.Nodup _))

/-- Rows of `app_users` with the given `username`. -/
def userRows (users : List AppUser) (username : String) : List AppUser :=
  users.filter (fun u => decide (u.username = username))

/-- One round trip of the middleware to the driver: the username is appended to the lookups and
the head of the fault plan tells whether the driver reports a failure. -/
def AuthDB.send (db : AuthDB) (username : String) : Option Err × AuthDB :=
  match db.faults with
  | [] => (none, { db with lookups := db.lookups ++ [username] })
  | f :: rest => (f, { db with faults := rest, lookups := db.lookups ++ [username] })

/-- The statement
`db.QueryRow("SELECT password_hash, enabled FROM app_users WHERE username = $1", username)`
followed by `.Scan(&hash, &enabled)`: the driver's failure, `sql.ErrNoRows` when no row has that
username, the error of `Scan` when `enabled` holds `NULL`, the two columns otherwise. -/
def scanUser (db : AuthDB) (username : String) : Except Err (String × Bool) × AuthDB :=
  match db.send username with
  | (some e, db1) => (.error e, db1)
  | (none, db1) =>
    match (userRows db1.app_users username).head? with
    | none => (.error .ErrNoRows, db1)
    | some u =>
      match u.enabled with
      | none =>
        (.error (.driver "sql: Scan error on column index 1, name \"enabled\": sql/driver: couldn't convert <nil> (<nil>) into type bool"),
          db1)
      | some enabled => (.ok (u.password_hash, enabled), db1)

/-- Calls on `*fiber.Ctx` that answer the request or hand it on. -/
inductive CtxCall where
  | Set (key val : String)
  | SendStatus (status : Nat)
  | Next
  deriving DecidableEq, Repr

/-- The context `*fiber.Ctx` of a request: the headers of the request and the calls made so far. -/
structure Ctx where
  headers : List (String × String)
  calls : List CtxCall
  deriving DecidableEq, Repr

/-- `c.Get(key)`: the value of the request header, the empty string when it is absent. -/
def Ctx.Get (c : Ctx) (key : String) : String :=
  match c.headers.find? (fun h => decide (h.1 = key)) with
  | some h => h.2
  | none => ""

/-- `c.Set(key, val)`. -/
def Ctx.Set (c : Ctx) (key val : String) : Ctx :=
  { c with calls := c.calls ++ [.Set key val] }

/-- `c.SendStatus(status)`. -/
def Ctx.SendStatus (c : Ctx) (status : Nat) : Ctx :=
  { c with calls := c.calls ++ [.SendStatus status] }

/-- `c.Next()`: the request is handed to the next handler of the chain, whose own work is not
part of the middleware. -/
def Ctx.Next (c : Ctx) : Ctx :=
  { c with calls := c.calls ++ [.Next] }

/-- `strings.HasPrefix`. -/
def HasPrefix (s pre : String) : Bool :=
  pre.toList.isPrefixOf s.toList

/-- `strings.TrimPrefix`. -/
def TrimPrefix (s pre : String) : String :=
  if HasPrefix s pre then String.mk (s.toList.drop pre.length) else s

/-- `strings.SplitN(s, sep, 2)` for a separator `sep` of one byte: `s` alone when it does not
hold the separator, else what stands before the first separator and what stands after it. -/
def SplitN (s : String) (sep : Char) : List String :=
  match s.toList.span (fun ch => decide (ch ≠ sep)) with
  | (before, _ :: after) => [String.mk before, String.mk after]
  | (_, []) => [s]

/-- `enc.decodeMap` of `base64.StdEncoding`: the value of a character of the alphabet
`A-Z a-z 0-9 + /`, nothing (`0xff` in the source) for any other byte. -/
def decodeMap (ch : Char) : Option Nat :=
  if 65 ≤ ch.toNat ∧ ch.toNat ≤ 90 then some (ch.toNat - 65)
  else if 97 ≤ ch.toNat ∧ ch.toNat ≤ 122 then some (ch.toNat - 97 + 26)
  else if 48 ≤ ch.toNat ∧ ch.toNat ≤ 57 then some (ch.toNat - 48 + 52)
  else if ch = '+' then some 62
  else if ch = '/' then some 63
  else none

/-- The loop `for si < len(src) && (src[si] == '\n' || src[si] == '\r') { si++ }` of
`decodeQuantum`: what is left of the input and the index reached. -/
def skipNewlines : List Char → Nat → List Char × Nat
  | [], si => ([], si)
  | ch :: src, si =>
    if ch = '\n' ∨ ch = '\r' then skipNewlines src (si + 1) else (ch :: src, si)

/-- The end of `decodeQuantum`: the `dlen` values of six bits gathered in `dbuf` (the missing
ones are zero) are put together into 24 bits, of which the first `dlen - 1` bytes are kept. -/
def quantumBytes (dbuf : List Nat) : List Char :=
  let val := dbuf.getD 0 0 * 262144 + dbuf.getD 1 0 * 4096 + dbuf.getD 2 0 * 64 + dbuf.getD 3 0
  ([val / 65536 % 256, val / 256 % 256, val % 256].take (dbuf.length - 1)).map Char.ofNat

/-- The loop of `Encoding.Decode` over `decodeQuantum` for `base64.StdEncoding` (padding `=`,
not strict): `src` is the input from index `si` on, `dbuf` the values gathered for the quantum
under way and `dst` the bytes written. An error is a `CorruptInputError`, the index of the
offending byte. -/
def decodeFrom : List Char → Nat → List Nat → List Char → Except Nat (List Char)
  | [], si, dbuf, dst => if dbuf.length = 0 then .ok dst else .error (si - dbuf.length)
  | ch :: src, si, dbuf, dst =>
    match decodeMap ch with
    | some out =>
      if dbuf.length = 3 then decodeFrom src (si + 1) [] (dst ++ quantumBytes (dbuf ++ [out]))
      else decodeFrom src (si + 1) (dbuf ++ [out]) dst
    | none =>
      if ch = '\n' ∨ ch = '\r' then decodeFrom src (si + 1) dbuf dst
      else if ch ≠ '=' then .error si
      else if dbuf.length < 2 then .error si
      else if dbuf.length = 2 then
        match skipNewlines src (si + 1) with
        | ([], si1) => .error si1
        | (pad :: src1, si1) =>
          if pad ≠ '=' then .error (si1 - 1)
          else
            match skipNewlines src1 (si1 + 1) with
            | ([], _) => .ok (dst ++ quantumBytes dbuf)
            | (_ :: _, si2) => .error si2
      else
        match skipNewlines src (si + 1) with
        | ([], _) => .ok (dst ++ quantumBytes dbuf)
        | (_ :: _, si2) => .error si2

/-- `base64.StdEncoding.DecodeString`. -/
def DecodeString (s : String) : Except Nat String :=
  match decodeFrom s.toList 0 [] [] with
  | .ok dst => .ok (String.mk dst)
  | .error si => .error si

/-- `SQLBasicAuthPostgres(db)`, the handler returned, run on the context `c`; the error it
returns is the one of `c.SendStatus` or of the handlers further down and is left out. -/
def SQLBasicAuthPostgres (CompareHashAndPassword : String → String → Option Err) (db : AuthDB)
    (c : Ctx) : Ctx × AuthDB :=
  let unauthorized (db : AuthDB) : Ctx × AuthDB :=
    ((c.Set "WWW-Authenticate" "Basic realm=\"Restricted\"").SendStatus 401, db)
  let auth := c.Get "Authorization"
  if HasPrefix auth "Basic " then
    let payload := TrimPrefix auth "Basic "
    match DecodeString payload with
    | .ok decoded =>
      match SplitN decoded ':' with
      | [username, password] =>
        match scanUser db username with
        | (.ok (hash, enabled), db1) =>
          if enabled then
            if CompareHashAndPassword hash password = none then (c.Next, db1)
            else unauthorized db1
          else unauthorized db1
        | (.error _, db1) => unauthorized db1
      | _ => unauthorized db
    | .error _ => unauthorized db
  else unauthorized db

/-- A stand-in for `bcrypt.CompareHashAndPassword` on sample data: the hash of `password` is
written `bcrypt(password)`. -/
def sampleCompare (hash password : String) : Option Err :=
  if hash = "bcrypt(" ++ password ++ ")" then none
  else some (.driver "crypto/bcrypt: hashedPassword is not the hash of the given password")

/-- Sample rows of `app_users`: an enabled user, a disabled one, and one whose `enabled` is
`NULL`. -/
def sampleUsers : List AppUser :=
  [⟨"admin", "bcrypt(s:cret)", some true⟩, ⟨"guest", "bcrypt(pw)", some false⟩,
    ⟨"ghost", "bcrypt(pw)", none⟩]

/-- A request whose `Authorization` header is `auth`. -/
def requestWith (auth : String) : Ctx :=
  { headers := [("Authorization", auth)], calls := [] }

end ChatStorage

/-! # Theorems -/

namespace ChatStorage

/-! ## The driver -/

@[simp] theorem send_chats (db : DB) (s : Stmt) : (db.send s).2.chats = db.chats := by
  unfold DB.send; cases db.faults <;> rfl

@[simp] theorem send_messages (db : DB) (s : Stmt) : (db.send s).2.messages = db.messages := by
  unfold DB.send; cases db.faults <;> rfl

@[simp] theorem send_schema_info (db : DB) (s : Stmt) :
    (db.send s).2.schema_info = db.schema_info := by
  unfold DB.send; cases db.faults <;> rfl

@[simp] theorem send_schema (db : DB) (s : Stmt) : (db.send s).2.schema = db.schema := by
  unfold DB.send; cases db.faults <;> rfl

@[simp] theorem send_trace (db : DB) (s : Stmt) : (db.send s).2.trace = db.trace ++ [s] := by
  unfold DB.send; cases db.faults <;> rfl

@[simp] theorem send_faults (db : DB) (s : Stmt) : (db.send s).2.faults = db.faults.tail := by
  unfold DB.send; cases db.faults <;> rfl

theorem send_fst (db : DB) (s : Stmt) : (db.send s).1 = db.faults.head?.join := by
  unfold DB.send; cases db.faults <;> rfl

theorem passes_succ {fs : List (Option Err)} {n : Nat} (h : passes fs (n + 1) = true) :
    fs.head?.join = none ∧ passes fs.tail n = true := by
  cases fs with
  | nil => cases n <;> simp [passes]
  | cons f rest =>
    simp only [passes, Bool.and_eq_true, Option.isNone_iff_eq_none] at h
    simp [h.1, h.2]

theorem passes_pred {fs : List (Option Err)} {n : Nat} (h : passes fs (n + 1) = true) :
    passes fs n = true := by
  induction n generalizing fs with
  | zero => cases fs <;> rfl
  | succ k ih =>
    cases fs with
    | nil => rfl
    | cons f rest =>
      simp only [passes, Bool.and_eq_true] at h ⊢
      exact ⟨h.1, ih h.2⟩

/-! ## Chat lookup -/

theorem GetChat_snd (db : DB) (jid : String) :
    (GetChat db jid).2 = (db.send (.selectChat jid)).2 := by
  unfold GetChat queryChatRow
  rcases h : db.send (.selectChat jid) with ⟨_ | e, db1⟩
  · simp only []
    cases (chatRows db1.chats jid).head? <;> rfl
  · rfl

theorem GetChat_fst (db : DB) (jid : String) :
    (GetChat db jid).1 =
      match (db.send (.selectChat jid)).1 with
      | some e => (none, some e)
      | none =>
        match (chatRows db.chats jid).head? with
        | none => (none, some .ErrNoRows)
        | some c => (some c, none) := by
  unfold GetChat queryChatRow
  rcases h : db.send (.selectChat jid) with ⟨_ | e, db1⟩
  · have hc : db1.chats = db.chats := by
      have := send_chats db (.selectChat jid); rw [h] at this; exact this
    simp only [hc]
    cases (chatRows db.chats jid).head? <;> rfl
  · rfl

/-! ## Rows and upserts -/

theorem chatRows_eq_nil {chats : List Chat} {jid : String}
    (h : jid ∉ chats.map (fun c => c.JID)) : chatRows chats jid = [] := by
  unfold chatRows
  rw [List.filter_eq_nil_iff]
  intro c hc
  simp only [decide_eq_true_eq]
  intro hjid
  exact h (List.mem_map.mpr ⟨c, hc, hjid⟩)

theorem chatRows_of_mem {chats : List Chat} {c : Chat} (hkey : chatsKeyed chats)
    (hc : c ∈ chats) : chatRows chats c.JID = [c] := by
  induction chats with
  | nil => cases hc
  | cons a rest ih =>
    unfold chatsKeyed at hkey
    rw [List.map_cons, List.nodup_cons] at hkey
    rcases List.mem_cons.mp hc with rfl | hmem
    · have hrest : chatRows rest c.JID = [] := chatRows_eq_nil hkey.1
      unfold chatRows at hrest ⊢
      simp [List.filter_cons, hrest]
    · have hne : a.JID ≠ c.JID := by
        intro heq
        exact hkey.1 (List.mem_map.mpr ⟨c, hmem, heq.symm⟩)
      have := ih hkey.2 hmem
      unfold chatRows at this ⊢
      simp [List.filter_cons, hne, this]

theorem upsertChatRow_head (chats : List Chat) (chat : Chat) :
    (chatRows (upsertChatRow chats chat) chat.JID).head? = some chat := by
  induction chats with
  | nil => simp [upsertChatRow, chatRows]
  | cons a rest ih =>
    unfold upsertChatRow
    by_cases h : a.JID = chat.JID
    · simp [h, chatRows, List.filter_cons]
    · unfold chatRows at ih ⊢
      simp [h, List.filter_cons, ih]

theorem upsertChatRow_mem (chats : List Chat) (chat : Chat) :
    chat ∈ upsertChatRow chats chat := by
  induction chats with
  | nil => simp [upsertChatRow]
  | cons a rest ih =>
    unfold upsertChatRow
    by_cases h : a.JID = chat.JID <;> simp [h, ih]

theorem upsertChatRow_keys (chats : List Chat) (chat : Chat) :
    (upsertChatRow chats chat).map (fun c => c.JID) =
      if chat.JID ∈ chats.map (fun c => c.JID) then chats.map (fun c => c.JID)
      else chats.map (fun c => c.JID) ++ [chat.JID] := by
  induction chats with
  | nil => simp [upsertChatRow]
  | cons a rest ih =>
    unfold upsertChatRow
    by_cases h : a.JID = chat.JID
    · simp [h]
    · have h2 : ¬ chat.JID = a.JID := fun e => h e.symm
      simp only [h, if_false, List.map_cons, ih, List.mem_cons, h2, false_or]
      split <;> simp

theorem upsertChatRow_keyed {chats : List Chat} (chat : Chat) (hkey : chatsKeyed chats) :
    chatsKeyed (upsertChatRow chats chat) := by
  unfold chatsKeyed at hkey ⊢
  rw [upsertChatRow_keys]
  split
  · exact hkey
  · rename_i h
    rw [List.nodup_append]
    refine ⟨hkey, List.nodup_singleton _, ?_⟩
    intro a ha hb
    simp only [List.mem_singleton] at hb
    subst hb
    exact h ha

theorem upsertChatRow_rows {chats : List Chat} (chat : Chat) (hkey : chatsKeyed chats) :
    chatRows (upsertChatRow chats chat) chat.JID = [chat] :=
  chatRows_of_mem (upsertChatRow_keyed chat hkey) (upsertChatRow_mem chats chat)

theorem upsertChatRow_other (chats : List Chat) (chat : Chat) {jid : String}
    (h : jid ≠ chat.JID) : chatRows (upsertChatRow chats chat) jid = chatRows chats jid := by
  induction chats with
  | nil =>
    have h2 : ¬ chat.JID = jid := fun e => h e.symm
    simp [upsertChatRow, chatRows, List.filter_cons, h2]
  | cons a rest ih =>
    unfold upsertChatRow
    by_cases hk : a.JID = chat.JID
    · have h2 : ¬ chat.JID = jid := fun e => h e.symm
      have h3 : ¬ a.JID = jid := fun e => h2 (hk ▸ e)
      simp [hk, chatRows, List.filter_cons, h2]
    · unfold chatRows at ih ⊢
      simp only [hk, if_false, List.filter_cons, ih]

theorem upsertChatRow_idem (chats : List Chat) (chat : Chat) :
    upsertChatRow (upsertChatRow chats chat) chat = upsertChatRow chats chat := by
  induction chats with
  | nil => simp [upsertChatRow]
  | cons a rest ih =>
    by_cases hk : a.JID = chat.JID
    · simp [upsertChatRow, hk]
    · simp [upsertChatRow, hk, ih]

theorem messageRows_eq_nil {messages : List Message} {id chatJID : String}
    (h : (id, chatJID) ∉ messages.map (fun m => (m.ID, m.ChatJID))) :
    messageRows messages id chatJID = [] := by
  unfold messageRows
  rw [List.filter_eq_nil_iff]
  intro m hm
  simp only [decide_eq_true_eq]
  intro hkey
  exact h (List.mem_map.mpr ⟨m, hm, by rw [hkey.1, hkey.2]⟩)

theorem messageRows_of_mem {messages : List Message} {m : Message}
    (hkey : messagesKeyed messages) (hm : m ∈ messages) :
    messageRows messages m.ID m.ChatJID = [m] := by
  induction messages with
  | nil => cases hm
  | cons a rest ih =>
    unfold messagesKeyed at hkey
    rw [List.map_cons, List.nodup_cons] at hkey
    rcases List.mem_cons.mp hm with rfl | hmem
    · have hrest : messageRows rest m.ID m.ChatJID = [] := messageRows_eq_nil hkey.1
      unfold messageRows at hrest ⊢
      rw [List.filter_cons, hrest]
      simp
    · have hne : ¬ (a.ID = m.ID ∧ a.ChatJID = m.ChatJID) := by
        intro heq
        exact hkey.1 (List.mem_map.mpr ⟨m, hmem, by rw [heq.1, heq.2]⟩)
      have := ih hkey.2 hmem
      unfold messageRows at this ⊢
      simp only [List.filter_cons, hne, decide_False, Bool.false_eq_true, if_false, this]

theorem upsertMessageRow_mem (messages : List Message) (message : Message) :
    message ∈ upsertMessageRow messages message := by
  induction messages with
  | nil => simp [upsertMessageRow]
  | cons a rest ih =>
    unfold upsertMessageRow
    by_cases h : a.ID = message.ID ∧ a.ChatJID = message.ChatJID <;> simp [h, ih]

theorem upsertMessageRow_keys (messages : List Message) (message : Message) :
    (upsertMessageRow messages message).map (fun m => (m.ID, m.ChatJID)) =
      if (message.ID, message.ChatJID) ∈ messages.map (fun m => (m.ID, m.ChatJID)) then
        messages.map (fun m => (m.ID, m.ChatJID))
      else messages.map (fun m => (m.ID, m.ChatJID)) ++ [(message.ID, message.ChatJID)] := by
  induction messages with
  | nil => simp [upsertMessageRow]
  | cons a rest ih =>
    unfold upsertMessageRow
    by_cases h : a.ID = message.ID ∧ a.ChatJID = message.ChatJID
    · simp [h]
    · have h2 : ¬ (message.ID, message.ChatJID) = (a.ID, a.ChatJID) := by
        intro e
        rw [Prod.mk.injEq] at e
        exact h ⟨e.1.symm, e.2.symm⟩
      simp only [h, if_false, List.map_cons, ih, List.mem_cons, h2, false_or]
      split <;> simp

theorem upsertMessageRow_keyed {messages : List Message} (message : Message)
    (hkey : messagesKeyed messages) : messagesKeyed (upsertMessageRow messages message) := by
  unfold messagesKeyed at hkey ⊢
  rw [upsertMessageRow_keys]
  split
  · exact hkey
  · rename_i h
    rw [List.nodup_append]
    refine ⟨hkey, List.nodup_singleton _, ?_⟩
    intro a ha hb
    simp only [List.mem_singleton] at hb
    subst hb
    exact h ha

theorem upsertMessageRow_rows {messages : List Message} (message : Message)
    (hkey : messagesKeyed messages) :
    messageRows (upsertMessageRow messages message) message.ID message.ChatJID = [message] :=
  messageRows_of_mem (upsertMessageRow_keyed message hkey) (upsertMessageRow_mem messages message)

theorem upsertMessageRow_idem (messages : List Message) (message : Message) :
    upsertMessageRow (upsertMessageRow messages message) message =
      upsertMessageRow messages message := by
  induction messages with
  | nil => simp [upsertMessageRow]
  | cons a rest ih =>
    by_cases hk : a.ID = message.ID ∧ a.ChatJID = message.ChatJID
    · simp [upsertMessageRow, hk]
    · simp [upsertMessageRow, hk, ih]

/-! ## Name resolution -/

theorem GetChatNameWithPushName_snd (db : DB) (jid : JID) (chatJID senderUser pushName : String) :
    (GetChatNameWithPushName db jid chatJID senderUser pushName).2 =
      (db.send (.selectChat chatJID)).2 := by
  rw [← GetChat_snd]
  unfold GetChatNameWithPushName
  rcases GetChat db chatJID with ⟨⟨_ | c, _ | e⟩, db1⟩
  all_goals simp only []
  all_goals repeat' split
  all_goals rfl

theorem name_of_stored {db : DB} {chatJID : String} {c : Chat} (jid : JID)
    (senderUser pushName : String) (hgo : passes db.faults 1 = true)
    (hrow : (chatRows db.chats chatJID).head? = some c) (hname : c.Name ≠ "") :
    (GetChatNameWithPushName db jid chatJID senderUser pushName).1 =
      if pushName ≠ "" ∧ (c.Name = jid.User ∨ c.Name = senderUser) then pushName
      else c.Name := by
  have h1 : (GetChat db chatJID).1 = (some c, none) := by
    rw [GetChat_fst, send_fst, (passes_succ hgo).1, hrow]
  unfold GetChatNameWithPushName
  rcases hg : GetChat db chatJID with ⟨found, db1⟩
  rw [hg] at h1
  simp only [] at h1
  subst h1
  simp only [hname, ne_eq, not_false_eq_true, if_true]
  split <;> rfl

theorem name_of_unstored {db : DB} {chatJID : String} (jid : JID) (senderUser pushName : String)
    (hnone : ∀ c ∈ db.chats, c.JID = chatJID → c.Name = "") :
    (GetChatNameWithPushName db jid chatJID senderUser pushName).1 =
      deriveChatName jid senderUser pushName := by
  have h1 : ∀ c, (GetChat db chatJID).1 = (some c, none) → c.Name = "" := by
    intro c hc
    rw [GetChat_fst] at hc
    split at hc
    · cases hc
    · split at hc
      · cases hc
      · rename_i c2 hhead
        cases hc
        have hmem : c ∈ chatRows db.chats chatJID := List.mem_of_mem_head? hhead
        unfold chatRows at hmem
        rw [List.mem_filter] at hmem
        exact hnone c hmem.1 (by simpa using hmem.2)
  unfold GetChatNameWithPushName
  rcases hg : GetChat db chatJID with ⟨⟨_ | c, _ | e⟩, db1⟩ <;> simp only []
  rw [hg] at h1
  simp [h1 c rfl]

theorem name_of_failed_lookup {db : DB} {chatJID : String} (jid : JID)
    (senderUser pushName : String) (hfail : passes db.faults 1 = false) :
    (GetChatNameWithPushName db jid chatJID senderUser pushName).1 =
      deriveChatName jid senderUser pushName := by
  have hsend : ∃ e, (db.send (.selectChat chatJID)).1 = some e := by
    rw [send_fst]
    rcases hf : db.faults with _ | ⟨_ | e, rest⟩
    · rw [hf] at hfail
      cases hfail
    · rw [hf] at hfail
      cases rest <;> cases hfail
    · exact ⟨e, rfl⟩
  obtain ⟨e, he⟩ := hsend
  have h1 : (GetChat db chatJID).1 = (none, some e) := by
    rw [GetChat_fst, he]
  unfold GetChatNameWithPushName
  rcases hg : GetChat db chatJID with ⟨found, db1⟩
  rw [hg] at h1
  simp only [] at h1
  subst h1
  rfl

/-- C2 as stated fails: the chat is stored under the name `Alice`, which is neither the user
fragment nor the sender identifier, and the driver fails the lookup; the name returned is the
push name `John`, not the stored name. A group stored as `Family` comes back as `Group 12345`
in the same way. -/
theorem C2_failed_lookup_drops_stored_name :
    (GetChatNameWithPushName
        { storeOf [⟨"628111@s.whatsapp.net", "Alice", 10, 0⟩] [] with
          faults := [some (.driver "connection reset")] }
        (directJID "628111") "628111@s.whatsapp.net" "628111" "John").1 = "John" ∧
    (GetChatNameWithPushName
        { storeOf [⟨"12345@g.us", "Family", 10, 0⟩] [] with
          faults := [some (.driver "connection reset")] }
        (groupJID "12345") "12345@g.us" "628111" "John").1 = "Group 12345" := by
  refine ⟨by decide, by decide⟩

/-- C2 amended: when a Chat with a non-empty Name is stored for `chatJID` and the lookup of the
chat is answered, `GetChatNameWithPushName` returns `pushName` if `pushName` is non-empty and
the stored name equals the user fragment of the address or the sender identifier, and the
stored name in every other case, whatever the server of the address; when the driver fails the
lookup, the name returned is the one derived from the address, the sender identifier and the
push name, as if nothing were stored. -/
theorem C2_stored_name_kept_upgraded_or_rederived (db : DB) (jid : JID)
    (chatJID senderUser pushName : String) (c : Chat)
    (hkey : chatsKeyed db.chats) (hstored : c ∈ db.chats) (hjid : c.JID = chatJID)
    (hname : c.Name ≠ "") :
    (GetChatNameWithPushName db jid chatJID senderUser pushName).1 =
      if passes db.faults 1 = true then
        if pushName ≠ "" ∧ (c.Name = jid.User ∨ c.Name = senderUser) then pushName
        else c.Name
      else deriveChatName jid senderUser pushName := by
  have hrow : (chatRows db.chats chatJID).head? = some c := by
    rw [← hjid, chatRows_of_mem hkey hstored]; rfl
  by_cases hgo : passes db.faults 1 = true
  · rw [if_pos hgo]
    exact name_of_stored jid senderUser pushName hgo hrow hname
  · rw [if_neg hgo]
    exact name_of_failed_lookup jid senderUser pushName (Bool.eq_false_iff.mpr hgo)

/-- C2 amended, the placeholder upgrade of the spec: the stored name is the bare sender
identifier `628111`, the event brings `pushName = John`, the lookup is answered and the resolved
name is `John`; with the chat stored as `Alice` and the lookup failed by the driver, the name
is the one derived for a chat that is not stored. -/
theorem C2_stored_name_kept_upgraded_or_rederived_witness :
    (GetChatNameWithPushName (storeOf [⟨"628111@s.whatsapp.net", "628111", 10, 0⟩] [])
        (directJID "628111") "628111@s.whatsapp.net" "628111" "John").1 = "John" ∧
    (GetChatNameWithPushName
        { storeOf [⟨"628111@s.whatsapp.net", "Alice", 10, 0⟩] [] with
          faults := [some (.driver "connection reset")] }
        (directJID "628111") "628111@s.whatsapp.net" "628111" "John").1 =
      deriveChatName (directJID "628111") "628111" "John" :=
  ⟨C2_stored_name_kept_upgraded_or_rederived
      (storeOf [⟨"628111@s.whatsapp.net", "628111", 10, 0⟩] [])
      (directJID "628111") "628111@s.whatsapp.net" "628111" "John"
      ⟨"628111@s.whatsapp.net", "628111", 10, 0⟩ (by decide) (by decide) rfl (by decide),
    C2_stored_name_kept_upgraded_or_rederived
      { storeOf [⟨"628111@s.whatsapp.net", "Alice", 10, 0⟩] [] with
        faults := [some (.driver "connection reset")] }
      (directJID "628111") "628111@s.whatsapp.net" "628111" "John"
      ⟨"628111@s.whatsapp.net", "Alice", 10, 0⟩ (by decide) (by decide) rfl (by decide)⟩

/-- C3: for a direct address (server neither `g.us` nor `newsletter`) with no stored non-empty
name for the chat, `GetChatNameWithPushName` returns `pushName` when it is non-empty and differs
from both the sender identifier and the user fragment; otherwise the sender identifier when that
is non-empty; otherwise the user fragment. -/
theorem C3_direct_name_derivation (db : DB) (jid : JID) (chatJID senderUser pushName : String)
    (hgroup : jid.Server ≠ "g.us") (hnews : jid.Server ≠ "newsletter")
    (hnone : ∀ c ∈ db.chats, c.JID = chatJID → c.Name = "") :
    (GetChatNameWithPushName db jid chatJID senderUser pushName).1 =
      if pushName ≠ "" ∧ pushName ≠ senderUser ∧ pushName ≠ jid.User then pushName
      else if senderUser ≠ "" then senderUser
      else jid.User := by
  rw [name_of_unstored jid senderUser pushName hnone]
  unfold deriveChatName
  rw [if_neg hgroup, if_neg hnews]

/-- C3 on an empty store: the push name equals the sender identifier, so the sender identifier
is the name. -/
theorem C3_direct_name_derivation_witness :
    (GetChatNameWithPushName (storeOf [] []) (directJID "628111") "628111@s.whatsapp.net"
        "628222" "628222").1 = "628222" :=
  C3_direct_name_derivation (storeOf [] []) (directJID "628111") "628111@s.whatsapp.net"
    "628222" "628222" (by decide) (by decide) (by decide)

/-- C4: with no stored non-empty name for the chat, `GetChatNameWithPushName` returns `Group `
followed by the user fragment on a group address (server `g.us`) and `Newsletter ` followed by
the user fragment on a newsletter address (server `newsletter`), whatever `pushName` and the
sender identifier are. -/
theorem C4_group_and_newsletter_labels (db : DB) (jid : JID)
    (chatJID senderUser pushName : String)
    (hnone : ∀ c ∈ db.chats, c.JID = chatJID → c.Name = "") :
    (jid.Server = "g.us" →
        (GetChatNameWithPushName db jid chatJID senderUser pushName).1 = "Group " ++ jid.User) ∧
    (jid.Server = "newsletter" →
        (GetChatNameWithPushName db jid chatJID senderUser pushName).1 =
          "Newsletter " ++ jid.User) := by
  rw [name_of_unstored jid senderUser pushName hnone]
  unfold deriveChatName
  constructor
  · intro h
    rw [if_pos h]
  · intro h
    have hne : jid.Server ≠ "g.us" := by rw [h]; decide
    rw [if_neg hne, if_pos h]

/-- C4, the example of the spec: user fragment `12345` on a group address with no prior chat
gives `Group 12345`. -/
theorem C4_group_and_newsletter_labels_witness :
    (GetChatNameWithPushName (storeOf [] []) (groupJID "12345") "12345@g.us" "628111"
        "John").1 = "Group 12345" :=
  (C4_group_and_newsletter_labels (storeOf [] []) (groupJID "12345") "12345@g.us" "628111"
    "John" (by decide)).1 rfl

/-! ## Event ingestion -/

theorem GetChat_absent {db : DB} {jid : String} (habsent : chatRows db.chats jid = []) :
    ∃ cause, GetChat db jid = ((none, some cause), (db.send (.selectChat jid)).2) ∧
      (db.faults.head?.join = none → cause = .ErrNoRows) := by
  have h1 := GetChat_fst db jid
  have h2 := GetChat_snd db jid
  rw [habsent, send_fst] at h1
  rcases hf : db.faults.head?.join with _ | e
  · rw [hf] at h1
    exact ⟨.ErrNoRows, Prod.ext h1 h2, fun _ => rfl⟩
  · rw [hf] at h1
    exact ⟨e, Prod.ext h1 h2, fun h => by cases h⟩

theorem GetChat_present {db : DB} {jid : String} {c : Chat}
    (hgo : passes db.faults 1 = true) (hrow : (chatRows db.chats jid).head? = some c) :
    GetChat db jid = ((some c, none), (db.send (.selectChat jid)).2) := by
  have h1 := GetChat_fst db jid
  rw [send_fst, (passes_succ hgo).1, hrow] at h1
  exact Prod.ext h1 (GetChat_snd db jid)

/-- Without a Chat row for the event's chat JID the second lookup of `CreateMessage` fails. -/
theorem CreateMessage_absent {P : Type} (x : Extractors P) (db : DB) (evt : Event P)
    (payload : P) (hpayload : evt.Message = some payload)
    (habsent : chatRows db.chats (x.JIDString evt.Info.Chat) = []) :
    ∃ cause, (CreateMessage x db (some evt)).1 = some (.wrap "get chat failed: " cause) ∧
      (passes db.faults 2 = true → cause = .ErrNoRows) ∧
      (CreateMessage x db (some evt)).2.chats = db.chats ∧
      (CreateMessage x db (some evt)).2.messages = db.messages ∧
      chatRows (CreateMessage x db (some evt)).2.chats (x.JIDString evt.Info.Chat) = [] := by
  have hsnd := GetChatNameWithPushName_snd db evt.Info.Chat (x.JIDString evt.Info.Chat)
    evt.Info.Sender.User evt.Info.PushName
  rcases hn : GetChatNameWithPushName db evt.Info.Chat (x.JIDString evt.Info.Chat)
    evt.Info.Sender.User evt.Info.PushName with ⟨name, db1⟩
  rw [hn] at hsnd
  simp only [] at hsnd
  have hchats : db1.chats = db.chats := by rw [hsnd, send_chats]
  have hmsgs : db1.messages = db.messages := by rw [hsnd, send_messages]
  have habsent1 : chatRows db1.chats (x.JIDString evt.Info.Chat) = [] := by
    rw [hchats]; exact habsent
  obtain ⟨cause, hget, hcause⟩ := GetChat_absent habsent1
  refine ⟨cause, ?_, ?_, ?_, ?_, ?_⟩
  · simp only [CreateMessage, hpayload, hn, hget]
  · intro hgo
    apply hcause
    rw [hsnd, send_faults]
    exact (passes_succ (passes_succ hgo).2).1
  · simp only [CreateMessage, hpayload, hn, hget, send_chats, hchats]
  · simp only [CreateMessage, hpayload, hn, hget, send_messages, hmsgs]
  · simp only [CreateMessage, hpayload, hn, hget, send_chats, hchats, habsent]

/-- C1 (what the code does): for every event with a payload (with non-empty text or not) and
every store without a Chat row for the event's chat JID, `CreateMessage` returns an error that
wraps the failed lookup under `get chat failed: `, which is `sql.ErrNoRows` when the driver is
healthy, and leaves `chats` and `messages` as they were: no Chat row is created. -/
theorem C1_first_message_is_refused {P : Type} (x : Extractors P) (db : DB) (evt : Event P)
    (payload : P) (hpayload : evt.Message = some payload)
    (_htext : x.ExtractMessageTextFromProto payload ≠ "")
    (habsent : chatRows db.chats (x.JIDString evt.Info.Chat) = []) :
    ∃ cause, (CreateMessage x db (some evt)).1 = some (.wrap "get chat failed: " cause) ∧
      (passes db.faults 2 = true → cause = .ErrNoRows) ∧
      (CreateMessage x db (some evt)).2.chats = db.chats ∧
      (CreateMessage x db (some evt)).2.messages = db.messages ∧
      chatRows (CreateMessage x db (some evt)).2.chats (x.JIDString evt.Info.Chat) = [] :=
  CreateMessage_absent x db evt payload hpayload habsent

/-- C1 at a first message: the text `hi` from `628111` reaches an empty store; the call fails
with `get chat failed: sql: no rows in result set` and the store still has no chat. -/
theorem C1_first_message_is_refused_witness :
    (CreateMessage sampleExtractors (storeOf [] []) (some (textEvent "hi" "John" 100 0))).1
        = some (.wrap "get chat failed: " .ErrNoRows) ∧
      (CreateMessage sampleExtractors (storeOf [] [])
        (some (textEvent "hi" "John" 100 0))).2.chats = [] := by
  obtain ⟨cause, h1, h2, h3, _, _⟩ :=
    C1_first_message_is_refused sampleExtractors (storeOf [] []) (textEvent "hi" "John" 100 0)
      ⟨"hi", 0, noMedia⟩ rfl (by decide) (by decide)
  rw [h2 (by decide)] at h1
  exact ⟨h1, h3⟩

theorem StoreChat_ok {db : DB} (chat : Chat) (hgo : passes db.faults 1 = true) :
    StoreChat db chat =
      (none, { (db.send (.upsertChat chat)).2 with chats := upsertChatRow db.chats chat }) := by
  unfold StoreChat
  have h := send_fst db (.upsertChat chat)
  rw [(passes_succ hgo).1] at h
  have hc := send_chats db (.upsertChat chat)
  rcases hs : db.send (.upsertChat chat) with ⟨r, db1⟩
  rw [hs] at h hc
  simp only [] at h hc
  subst h
  simp only [hc]

theorem StoreMessage_chats (db : DB) (message : Message) :
    (StoreMessage db message).2.chats = db.chats := by
  unfold StoreMessage
  have hc := send_chats db (.upsertMessage message)
  rcases hs : db.send (.upsertMessage message) with ⟨_ | e, db1⟩
  all_goals rw [hs] at hc
  all_goals simp only [] at hc ⊢
  · split <;> exact hc
  · exact hc

theorem StoreMessage_ok {db : DB} (message : Message) (hgo : passes db.faults 1 = true)
    (hchat : chatRows db.chats message.ChatJID ≠ []) :
    StoreMessage db message =
      (none, { (db.send (.upsertMessage message)).2 with
                 messages := upsertMessageRow db.messages message }) := by
  unfold StoreMessage
  have h := send_fst db (.upsertMessage message)
  rw [(passes_succ hgo).1] at h
  have hc := send_chats db (.upsertMessage message)
  have hm := send_messages db (.upsertMessage message)
  rcases hs : db.send (.upsertMessage message) with ⟨r, db1⟩
  rw [hs] at h hc hm
  simp only [] at h hc hm
  subst h
  have hne : (chatRows db.chats message.ChatJID).isEmpty = false := by
    cases hrows : chatRows db.chats message.ChatJID with
    | nil => exact absurd hrows hchat
    | cons a l => rfl
  simp only [hc, hm, hne, Bool.false_eq_true, if_false]

theorem StoreMessage_refused {db : DB} (message : Message) {e : Err}
    (hfault : db.faults.head?.join = some e) :
    (StoreMessage db message).1 = some e ∧
      (StoreMessage db message).2.messages = db.messages := by
  unfold StoreMessage
  have h := send_fst db (.upsertMessage message)
  rw [hfault] at h
  have hm := send_messages db (.upsertMessage message)
  rcases hs : db.send (.upsertMessage message) with ⟨r, db1⟩
  rw [hs] at h hm
  simp only [] at h hm
  subst h
  exact ⟨rfl, hm⟩

/-- What `CreateMessage` does when the chat is stored and the two lookups and the chat upsert
go through: the chat row is written, then the message is stored unless it is empty. -/
theorem CreateMessage_stored {P : Type} (x : Extractors P) (db : DB) (evt : Event P)
    (payload : P) (c : Chat) (hpayload : evt.Message = some payload)
    (hgo : passes db.faults 3 = true)
    (hrow : (chatRows db.chats (x.JIDString evt.Info.Chat)).head? = some c) :
    ∃ db3 : DB,
      db3.chats = upsertChatRow db.chats
        { JID := x.JIDString evt.Info.Chat
          Name := (GetChatNameWithPushName db evt.Info.Chat (x.JIDString evt.Info.Chat)
            evt.Info.Sender.User evt.Info.PushName).1
          LastMessageTime := evt.Info.Timestamp
          EphemeralExpiration :=
            if x.ExtractEphemeralExpiration payload > 0 then x.ExtractEphemeralExpiration payload
            else c.EphemeralExpiration } ∧
      db3.messages = db.messages ∧
      db3.faults = db.faults.tail.tail.tail ∧
      CreateMessage x db (some evt) =
        if x.ExtractMessageTextFromProto payload = "" ∧
            (x.ExtractMediaInfo payload).mediaType = "" then (none, db3)
        else StoreMessage db3
          { ID := evt.Info.ID
            ChatJID := x.JIDString evt.Info.Chat
            Sender := x.JIDString evt.Info.Sender
            Content := x.ExtractMessageTextFromProto payload
            Timestamp := evt.Info.Timestamp
            IsFromMe := evt.Info.IsFromMe
            MediaType := (x.ExtractMediaInfo payload).mediaType
            Filename := (x.ExtractMediaInfo payload).filename
            URL := (x.ExtractMediaInfo payload).url
            MediaKey := (x.ExtractMediaInfo payload).mediaKey
            FileSHA256 := (x.ExtractMediaInfo payload).fileSHA256
            FileEncSHA256 := (x.ExtractMediaInfo payload).fileEncSHA256
            FileLength := (x.ExtractMediaInfo payload).fileLength } := by
  have hsnd := GetChatNameWithPushName_snd db evt.Info.Chat (x.JIDString evt.Info.Chat)
    evt.Info.Sender.User evt.Info.PushName
  rcases hn : GetChatNameWithPushName db evt.Info.Chat (x.JIDString evt.Info.Chat)
    evt.Info.Sender.User evt.Info.PushName with ⟨name, db1⟩
  rw [hn] at hsnd
  simp only [] at hsnd
  have hgo1 : passes db1.faults 2 = true := by
    rw [hsnd, send_faults]; exact (passes_succ hgo).2
  have hgo1' : passes db1.faults 1 = true := passes_pred hgo1
  have hrow1 : (chatRows db1.chats (x.JIDString evt.Info.Chat)).head? = some c := by
    rw [hsnd, send_chats]; exact hrow
  have hget := GetChat_present hgo1' hrow1
  have hgo2 : passes (db1.send (.selectChat (x.JIDString evt.Info.Chat))).2.faults 1 = true := by
    rw [send_faults]; exact (passes_succ hgo1).2
  refine ⟨{ ((db1.send (.selectChat (x.JIDString evt.Info.Chat))).2.send (.upsertChat
      { JID := x.JIDString evt.Info.Chat
        Name := name
        LastMessageTime := evt.Info.Timestamp
        EphemeralExpiration :=
          if x.ExtractEphemeralExpiration payload > 0 then x.ExtractEphemeralExpiration payload
          else c.EphemeralExpiration })).2 with
      chats := upsertChatRow (db1.send (.selectChat (x.JIDString evt.Info.Chat))).2.chats
        { JID := x.JIDString evt.Info.Chat
          Name := name
          LastMessageTime := evt.Info.Timestamp
          EphemeralExpiration :=
            if x.ExtractEphemeralExpiration payload > 0 then x.ExtractEphemeralExpiration payload
            else c.EphemeralExpiration } }, ?_, ?_, ?_, ?_⟩
  · simp only [send_chats, hsnd]
  · simp only [send_messages, hsnd]
  · simp only [send_faults, hsnd]
  · simp only [CreateMessage, hpayload, hn, hget, StoreChat_ok _ hgo2]

theorem CreateMessage_chats_after {P : Type} (x : Extractors P) (db : DB) (evt : Event P)
    (payload : P) (c : Chat) (hpayload : evt.Message = some payload)
    (hgo : passes db.faults 3 = true)
    (hrow : (chatRows db.chats (x.JIDString evt.Info.Chat)).head? = some c) :
    (CreateMessage x db (some evt)).2.chats = upsertChatRow db.chats
      { JID := x.JIDString evt.Info.Chat
        Name := (GetChatNameWithPushName db evt.Info.Chat (x.JIDString evt.Info.Chat)
          evt.Info.Sender.User evt.Info.PushName).1
        LastMessageTime := evt.Info.Timestamp
        EphemeralExpiration :=
          if x.ExtractEphemeralExpiration payload > 0 then x.ExtractEphemeralExpiration payload
          else c.EphemeralExpiration } := by
  obtain ⟨db3, hchats, _, _, heq⟩ := CreateMessage_stored x db evt payload c hpayload hgo hrow
  rw [heq]
  split
  · exact hchats
  · rw [StoreMessage_chats]; exact hchats

/-- C5: when the store holds a Chat for the event's chat JID (and the lookups and the chat upsert
go through), the ephemeral expiration `CreateMessage` writes to that Chat is the value extracted
from the event when it is greater than 0, and the previously stored value otherwise. -/
theorem C5_ephemeral_expiration_replaced_or_inherited {P : Type} (x : Extractors P) (db : DB)
    (evt : Event P) (payload : P) (c : Chat) (hpayload : evt.Message = some payload)
    (hkey : chatsKeyed db.chats) (hstored : c ∈ db.chats)
    (hjid : c.JID = x.JIDString evt.Info.Chat) (hgo : passes db.faults 3 = true) :
    ∃ row, chatRows (CreateMessage x db (some evt)).2.chats (x.JIDString evt.Info.Chat) = [row] ∧
      row.EphemeralExpiration =
        if x.ExtractEphemeralExpiration payload > 0 then x.ExtractEphemeralExpiration payload
        else c.EphemeralExpiration := by
  have hrow : (chatRows db.chats (x.JIDString evt.Info.Chat)).head? = some c := by
    rw [← hjid, chatRows_of_mem hkey hstored]; rfl
  rw [CreateMessage_chats_after x db evt payload c hpayload hgo hrow]
  exact ⟨_, upsertChatRow_rows _ hkey, rfl⟩

/-- C5, the example of the spec: the chat has `EphemeralExpiration = 604800`, the event carries
no expiration, and the chat keeps `604800`. -/
theorem C5_ephemeral_expiration_replaced_or_inherited_witness :
    ∃ row, chatRows (CreateMessage sampleExtractors
        (storeOf [⟨"628111@s.whatsapp.net", "John", 10, 604800⟩] [])
        (some (textEvent "hi" "John" 100 0))).2.chats "628111@s.whatsapp.net" = [row] ∧
      row.EphemeralExpiration = 604800 :=
  C5_ephemeral_expiration_replaced_or_inherited sampleExtractors
    (storeOf [⟨"628111@s.whatsapp.net", "John", 10, 604800⟩] []) (textEvent "hi" "John" 100 0)
    ⟨"hi", 0, noMedia⟩ ⟨"628111@s.whatsapp.net", "John", 10, 604800⟩ rfl (by decide) (by decide)
    rfl rfl

/-- C6: for an event with a payload whose chat lookups and chat upsert succeed, `CreateMessage`
(a) returns no error, stores no Message row and still upserts the Chat when the extracted text
and media type are both empty; (b) otherwise, the driver accepting the message upsert, returns
no error and stores exactly one Message row keyed by the event's message ID and chat JID, which
carries the event's timestamp, sender and from-me flag, the text and the extracted media fields;
(c) and when the driver refuses that upsert, returns its error with the messages unchanged. -/
theorem C6_empty_dropped_media_only_kept {P : Type} (x : Extractors P) (db : DB) (evt : Event P)
    (payload : P) (c : Chat) (hpayload : evt.Message = some payload)
    (hkey : chatsKeyed db.chats) (hmkey : messagesKeyed db.messages) (hstored : c ∈ db.chats)
    (hjid : c.JID = x.JIDString evt.Info.Chat) (hgo : passes db.faults 3 = true) :
    (∃ row, chatRows (CreateMessage x db (some evt)).2.chats (x.JIDString evt.Info.Chat) = [row] ∧
        row.LastMessageTime = evt.Info.Timestamp) ∧
    (x.ExtractMessageTextFromProto payload = "" ∧ (x.ExtractMediaInfo payload).mediaType = "" →
      (CreateMessage x db (some evt)).1 = none ∧
      (CreateMessage x db (some evt)).2.messages = db.messages) ∧
    (¬ (x.ExtractMessageTextFromProto payload = "" ∧ (x.ExtractMediaInfo payload).mediaType = "") →
      (passes db.faults 4 = true →
        (CreateMessage x db (some evt)).1 = none ∧
        (CreateMessage x db (some evt)).2.messages = upsertMessageRow db.messages
          { ID := evt.Info.ID
            ChatJID := x.JIDString evt.Info.Chat
            Sender := x.JIDString evt.Info.Sender
            Content := x.ExtractMessageTextFromProto payload
            Timestamp := evt.Info.Timestamp
            IsFromMe := evt.Info.IsFromMe
            MediaType := (x.ExtractMediaInfo payload).mediaType
            Filename := (x.ExtractMediaInfo payload).filename
            URL := (x.ExtractMediaInfo payload).url
            MediaKey := (x.ExtractMediaInfo payload).mediaKey
            FileSHA256 := (x.ExtractMediaInfo payload).fileSHA256
            FileEncSHA256 := (x.ExtractMediaInfo payload).fileEncSHA256
            FileLength := (x.ExtractMediaInfo payload).fileLength } ∧
        messageRows (CreateMessage x db (some evt)).2.messages evt.Info.ID
            (x.JIDString evt.Info.Chat) =
          [{ ID := evt.Info.ID
             ChatJID := x.JIDString evt.Info.Chat
             Sender := x.JIDString evt.Info.Sender
             Content := x.ExtractMessageTextFromProto payload
             Timestamp := evt.Info.Timestamp
             IsFromMe := evt.Info.IsFromMe
             MediaType := (x.ExtractMediaInfo payload).mediaType
             Filename := (x.ExtractMediaInfo payload).filename
             URL := (x.ExtractMediaInfo payload).url
             MediaKey := (x.ExtractMediaInfo payload).mediaKey
             FileSHA256 := (x.ExtractMediaInfo payload).fileSHA256
             FileEncSHA256 := (x.ExtractMediaInfo payload).fileEncSHA256
             FileLength := (x.ExtractMediaInfo payload).fileLength }]) ∧
      (∀ e, db.faults.tail.tail.tail.head?.join = some e →
        (CreateMessage x db (some evt)).1 = some e ∧
        (CreateMessage x db (some evt)).2.messages = db.messages)) := by
  have hrow : (chatRows db.chats (x.JIDString evt.Info.Chat)).head? = some c := by
    rw [← hjid, chatRows_of_mem hkey hstored]; rfl
  have hafter := CreateMessage_chats_after x db evt payload c hpayload hgo hrow
  obtain ⟨db3, hchats, hmsgs, hfaults, heq⟩ :=
    CreateMessage_stored x db evt payload c hpayload hgo hrow
  refine ⟨?_, ?_, ?_⟩
  · rw [hafter]
    exact ⟨_, upsertChatRow_rows _ hkey, rfl⟩
  · intro hempty
    rw [heq, if_pos hempty]
    exact ⟨rfl, hmsgs⟩
  · intro hfull
    rw [heq, if_neg hfull]
    constructor
    · intro hgo4
      have hgo3 : passes db3.faults 1 = true := by
        rw [hfaults]
        exact (passes_succ (passes_succ (passes_succ hgo4).2).2).2
      have hchat : chatRows db3.chats (x.JIDString evt.Info.Chat) ≠ [] := by
        rw [hchats, upsertChatRow_rows _ hkey]
        exact List.cons_ne_nil _ _
      rw [StoreMessage_ok _ hgo3 hchat]
      refine ⟨rfl, ?_, ?_⟩
      · show upsertMessageRow db3.messages _ = _
        rw [hmsgs]
      · show messageRows (upsertMessageRow db3.messages _) _ _ = _
        rw [hmsgs]
        exact upsertMessageRow_rows _ hmkey
    · intro e he
      rw [← hfaults] at he
      have := @StoreMessage_refused db3
        { ID := evt.Info.ID
          ChatJID := x.JIDString evt.Info.Chat
          Sender := x.JIDString evt.Info.Sender
          Content := x.ExtractMessageTextFromProto payload
          Timestamp := evt.Info.Timestamp
          IsFromMe := evt.Info.IsFromMe
          MediaType := (x.ExtractMediaInfo payload).mediaType
          Filename := (x.ExtractMediaInfo payload).filename
          URL := (x.ExtractMediaInfo payload).url
          MediaKey := (x.ExtractMediaInfo payload).mediaKey
          FileSHA256 := (x.ExtractMediaInfo payload).fileSHA256
          FileEncSHA256 := (x.ExtractMediaInfo payload).fileEncSHA256
          FileLength := (x.ExtractMediaInfo payload).fileLength } e he
      exact ⟨this.1, this.2.trans hmsgs⟩

/-- C6, the two examples of the spec on a store holding the chat: empty text with empty media
type stores no Message row; empty text with media type `image` stores one. -/
theorem C6_empty_dropped_media_only_kept_witness :
    ((CreateMessage sampleExtractors (storeOf [⟨"628111@s.whatsapp.net", "John", 10, 0⟩] [])
        (some (mediaEvent "" noMedia 100))).1 = none ∧
      (CreateMessage sampleExtractors (storeOf [⟨"628111@s.whatsapp.net", "John", 10, 0⟩] [])
        (some (mediaEvent "" noMedia 100))).2.messages = []) ∧
    ((CreateMessage sampleExtractors (storeOf [⟨"628111@s.whatsapp.net", "John", 10, 0⟩] [])
        (some (mediaEvent "" imageMedia 100))).1 = none ∧
      messageRows (CreateMessage sampleExtractors
        (storeOf [⟨"628111@s.whatsapp.net", "John", 10, 0⟩] [])
        (some (mediaEvent "" imageMedia 100))).2.messages "M2" "628111@s.whatsapp.net" =
        [⟨"M2", "628111@s.whatsapp.net", "628111@s.whatsapp.net", "", 100, false, "image",
          "cat.jpg", "https://mmg.whatsapp.net/cat", [1, 2], [3], [4], 2048⟩]) :=
  ⟨(C6_empty_dropped_media_only_kept sampleExtractors
      (storeOf [⟨"628111@s.whatsapp.net", "John", 10, 0⟩] []) (mediaEvent "" noMedia 100)
      ⟨"", 0, noMedia⟩ ⟨"628111@s.whatsapp.net", "John", 10, 0⟩ rfl (by decide) (by decide)
      (by decide) rfl rfl).2.1 ⟨rfl, rfl⟩,
   (((C6_empty_dropped_media_only_kept sampleExtractors
      (storeOf [⟨"628111@s.whatsapp.net", "John", 10, 0⟩] []) (mediaEvent "" imageMedia 100)
      ⟨"", 0, imageMedia⟩ ⟨"628111@s.whatsapp.net", "John", 10, 0⟩ rfl (by decide) (by decide)
      (by decide) rfl rfl).2.2 (by decide)).1 rfl).1,
   (((C6_empty_dropped_media_only_kept sampleExtractors
      (storeOf [⟨"628111@s.whatsapp.net", "John", 10, 0⟩] []) (mediaEvent "" imageMedia 100)
      ⟨"", 0, imageMedia⟩ ⟨"628111@s.whatsapp.net", "John", 10, 0⟩ rfl (by decide) (by decide)
      (by decide) rfl rfl).2.2 (by decide)).1 rfl).2.2⟩

/-- C8 as stated fails: the chat's `LastMessageTime` is 100, an event with timestamp 50 is
ingested without error, and the chat's `LastMessageTime` is 50 afterwards. -/
theorem C8_last_message_time_moves_back :
    chatRows (storeOf [⟨"628111@s.whatsapp.net", "John", 100, 0⟩] []).chats
        "628111@s.whatsapp.net" = [⟨"628111@s.whatsapp.net", "John", 100, 0⟩] ∧
    (CreateMessage sampleExtractors (storeOf [⟨"628111@s.whatsapp.net", "John", 100, 0⟩] [])
        (some (textEvent "hi" "John" 50 0))).1 = none ∧
    chatRows (CreateMessage sampleExtractors
        (storeOf [⟨"628111@s.whatsapp.net", "John", 100, 0⟩] [])
        (some (textEvent "hi" "John" 50 0))).2.chats "628111@s.whatsapp.net" =
      [⟨"628111@s.whatsapp.net", "John", 50, 0⟩] ∧
    (50 : Int) < 100 := by
  refine ⟨by decide, by decide, by decide, by decide⟩

/-- C8 amended: when the store holds a Chat for the event's chat JID (and the lookups and the
chat upsert go through), the chat's `LastMessageTime` after `CreateMessage` is the event's
timestamp; it is not earlier than before exactly when the event's timestamp is not earlier than
the stored one. -/
theorem C8_last_message_time_is_event_timestamp {P : Type} (x : Extractors P) (db : DB)
    (evt : Event P) (payload : P) (c : Chat) (hpayload : evt.Message = some payload)
    (hkey : chatsKeyed db.chats) (hstored : c ∈ db.chats)
    (hjid : c.JID = x.JIDString evt.Info.Chat) (hgo : passes db.faults 3 = true) :
    ∃ row, chatRows (CreateMessage x db (some evt)).2.chats (x.JIDString evt.Info.Chat) = [row] ∧
      row.LastMessageTime = evt.Info.Timestamp ∧
      (c.LastMessageTime ≤ row.LastMessageTime ↔ c.LastMessageTime ≤ evt.Info.Timestamp) := by
  have hrow : (chatRows db.chats (x.JIDString evt.Info.Chat)).head? = some c := by
    rw [← hjid, chatRows_of_mem hkey hstored]; rfl
  rw [CreateMessage_chats_after x db evt payload c hpayload hgo hrow]
  exact ⟨_, upsertChatRow_rows _ hkey, rfl, Iff.rfl⟩

/-- C8 amended, on a newer event: stored time 100, event time 150, the chat ends at 150. -/
theorem C8_last_message_time_is_event_timestamp_witness :
    ∃ row, chatRows (CreateMessage sampleExtractors
        (storeOf [⟨"628111@s.whatsapp.net", "John", 100, 0⟩] [])
        (some (textEvent "hi" "John" 150 0))).2.chats "628111@s.whatsapp.net" = [row] ∧
      row.LastMessageTime = 150 ∧ ((100 : Int) ≤ row.LastMessageTime ↔ (100 : Int) ≤ 150) :=
  C8_last_message_time_is_event_timestamp sampleExtractors
    (storeOf [⟨"628111@s.whatsapp.net", "John", 100, 0⟩] []) (textEvent "hi" "John" 150 0)
    ⟨"hi", 0, noMedia⟩ ⟨"628111@s.whatsapp.net", "John", 100, 0⟩ rfl (by decide) (by decide)
    rfl rfl

/-- C7 as stated fails: the chat is stored with an empty name; the first run succeeds and names
it `628222` (the sender identifier), the retry with the same event succeeds and renames it
`628111` (the push name). -/
theorem C7_retry_renames_placeholder :
    (CreateMessage sampleExtractors (storeOf [⟨"628111@s.whatsapp.net", "", 10, 0⟩] [])
        (some relayedEvent)).1 = none ∧
    (CreateMessage sampleExtractors (storeOf [⟨"628111@s.whatsapp.net", "", 10, 0⟩] [])
        (some relayedEvent)).2.chats = [⟨"628111@s.whatsapp.net", "628222", 100, 0⟩] ∧
    (CreateMessage sampleExtractors
        (CreateMessage sampleExtractors (storeOf [⟨"628111@s.whatsapp.net", "", 10, 0⟩] [])
          (some relayedEvent)).2 (some relayedEvent)).1 = none ∧
    (CreateMessage sampleExtractors
        (CreateMessage sampleExtractors (storeOf [⟨"628111@s.whatsapp.net", "", 10, 0⟩] [])
          (some relayedEvent)).2 (some relayedEvent)).2.chats =
      [⟨"628111@s.whatsapp.net", "628111", 100, 0⟩] := by
  refine ⟨by decide, by decide, by decide, by decide⟩

/-! ## Retrying an event -/

theorem name_of_row {db : DB} {chatJID : String} {c : Chat} (jid : JID)
    (senderUser pushName : String) (hgo : passes db.faults 1 = true)
    (hrow : (chatRows db.chats chatJID).head? = some c) :
    (GetChatNameWithPushName db jid chatJID senderUser pushName).1 =
      if c.Name ≠ "" then
        if pushName ≠ "" ∧ (c.Name = jid.User ∨ c.Name = senderUser) then pushName
        else c.Name
      else deriveChatName jid senderUser pushName := by
  by_cases hname : c.Name ≠ ""
  · rw [if_pos hname]
    exact name_of_stored jid senderUser pushName hgo hrow hname
  · rw [if_neg hname]
    have h1 : (GetChat db chatJID).1 = (some c, none) := by
      rw [GetChat_fst, send_fst, (passes_succ hgo).1, hrow]
    unfold GetChatNameWithPushName
    rcases hg : GetChat db chatJID with ⟨found, db1⟩
    rw [hg] at h1
    simp only [] at h1
    subst h1
    simp only [hname, if_false]

theorem StoreMessage_faults (db : DB) (message : Message) :
    (StoreMessage db message).2.faults = db.faults.tail := by
  unfold StoreMessage
  have hf := send_faults db (.upsertMessage message)
  rcases hs : db.send (.upsertMessage message) with ⟨_ | e, db1⟩
  all_goals rw [hs] at hf
  all_goals simp only [] at hf ⊢
  · split <;> exact hf
  · exact hf

/-- A run of `CreateMessage` on a stored chat with a healthy driver: no error, the chat row is
upserted, the message is upserted unless it is empty, and the driver stays healthy. -/
theorem CreateMessage_healthy {P : Type} (x : Extractors P) (db : DB) (evt : Event P)
    (payload : P) (c : Chat) (hpayload : evt.Message = some payload)
    (hgo : passes db.faults 4 = true)
    (hrow : (chatRows db.chats (x.JIDString evt.Info.Chat)).head? = some c) :
    (CreateMessage x db (some evt)).1 = none ∧
    (CreateMessage x db (some evt)).2.chats = upsertChatRow db.chats
      { JID := x.JIDString evt.Info.Chat
        Name := (GetChatNameWithPushName db evt.Info.Chat (x.JIDString evt.Info.Chat)
          evt.Info.Sender.User evt.Info.PushName).1
        LastMessageTime := evt.Info.Timestamp
        EphemeralExpiration :=
          if x.ExtractEphemeralExpiration payload > 0 then x.ExtractEphemeralExpiration payload
          else c.EphemeralExpiration } ∧
    (CreateMessage x db (some evt)).2.messages =
      (if x.ExtractMessageTextFromProto payload = "" ∧
          (x.ExtractMediaInfo payload).mediaType = "" then db.messages
       else upsertMessageRow db.messages (storedMessage x evt payload)) ∧
    (∀ n, passes db.faults (n + 4) = true →
      passes (CreateMessage x db (some evt)).2.faults n = true) := by
  have hgo3 : passes db.faults 3 = true := passes_pred hgo
  obtain ⟨db3, hchats, hmsgs, hfaults, heq⟩ :=
    CreateMessage_stored x db evt payload c hpayload hgo3 hrow
  refine ⟨?_, CreateMessage_chats_after x db evt payload c hpayload hgo3 hrow, ?_, ?_⟩
  · rw [heq]
    split
    · rfl
    · have hgo1 : passes db3.faults 1 = true := by
        rw [hfaults]
        exact (passes_succ (passes_succ (passes_succ hgo).2).2).2
      have hchat : chatRows db3.chats (x.JIDString evt.Info.Chat) ≠ [] := by
        intro hnil
        have := upsertChatRow_head db.chats
          { JID := x.JIDString evt.Info.Chat
            Name := (GetChatNameWithPushName db evt.Info.Chat (x.JIDString evt.Info.Chat)
              evt.Info.Sender.User evt.Info.PushName).1
            LastMessageTime := evt.Info.Timestamp
            EphemeralExpiration :=
              if x.ExtractEphemeralExpiration payload > 0 then
                x.ExtractEphemeralExpiration payload
              else c.EphemeralExpiration }
        rw [← hchats] at this
        simp only [] at this
        rw [hnil] at this
        cases this
      rw [StoreMessage_ok _ hgo1 hchat]
  · rw [heq]
    split
    · exact hmsgs
    · have hgo1 : passes db3.faults 1 = true := by
        rw [hfaults]
        exact (passes_succ (passes_succ (passes_succ hgo).2).2).2
      have hchat : chatRows db3.chats (x.JIDString evt.Info.Chat) ≠ [] := by
        intro hnil
        have := upsertChatRow_head db.chats
          { JID := x.JIDString evt.Info.Chat
            Name := (GetChatNameWithPushName db evt.Info.Chat (x.JIDString evt.Info.Chat)
              evt.Info.Sender.User evt.Info.PushName).1
            LastMessageTime := evt.Info.Timestamp
            EphemeralExpiration :=
              if x.ExtractEphemeralExpiration payload > 0 then
                x.ExtractEphemeralExpiration payload
              else c.EphemeralExpiration }
        rw [← hchats] at this
        simp only [] at this
        rw [hnil] at this
        cases this
      rw [StoreMessage_ok _ hgo1 hchat]
      show upsertMessageRow db3.messages _ = _
      rw [hmsgs]
      rfl
  · intro n hn
    have h3 : passes db3.faults (n + 1) = true := by
      rw [hfaults]
      exact (passes_succ (passes_succ (passes_succ hn).2).2).2
    rw [heq]
    split
    · exact passes_pred h3
    · rw [StoreMessage_faults]
      exact (passes_succ h3).2

theorem upsertChatRow_again (chats : List Chat) {c1 c2 : Chat} (hjid : c1.JID = c2.JID) :
    upsertChatRow (upsertChatRow chats c1) c2 = upsertChatRow chats c2 := by
  induction chats with
  | nil => simp [upsertChatRow, hjid]
  | cons a rest ih =>
    by_cases hk : a.JID = c1.JID
    · have hk2 : a.JID = c2.JID := hk.trans hjid
      simp [upsertChatRow, hk, hk2, hjid]
    · have hk2 : ¬ a.JID = c2.JID := fun e => hk (e.trans hjid.symm)
      simp [upsertChatRow, hk, hk2, ih]

theorem upsertChatRow_map {β : Type} (f : Chat → β) (chats : List Chat) {c1 c2 : Chat}
    (hjid : c1.JID = c2.JID) (hf : f c1 = f c2) :
    (upsertChatRow chats c1).map f = (upsertChatRow chats c2).map f := by
  induction chats with
  | nil => simp [upsertChatRow, hf]
  | cons a rest ih =>
    by_cases hk : a.JID = c1.JID
    · have hk2 : a.JID = c2.JID := hk.trans hjid
      unfold upsertChatRow
      rw [if_pos hk, if_pos hk2, List.map_cons, List.map_cons, hf]
    · have hk2 : ¬ a.JID = c2.JID := fun e => hk (e.trans hjid.symm)
      unfold upsertChatRow
      rw [if_neg hk, if_neg hk2, List.map_cons, List.map_cons, ih]

theorem upsertChatRow_inj (chats : List Chat) {c1 c2 : Chat} (hjid : c1.JID = c2.JID)
    (h : upsertChatRow chats c1 = upsertChatRow chats c2) : c1 = c2 := by
  induction chats with
  | nil =>
    unfold upsertChatRow at h
    exact List.head_eq_of_cons_eq h
  | cons a rest ih =>
    unfold upsertChatRow at h
    by_cases hk : a.JID = c1.JID
    · have hk2 : a.JID = c2.JID := hk.trans hjid
      rw [if_pos hk, if_pos hk2] at h
      exact List.head_eq_of_cons_eq h
    · have hk2 : ¬ a.JID = c2.JID := fun e => hk (e.trans hjid.symm)
      rw [if_neg hk, if_neg hk2] at h
      exact ih (List.tail_eq_of_cons_eq h)

theorem deriveChatName_empty_push (jid : JID) (senderUser pushName : String)
    (h : deriveChatName jid senderUser pushName = "") : pushName = "" := by
  have hlabel : ∀ label : String, label.length = 6 ∨ label.length = 11 →
      label ++ jid.User ≠ "" := by
    intro label hl e
    have hlen := congrArg String.length e
    rw [String.length_append] at hlen
    have h0 : ("" : String).length = 0 := rfl
    rw [h0] at hlen
    omega
  unfold deriveChatName at h
  split at h
  · exact absurd h (hlabel "Group " (Or.inl rfl))
  · split at h
    · exact absurd h (hlabel "Newsletter " (Or.inr rfl))
    · split at h
      · exact h
      · rename_i hp
        split at h
        · rename_i hs
          exact absurd h hs
        · rename_i hs
          have hs0 : senderUser = "" := not_not.mp hs
          by_contra hne
          apply hp
          refine ⟨hne, ?_, ?_⟩
          · rw [hs0]; exact hne
          · rw [h]; exact hne

/-- Resolving the name again over the name just resolved, `d` being the derived name: the name
is the same exactly when the name stored at first was non-empty, or there is no push name, or
the push name is the derived name, or the derived name is neither the user fragment nor the
sender identifier. -/
theorem resolve_again_iff (n u s p d : String) (hd : d = "" → p = "") :
    (if (if n ≠ "" then (if p ≠ "" ∧ (n = u ∨ n = s) then p else n) else d) ≠ "" then
        (if p ≠ "" ∧ ((if n ≠ "" then (if p ≠ "" ∧ (n = u ∨ n = s) then p else n) else d) = u ∨
            (if n ≠ "" then (if p ≠ "" ∧ (n = u ∨ n = s) then p else n) else d) = s) then p
         else (if n ≠ "" then (if p ≠ "" ∧ (n = u ∨ n = s) then p else n) else d))
      else d) =
      (if n ≠ "" then (if p ≠ "" ∧ (n = u ∨ n = s) then p else n) else d) ↔
    (n ≠ "" ∨ p = "" ∨ p = d ∨ (d ≠ u ∧ d ≠ s)) := by
  by_cases hn : n = ""
  · subst hn
    by_cases hp : p = ""
    · subst hp
      by_cases hd0 : d = "" <;> simp [hd0]
    · have hd0 : d ≠ "" := fun e => hp (hd e)
      by_cases hc : d = u ∨ d = s
      · have hc2 : ¬ (d ≠ u ∧ d ≠ s) := by
          rintro ⟨h1, h2⟩
          rcases hc with h | h
          · exact h1 h
          · exact h2 h
        simp only [ne_eq, not_true_eq_false, if_false, hd0, not_false_eq_true, if_true, hp, hc,
          and_self, false_or, hc2, or_false]
      · have hc2 : d ≠ u ∧ d ≠ s := by
          constructor
          · exact fun h => hc (Or.inl h)
          · exact fun h => hc (Or.inr h)
        have hu : ¬ d = u := hc2.1
        have hs : ¬ d = s := hc2.2
        simp [hd0, hu, hs]
  · by_cases hp : p = ""
    · subst hp
      simp [hn]
    · by_cases hc : n = u ∨ n = s
      · simp [hn, hp, hc]
      · simp [hn, hp, hc]

/-- When the name is not the same, it is the push name. -/
theorem resolve_again_push (n u s p d : String) (hd : d = "" → p = "")
    (h : ¬ (n ≠ "" ∨ p = "" ∨ p = d ∨ (d ≠ u ∧ d ≠ s))) :
    (if (if n ≠ "" then (if p ≠ "" ∧ (n = u ∨ n = s) then p else n) else d) ≠ "" then
        (if p ≠ "" ∧ ((if n ≠ "" then (if p ≠ "" ∧ (n = u ∨ n = s) then p else n) else d) = u ∨
            (if n ≠ "" then (if p ≠ "" ∧ (n = u ∨ n = s) then p else n) else d) = s) then p
         else (if n ≠ "" then (if p ≠ "" ∧ (n = u ∨ n = s) then p else n) else d))
      else d) = p ∧
    (if n ≠ "" then (if p ≠ "" ∧ (n = u ∨ n = s) then p else n) else d) = d ∧ d ≠ p := by
  rw [not_or, not_or, not_or] at h
  obtain ⟨hn, hp, hpd, hc⟩ := h
  have hn0 : n = "" := not_not.mp hn
  subst hn0
  have hc1 : d = u ∨ d = s := by
    by_contra hcon
    exact hc ⟨fun e => hcon (Or.inl e), fun e => hcon (Or.inr e)⟩
  by_cases hd0 : d = ""
  · exact absurd (hd hd0) hp
  · simp only [ne_eq, not_true_eq_false, if_false, hd0, not_false_eq_true, if_true, hp, hc1,
      and_self, true_and]
    exact fun e => hpd e.symm

/-- C7 amended: with a healthy driver, whenever `CreateMessage` succeeds, a second run with the
same event succeeds too and leaves every Message row, and the JID, last message time and
ephemeral expiration of every Chat row, exactly as the first run left them. The Chat names are
left as well if and only if the name stored for the chat before the first run was non-empty, or
the event carries no push name, or the push name is the name derived from the address, or that
derived name is neither the user fragment of the address nor the sender identifier; in every
other case the first run stored the derived name, a placeholder, and the retry replaces it by
the push name. An event without payload changes nothing in either run. -/
theorem C7_retry_keeps_store {P : Type} (x : Extractors P) (db : DB) (evt : Event P)
    (hgo : passes db.faults 8 = true)
    (hfirst : (CreateMessage x db (some evt)).1 = none) :
    (CreateMessage x (CreateMessage x db (some evt)).2 (some evt)).1 = none ∧
    (CreateMessage x (CreateMessage x db (some evt)).2 (some evt)).2.messages =
      (CreateMessage x db (some evt)).2.messages ∧
    (CreateMessage x (CreateMessage x db (some evt)).2 (some evt)).2.chats.map
        (fun c => (c.JID, c.LastMessageTime, c.EphemeralExpiration)) =
      (CreateMessage x db (some evt)).2.chats.map
        (fun c => (c.JID, c.LastMessageTime, c.EphemeralExpiration)) ∧
    (evt.Message = none →
      (CreateMessage x (CreateMessage x db (some evt)).2 (some evt)).2.chats =
        (CreateMessage x db (some evt)).2.chats) ∧
    (evt.Message ≠ none →
      ∃ c, (chatRows db.chats (x.JIDString evt.Info.Chat)).head? = some c ∧
        ((CreateMessage x (CreateMessage x db (some evt)).2 (some evt)).2.chats =
            (CreateMessage x db (some evt)).2.chats ↔
          (c.Name ≠ "" ∨ evt.Info.PushName = "" ∨
            evt.Info.PushName =
              deriveChatName evt.Info.Chat evt.Info.Sender.User evt.Info.PushName ∨
            (deriveChatName evt.Info.Chat evt.Info.Sender.User evt.Info.PushName ≠
                evt.Info.Chat.User ∧
              deriveChatName evt.Info.Chat evt.Info.Sender.User evt.Info.PushName ≠
                evt.Info.Sender.User))) ∧
        (¬ (c.Name ≠ "" ∨ evt.Info.PushName = "" ∨
            evt.Info.PushName =
              deriveChatName evt.Info.Chat evt.Info.Sender.User evt.Info.PushName ∨
            (deriveChatName evt.Info.Chat evt.Info.Sender.User evt.Info.PushName ≠
                evt.Info.Chat.User ∧
              deriveChatName evt.Info.Chat evt.Info.Sender.User evt.Info.PushName ≠
                evt.Info.Sender.User)) →
          ((chatRows (CreateMessage x db (some evt)).2.chats
              (x.JIDString evt.Info.Chat)).head?.map (fun r => r.Name) =
            some (deriveChatName evt.Info.Chat evt.Info.Sender.User evt.Info.PushName) ∧
           (chatRows (CreateMessage x (CreateMessage x db (some evt)).2 (some evt)).2.chats
              (x.JIDString evt.Info.Chat)).head?.map (fun r => r.Name) =
            some evt.Info.PushName))) := by
  rcases hm : evt.Message with _ | payload
  · have hnoop : ∀ d : DB, CreateMessage x d (some evt) = (none, d) := by
      intro d
      simp only [CreateMessage, hm]
    simp only [hnoop, implies_true, and_self, ne_eq, not_true_eq_false, false_implies]
  · rcases hh : (chatRows db.chats (x.JIDString evt.Info.Chat)).head? with _ | c
    · have hnil : chatRows db.chats (x.JIDString evt.Info.Chat) = [] :=
        List.head?_eq_none_iff.mp hh
      obtain ⟨cause, hc, _⟩ := CreateMessage_absent x db evt payload hm hnil
      rw [hfirst] at hc
      cases hc
    · have hgo4 : passes db.faults 4 = true :=
        passes_pred (passes_pred (passes_pred (passes_pred hgo)))
      obtain ⟨_, hchats1, hmsgs1, hfaults1⟩ := CreateMessage_healthy x db evt payload c hm hgo4 hh
      have hh2 : (chatRows (CreateMessage x db (some evt)).2.chats
          (x.JIDString evt.Info.Chat)).head? = some
            { JID := x.JIDString evt.Info.Chat
              Name := (GetChatNameWithPushName db evt.Info.Chat (x.JIDString evt.Info.Chat)
                evt.Info.Sender.User evt.Info.PushName).1
              LastMessageTime := evt.Info.Timestamp
              EphemeralExpiration :=
                if x.ExtractEphemeralExpiration payload > 0 then
                  x.ExtractEphemeralExpiration payload
                else c.EphemeralExpiration } := by
        rw [hchats1]
        exact upsertChatRow_head db.chats _
      have hgo2 : passes (CreateMessage x db (some evt)).2.faults 4 = true := hfaults1 4 hgo
      obtain ⟨hok2, hchats2, hmsgs2, _⟩ :=
        CreateMessage_healthy x (CreateMessage x db (some evt)).2 evt payload _ hm hgo2 hh2
      have heph : (if x.ExtractEphemeralExpiration payload > 0 then
            x.ExtractEphemeralExpiration payload
          else (if x.ExtractEphemeralExpiration payload > 0 then
            x.ExtractEphemeralExpiration payload else c.EphemeralExpiration)) =
          (if x.ExtractEphemeralExpiration payload > 0 then
            x.ExtractEphemeralExpiration payload else c.EphemeralExpiration) := by
        split <;> rfl
      have hchats2' : (CreateMessage x (CreateMessage x db (some evt)).2 (some evt)).2.chats =
          upsertChatRow db.chats
            { JID := x.JIDString evt.Info.Chat
              Name := (GetChatNameWithPushName (CreateMessage x db (some evt)).2 evt.Info.Chat
                (x.JIDString evt.Info.Chat) evt.Info.Sender.User evt.Info.PushName).1
              LastMessageTime := evt.Info.Timestamp
              EphemeralExpiration :=
                if x.ExtractEphemeralExpiration payload > 0 then
                  x.ExtractEphemeralExpiration payload
                else c.EphemeralExpiration } := by
        rw [hchats2, hchats1]
        simp only [heph]
        exact upsertChatRow_again db.chats (by rfl)
      have hname1 := name_of_row evt.Info.Chat evt.Info.Sender.User evt.Info.PushName
        (passes_pred (passes_pred (passes_pred hgo4))) hh
      have hname2 := name_of_row evt.Info.Chat evt.Info.Sender.User evt.Info.PushName
        (passes_pred (passes_pred (passes_pred hgo2))) hh2
      simp only [] at hname2
      rw [hname1] at hname2
      have hd := deriveChatName_empty_push evt.Info.Chat evt.Info.Sender.User evt.Info.PushName
      refine ⟨hok2, ?_, ?_, ?_, ?_⟩
      · rw [hmsgs2, hmsgs1]
        split
        · rfl
        · exact upsertMessageRow_idem _ _
      · rw [hchats2', hchats1]
        exact upsertChatRow_map _ _ (by rfl) (by rfl)
      · intro h
        cases h
      · intro _
        refine ⟨c, rfl, ?_, ?_⟩
        · rw [← resolve_again_iff c.Name evt.Info.Chat.User evt.Info.Sender.User
            evt.Info.PushName _ hd, ← hname2, ← hname1, hchats2', hchats1]
          constructor
          · intro h
            exact congrArg Chat.Name (upsertChatRow_inj db.chats (by rfl) h)
          · intro h
            rw [h]
        · intro hnot
          obtain ⟨h2, h1, _⟩ := resolve_again_push c.Name evt.Info.Chat.User
            evt.Info.Sender.User evt.Info.PushName _ hd hnot
          rw [← hname2] at h2
          rw [← hname1] at h1
          constructor
          · rw [hh2, Option.map_some', h1]
          · rw [hchats2']
            have hhead := upsertChatRow_head db.chats
              { JID := x.JIDString evt.Info.Chat
                Name := (GetChatNameWithPushName (CreateMessage x db (some evt)).2 evt.Info.Chat
                  (x.JIDString evt.Info.Chat) evt.Info.Sender.User evt.Info.PushName).1
                LastMessageTime := evt.Info.Timestamp
                EphemeralExpiration :=
                  if x.ExtractEphemeralExpiration payload > 0 then
                    x.ExtractEphemeralExpiration payload
                  else c.EphemeralExpiration }
            rw [hhead, Option.map_some', h2]

/-- C7 amended, on three stored chats. Named `John`: the retry of a text message with push name
`Johnny` succeeds. Stored with an empty name, the push name `John` being the derived name: the
retry leaves the chat rows as the first run left them. Stored with an empty name, sender
`628222` and push name `628111`: the first run stores the placeholder `628222` and the retry
stores the push name. -/
theorem C7_retry_keeps_store_witness :
    (CreateMessage sampleExtractors
        (CreateMessage sampleExtractors (storeOf [⟨"628111@s.whatsapp.net", "John", 10, 0⟩] [])
          (some (textEvent "hi" "Johnny" 100 0))).2 (some (textEvent "hi" "Johnny" 100 0))).1
      = none ∧
    (CreateMessage sampleExtractors
        (CreateMessage sampleExtractors (storeOf [⟨"628111@s.whatsapp.net", "", 10, 0⟩] [])
          (some (textEvent "hi" "John" 100 0))).2 (some (textEvent "hi" "John" 100 0))).2.chats =
      (CreateMessage sampleExtractors (storeOf [⟨"628111@s.whatsapp.net", "", 10, 0⟩] [])
          (some (textEvent "hi" "John" 100 0))).2.chats ∧
    ((chatRows (CreateMessage sampleExtractors
          (storeOf [⟨"628111@s.whatsapp.net", "", 10, 0⟩] []) (some relayedEvent)).2.chats
        "628111@s.whatsapp.net").head?.map (fun r => r.Name) = some "628222" ∧
      (chatRows (CreateMessage sampleExtractors
          (CreateMessage sampleExtractors (storeOf [⟨"628111@s.whatsapp.net", "", 10, 0⟩] [])
            (some relayedEvent)).2 (some relayedEvent)).2.chats
        "628111@s.whatsapp.net").head?.map (fun r => r.Name) = some "628111") := by
  refine ⟨?_, ?_, ?_⟩
  · exact (C7_retry_keeps_store sampleExtractors
      (storeOf [⟨"628111@s.whatsapp.net", "John", 10, 0⟩] [])
      (textEvent "hi" "Johnny" 100 0) (by decide) (by decide)).1
  · obtain ⟨c, _, hiff, _⟩ := (C7_retry_keeps_store sampleExtractors
      (storeOf [⟨"628111@s.whatsapp.net", "", 10, 0⟩] [])
      (textEvent "hi" "John" 100 0) (by decide) (by decide)).2.2.2.2 (by decide)
    exact hiff.mpr (Or.inr (Or.inr (Or.inl (by decide))))
  · obtain ⟨c, hc, _, hpush⟩ := (C7_retry_keeps_store sampleExtractors
      (storeOf [⟨"628111@s.whatsapp.net", "", 10, 0⟩] [])
      relayedEvent (by decide) (by decide)).2.2.2.2 (by decide)
    have hrow : c = ⟨"628111@s.whatsapp.net", "", 10, 0⟩ := (Option.some.inj hc).symm
    subst hrow
    exact hpush (by decide)

/-! ## Schema migration engine -/

theorem send_eq (db : DB) (s : Stmt) :
    db.send s =
      (db.faults.head?.join, { db with faults := db.faults.tail, trace := db.trace ++ [s] }) := by
  rcases db with ⟨chats, messages, ledger, schema, faults, trace⟩
  cases faults <;> rfl

theorem passes_add {fs : List (Option Err)} (a b : Nat) (h : passes fs (a + b) = true) :
    passes fs a = true ∧ passes (fs.drop a) b = true := by
  induction a generalizing fs with
  | zero =>
    constructor
    · cases fs <;> rfl
    · simpa using h
  | succ k ih =>
    cases fs with
    | nil =>
      constructor
      · rfl
      · cases b <;> simp [passes]
    | cons f rest =>
      have h' : passes (f :: rest) ((k + b) + 1) = true := by
        rw [show k + b + 1 = k + 1 + b by omega]; exact h
      simp only [passes, Bool.and_eq_true] at h' ⊢
      have := ih h'.2
      exact ⟨⟨h'.1, this.1⟩, by simpa using this.2⟩

theorem healthy_passes {fs : List (Option Err)} (h : healthy fs = true) (n : Nat) :
    passes fs n = true := by
  induction fs generalizing n with
  | nil => cases n <;> rfl
  | cons f rest ih =>
    cases n with
    | zero => rfl
    | succ k =>
      unfold healthy at h ih
      simp only [List.all_cons, Bool.and_eq_true] at h
      simp only [passes, Bool.and_eq_true]
      exact ⟨h.1, ih h.2 k⟩

theorem healthy_drop {fs : List (Option Err)} (h : healthy fs = true) (n : Nat) :
    healthy (fs.drop n) = true := by
  unfold healthy at h ⊢
  rw [List.all_eq_true] at h ⊢
  intro x hx
  exact h x (List.mem_of_mem_drop hx)

theorem tail_four (fs : List (Option Err)) : fs.tail.tail.tail.tail = fs.drop 4 := by
  rcases fs with _ | ⟨a, _ | ⟨b, _ | ⟨c, _ | ⟨d, l⟩⟩⟩⟩ <;> rfl

theorem tail_two (fs : List (Option Err)) : fs.tail.tail = fs.drop 2 := by
  rcases fs with _ | ⟨a, _ | ⟨b, l⟩⟩ <;> rfl

theorem getSchemaVersion_ok {db : DB} (hgo : passes db.faults 2 = true) :
    getSchemaVersion db =
      ((maxVersion db.schema_info, none),
        { db with faults := db.faults.drop 2
                  trace := db.trace ++ [.createSchemaInfo, .selectMaxVersion] }) := by
  have h1 := (passes_succ hgo).1
  have h2 := (passes_succ (passes_succ hgo).2).1
  simp only [getSchemaVersion, send_eq, h1, h2, List.append_assoc, List.singleton_append,
    tail_two]

theorem runMigration_ok {db : DB} (migration : String) (version : Nat)
    (hgo : passes db.faults 4 = true) :
    runMigration db migration version =
      (none,
        { db with schema := db.schema ++ [migration]
                  schema_info := recordVersion db.schema_info version
                  faults := db.faults.drop 4
                  trace := db.trace ++
                    [.txBegin, .txExec migration, .txUpsertVersion version, .txCommit] }) := by
  have h1 := (passes_succ hgo).1
  have h2 := (passes_succ (passes_succ hgo).2).1
  have h3 := (passes_succ (passes_succ (passes_succ hgo).2).2).1
  have h4 := (passes_succ (passes_succ (passes_succ (passes_succ hgo).2).2).2).1
  simp only [runMigration, Begin, execScript, execRecordVersion, Tx.Commit, Tx.Rollback,
    send_eq, h1, h2, h3, h4, List.append_assoc, List.singleton_append, tail_four, if_true]
  rfl

theorem foldl_max_le (l : List Nat) (a : Nat) :
    a ≤ l.foldl max a ∧ ∀ x ∈ l, x ≤ l.foldl max a := by
  induction l generalizing a with
  | nil => exact ⟨le_refl a, fun x hx => by cases hx⟩
  | cons b rest ih =>
    rw [List.foldl_cons]
    have h := ih (max a b)
    refine ⟨le_trans (le_max_left a b) h.1, ?_⟩
    intro x hx
    rcases List.mem_cons.mp hx with rfl | hmem
    · exact le_trans (le_max_right a x) h.1
    · exact h.2 x hmem

theorem le_maxVersion {ledger : List Nat} {x : Nat} (h : x ∈ ledger) : x ≤ maxVersion ledger :=
  (foldl_max_le ledger 0).2 x h

theorem maxVersion_concat (ledger : List Nat) (x : Nat) :
    maxVersion (ledger ++ [x]) = max (maxVersion ledger) x := by
  simp [maxVersion, List.foldl_append]

theorem recordVersion_new {ledger : List Nat} {version : Nat}
    (h : maxVersion ledger < version) : recordVersion ledger version = ledger ++ [version] := by
  unfold recordVersion
  rw [if_neg]
  intro hmem
  exact absurd (le_maxVersion hmem) (not_le.mpr h)

theorem maxVersion_range (ledger : List Nat) (i k : Nat) (h : maxVersion ledger ≤ i) :
    maxVersion (ledger ++ List.range' (i + 1) k) = if k = 0 then maxVersion ledger else i + k := by
  induction k with
  | zero => simp
  | succ n ih =>
    rw [List.range'_1_concat, ← List.append_assoc, maxVersion_concat, ih]
    split
    · rename_i h0
      subst h0
      simp only [Nat.add_eq_zero, one_ne_zero, and_false, if_false]
      omega
    · simp only [Nat.add_eq_zero, one_ne_zero, and_false, if_false]
      omega

theorem runMigrations_ok (migrations : List String) (i : Nat) (db : DB)
    (hgo : passes db.faults (4 * migrations.length) = true)
    (hmax : maxVersion db.schema_info ≤ i) :
    runMigrations migrations i db =
      (none,
        { db with schema := db.schema ++ migrations
                  schema_info := db.schema_info ++ List.range' (i + 1) migrations.length
                  faults := db.faults.drop (4 * migrations.length)
                  trace := db.trace ++ migrationTrace migrations i }) := by
  induction migrations generalizing i db with
  | nil =>
    rcases db with ⟨chats, messages, ledger, schema, faults, trace⟩
    simp [runMigrations, migrationTrace]
  | cons m rest ih =>
    have hsplit : passes db.faults (4 + 4 * rest.length) = true := by
      rw [show 4 + 4 * rest.length = 4 * (m :: rest).length by simp [List.length_cons]; omega]
      exact hgo
    obtain ⟨h4, hrest⟩ := passes_add 4 (4 * rest.length) hsplit
    have hnew : recordVersion db.schema_info (i + 1) = db.schema_info ++ [i + 1] :=
      recordVersion_new (Nat.lt_succ_of_le hmax)
    unfold runMigrations
    rw [runMigration_ok m (i + 1) h4]
    simp only []
    rw [ih (i + 1) _ hrest (by
      show maxVersion (recordVersion db.schema_info (i + 1)) ≤ i + 1
      rw [hnew, maxVersion_concat]
      exact max_le (le_trans hmax (Nat.le_succ i)) (le_refl _))]
    simp only [hnew, List.append_assoc, List.singleton_append, List.drop_drop, migrationTrace,
      List.length_cons, List.range'_succ, List.cons_append, List.nil_append]
    congr 3
    omega

theorem runMigrations_append (first second : List String) (i : Nat) (db : DB) :
    runMigrations (first ++ second) i db =
      match runMigrations first i db with
      | (some err, db1) => (some err, db1)
      | (none, db1) => runMigrations second (i + first.length) db1 := by
  induction first generalizing i db with
  | nil => simp [runMigrations]
  | cons m rest ih =>
    show runMigrations (m :: (rest ++ second)) i db = _
    simp only [runMigrations, List.length_cons]
    rcases runMigration db m (i + 1) with ⟨_ | e, db1⟩
    · simp only []
      rw [ih, show i + 1 + rest.length = i + (rest.length + 1) by omega]
    · rfl

theorem runMigration_script_fails {db : DB} (migration : String) (version : Nat) {e : Err}
    (h1 : db.faults.head?.join = none) (h2 : db.faults.tail.head?.join = some e) :
    runMigration db migration version =
      (some e,
        { db with faults := db.faults.tail.tail.tail
                  trace := db.trace ++ [.txBegin, .txExec migration, .txRollback] }) := by
  simp only [runMigration, Begin, execScript, Tx.Rollback, Tx.restore, send_eq, h1, h2,
    List.append_assoc, List.singleton_append, Bool.false_eq_true, if_false]
  rfl

theorem runMigration_ledger_fails {db : DB} (migration : String) (version : Nat) {e : Err}
    (h1 : db.faults.head?.join = none) (h2 : db.faults.tail.head?.join = none)
    (h3 : db.faults.tail.tail.head?.join = some e) :
    runMigration db migration version =
      (some e,
        { db with faults := db.faults.tail.tail.tail.tail
                  trace := db.trace ++
                    [.txBegin, .txExec migration, .txUpsertVersion version, .txRollback] }) := by
  simp only [runMigration, Begin, execScript, execRecordVersion, Tx.Rollback, Tx.restore,
    send_eq, h1, h2, h3, List.append_assoc, List.singleton_append, Bool.false_eq_true, if_false]
  rfl

/-- A run of `InitializeSchema` in which no round trip fails. -/
theorem InitializeSchema_ok (db : DB) (hok : healthy db.faults = true) :
    InitializeSchema db =
      (none,
        { db with
            schema := db.schema ++ getMigrations.drop (maxVersion db.schema_info)
            schema_info := db.schema_info ++
              List.range' (maxVersion db.schema_info + 1)
                (getMigrations.length - maxVersion db.schema_info)
            faults := db.faults.drop (2 + 4 * (getMigrations.length - maxVersion db.schema_info))
            trace := db.trace ++ [.createSchemaInfo, .selectMaxVersion] ++
              migrationTrace (getMigrations.drop (maxVersion db.schema_info))
                (maxVersion db.schema_info) }) := by
  unfold InitializeSchema
  rw [getSchemaVersion_ok (healthy_passes hok 2)]
  simp only []
  have h := runMigrations_ok (getMigrations.drop (maxVersion db.schema_info))
    (maxVersion db.schema_info)
    { db with faults := db.faults.drop 2
              trace := db.trace ++ [.createSchemaInfo, .selectMaxVersion] }
    (healthy_passes (healthy_drop hok 2) _) (le_refl _)
  rw [h]
  simp only [List.length_drop, List.drop_drop]

/-- C9: when no step fails, `InitializeSchema` started at ledger version `v` (at most the
migration count `n`, as on every ledger this engine wrote; 0 on a fresh backend) sends, after the
version read, exactly the statements of the migrations `v+1 .. n` in ascending order, each
once, the script of migration `i` followed by the ledger write of `i`; the scripts `v+1 .. n`
join the schema, the versions `v+1 .. n` join the ledger, whose highest version is then `n`;
a second call sends the version read only and leaves schema and ledger unchanged. -/
theorem C9_migration_convergence (db : DB) (hok : healthy db.faults = true)
    (hv : maxVersion db.schema_info ≤ getMigrations.length) :
    (InitializeSchema db).1 = none ∧
    (InitializeSchema db).2.trace =
      db.trace ++ [.createSchemaInfo, .selectMaxVersion] ++
        migrationTrace (getMigrations.drop (maxVersion db.schema_info))
          (maxVersion db.schema_info) ∧
    (InitializeSchema db).2.schema =
      db.schema ++ getMigrations.drop (maxVersion db.schema_info) ∧
    (InitializeSchema db).2.schema_info =
      db.schema_info ++ List.range' (maxVersion db.schema_info + 1)
        (getMigrations.length - maxVersion db.schema_info) ∧
    maxVersion (InitializeSchema db).2.schema_info = getMigrations.length ∧
    (InitializeSchema (InitializeSchema db).2).1 = none ∧
    (InitializeSchema (InitializeSchema db).2).2.schema_info =
      (InitializeSchema db).2.schema_info ∧
    (InitializeSchema (InitializeSchema db).2).2.schema = (InitializeSchema db).2.schema ∧
    (InitializeSchema (InitializeSchema db).2).2.trace =
      (InitializeSchema db).2.trace ++ [.createSchemaInfo, .selectMaxVersion] := by
  have hmax : maxVersion (InitializeSchema db).2.schema_info = getMigrations.length := by
    rw [InitializeSchema_ok db hok]
    show maxVersion (db.schema_info ++ List.range' (maxVersion db.schema_info + 1)
      (getMigrations.length - maxVersion db.schema_info)) = _
    rw [maxVersion_range _ _ _ (le_refl _)]
    split <;> omega
  have hok2 : healthy (InitializeSchema db).2.faults = true := by
    rw [InitializeSchema_ok db hok]
    exact healthy_drop hok _
  have hsecond := InitializeSchema_ok (InitializeSchema db).2 hok2
  rw [hmax] at hsecond
  simp only [List.drop_length, List.append_nil, Nat.sub_self, List.range'_zero, migrationTrace]
    at hsecond
  rw [hsecond]
  rw [InitializeSchema_ok db hok] at hmax ⊢
  exact ⟨rfl, rfl, rfl, rfl, hmax, rfl, rfl, rfl, rfl⟩

/-- C9 on a fresh backend: the call succeeds, records the versions 1, 2, 3, and the second call
changes neither the ledger nor the schema. -/
theorem C9_migration_convergence_witness :
    (InitializeSchema freshBackend).1 = none ∧
    (InitializeSchema freshBackend).2.schema_info = [1, 2, 3] ∧
    maxVersion (InitializeSchema freshBackend).2.schema_info = getMigrations.length ∧
    (InitializeSchema (InitializeSchema freshBackend).2).2.schema_info =
      (InitializeSchema freshBackend).2.schema_info ∧
    (InitializeSchema (InitializeSchema freshBackend).2).2.schema =
      (InitializeSchema freshBackend).2.schema :=
  ⟨(C9_migration_convergence freshBackend (by decide) (by decide)).1,
   (C9_migration_convergence freshBackend (by decide) (by decide)).2.2.2.1,
   (C9_migration_convergence freshBackend (by decide) (by decide)).2.2.2.2.1,
   (C9_migration_convergence freshBackend (by decide) (by decide)).2.2.2.2.2.2.1,
   (C9_migration_convergence freshBackend (by decide) (by decide)).2.2.2.2.2.2.2.1⟩

theorem drop_replicate_none (a b : Nat) (l : List (Option Err)) :
    (List.replicate (a + b) (none : Option Err) ++ l).drop a = List.replicate b none ++ l := by
  induction a with
  | zero => simp
  | succ k ih =>
    rw [show k + 1 + b = (k + b) + 1 by omega, List.replicate_succ, List.cons_append,
      List.drop_succ_cons]
    exact ih

theorem passes_replicate_none (a b : Nat) (l : List (Option Err)) :
    passes (List.replicate (a + b) (none : Option Err) ++ l) a = true := by
  induction a with
  | zero => cases h : (List.replicate (0 + b) (none : Option Err) ++ l) <;> rfl
  | succ k ih =>
    rw [show k + 1 + b = (k + b) + 1 by omega, List.replicate_succ, List.cons_append]
    simp only [passes, Bool.and_eq_true]
    exact ⟨rfl, ih⟩

/-- C10: if, during `InitializeSchema`, every round trip before migration `k` goes through and
the script of migration `k` (or, with `atLedger`, its ledger write) fails with `e`, then
`InitializeSchema` returns `e` wrapped as `failed to run migration k: `; the statements sent are
the version read, the complete migrations before `k`, and the begin, script (and ledger write)
and rollback of migration `k`, so no later migration is attempted; the schema holds the scripts
before `k` and not the effects of script `k`; the ledger gained the versions before `k`, has no
entry `k`, and its highest version is `k - 1`.  Here `k = v + j + 1` for the ledger version `v`
at the start and `j` migrations that succeed first. -/
theorem C10_failed_migration_is_rolled_back (db : DB) (j : Nat) (atLedger : Bool) (e : Err)
    (rest : List (Option Err)) (migration : String)
    (hk : getMigrations[maxVersion db.schema_info + j]? = some migration)
    (hfaults : db.faults = List.replicate (2 + 4 * j) none ++
      ((if atLedger then [none, none, some e] else [none, some e]) ++ rest)) :
    (InitializeSchema db).1 = some (.wrap
      ("failed to run migration " ++ toString (maxVersion db.schema_info + j + 1) ++ ": ") e) ∧
    (InitializeSchema db).2.trace =
      db.trace ++ [.createSchemaInfo, .selectMaxVersion] ++
        migrationTrace ((getMigrations.drop (maxVersion db.schema_info)).take j)
          (maxVersion db.schema_info) ++
        (if atLedger then
          [.txBegin, .txExec migration, .txUpsertVersion (maxVersion db.schema_info + j + 1),
            .txRollback]
         else [.txBegin, .txExec migration, .txRollback]) ∧
    (InitializeSchema db).2.schema =
      db.schema ++ (getMigrations.drop (maxVersion db.schema_info)).take j ∧
    (InitializeSchema db).2.schema_info =
      db.schema_info ++ List.range' (maxVersion db.schema_info + 1) j ∧
    (maxVersion db.schema_info + j + 1) ∉ (InitializeSchema db).2.schema_info ∧
    maxVersion (InitializeSchema db).2.schema_info = maxVersion db.schema_info + j + 1 - 1 := by
  obtain ⟨hlt, hget⟩ := List.getElem?_eq_some.mp hk
  have hdrop : (getMigrations.drop (maxVersion db.schema_info)).drop j =
      migration :: getMigrations.drop (maxVersion db.schema_info + j + 1) := by
    rw [List.drop_drop, List.drop_eq_getElem_cons hlt, hget]
  have hlen : ((getMigrations.drop (maxVersion db.schema_info)).take j).length = j := by
    rw [List.length_take, List.length_drop]
    omega
  have hsplit : getMigrations.drop (maxVersion db.schema_info) =
      (getMigrations.drop (maxVersion db.schema_info)).take j ++
        (migration :: getMigrations.drop (maxVersion db.schema_info + j + 1)) := by
    rw [← hdrop, List.take_append_drop]
  have hgo2 : passes db.faults 2 = true := by
    rw [hfaults]; exact passes_replicate_none 2 (4 * j) _
  have hf2 : db.faults.drop 2 = List.replicate (4 * j) none ++
      ((if atLedger then [none, none, some e] else [none, some e]) ++ rest) := by
    rw [hfaults]; exact drop_replicate_none 2 (4 * j) _
  have hgo3 : passes (db.faults.drop 2)
      (4 * ((getMigrations.drop (maxVersion db.schema_info)).take j).length) = true := by
    rw [hf2, hlen]; exact passes_replicate_none (4 * j) 0 _
  have hf3 : (db.faults.drop 2).drop
      (4 * ((getMigrations.drop (maxVersion db.schema_info)).take j).length) =
      (if atLedger then [none, none, some e] else [none, some e]) ++ rest := by
    rw [hf2, hlen]; exact drop_replicate_none (4 * j) 0 _
  have hfirst := runMigrations_ok ((getMigrations.drop (maxVersion db.schema_info)).take j)
    (maxVersion db.schema_info)
    { db with faults := db.faults.drop 2
              trace := db.trace ++ [.createSchemaInfo, .selectMaxVersion] }
    hgo3 (le_refl _)
  have hmaxj : maxVersion (db.schema_info ++ List.range' (maxVersion db.schema_info + 1) j) =
      maxVersion db.schema_info + j := by
    rw [maxVersion_range _ _ _ (le_refl _)]
    split
    · rename_i h0; rw [h0]; rfl
    · rfl
  have hrun : InitializeSchema db = runMigrations
      (migration :: getMigrations.drop (maxVersion db.schema_info + j + 1))
      (maxVersion db.schema_info + j)
      { db with
          schema := db.schema ++ (getMigrations.drop (maxVersion db.schema_info)).take j
          schema_info := db.schema_info ++ List.range' (maxVersion db.schema_info + 1) j
          faults := (if atLedger then [none, none, some e] else [none, some e]) ++ rest
          trace := db.trace ++ [.createSchemaInfo, .selectMaxVersion] ++
            migrationTrace ((getMigrations.drop (maxVersion db.schema_info)).take j)
              (maxVersion db.schema_info) } := by
    have happ := runMigrations_append
      ((getMigrations.drop (maxVersion db.schema_info)).take j)
      (migration :: getMigrations.drop (maxVersion db.schema_info + j + 1))
      (maxVersion db.schema_info)
      { db with faults := db.faults.drop 2
                trace := db.trace ++ [.createSchemaInfo, .selectMaxVersion] }
    rw [← hsplit, hfirst] at happ
    simp only [hlen] at happ hf3
    unfold InitializeSchema
    rw [getSchemaVersion_ok hgo2]
    simp only []
    rw [happ, hf3]
  rw [hrun]
  unfold runMigrations
  cases atLedger with
  | false =>
    rw [@runMigration_script_fails _ migration _ e (by rfl) (by rfl)]
    refine ⟨rfl, rfl, rfl, rfl, ?_, ?_⟩
    · intro hmem
      have := le_maxVersion hmem
      simp only [hmaxj] at this
      omega
    · exact hmaxj
  | true =>
    rw [@runMigration_ledger_fails _ migration _ e (by rfl) (by rfl) (by rfl)]
    refine ⟨rfl, rfl, rfl, rfl, ?_, ?_⟩
    · intro hmem
      have := le_maxVersion hmem
      simp only [hmaxj] at this
      omega
    · exact hmaxj

/-- C10 on a fresh backend: the script of migration 2 fails after migration 1 went through;
the error names migration 2, the ledger holds version 1 only, the schema holds script 1 only and
nothing of migration 3 was sent. -/
theorem C10_failed_migration_is_rolled_back_witness :
    (InitializeSchema (faultyBackend
        [none, none, none, none, none, none, none, some (.driver "deadlock detected")])).1 =
      some (.wrap "failed to run migration 2: " (.driver "deadlock detected")) ∧
    (InitializeSchema (faultyBackend
        [none, none, none, none, none, none, none,
          some (.driver "deadlock detected")])).2.schema_info = [1] ∧
    (InitializeSchema (faultyBackend
        [none, none, none, none, none, none, none,
          some (.driver "deadlock detected")])).2.schema = getMigrations.take 1 ∧
    maxVersion (InitializeSchema (faultyBackend
        [none, none, none, none, none, none, none,
          some (.driver "deadlock detected")])).2.schema_info = 1 :=
  ⟨(C10_failed_migration_is_rolled_back
      (faultyBackend [none, none, none, none, none, none, none,
        some (.driver "deadlock detected")])
      1 false (.driver "deadlock detected") []
      "CREATE INDEX IF NOT EXISTS idx_messages_id ON messages(id);" (by decide) (by decide)).1,
   (C10_failed_migration_is_rolled_back
      (faultyBackend [none, none, none, none, none, none, none,
        some (.driver "deadlock detected")])
      1 false (.driver "deadlock detected") []
      "CREATE INDEX IF NOT EXISTS idx_messages_id ON messages(id);" (by decide)
      (by decide)).2.2.2.1,
   (C10_failed_migration_is_rolled_back
      (faultyBackend [none, none, none, none, none, none, none,
        some (.driver "deadlock detected")])
      1 false (.driver "deadlock detected") []
      "CREATE INDEX IF NOT EXISTS idx_messages_id ON messages(id);" (by decide)
      (by decide)).2.2.1,
   (C10_failed_migration_is_rolled_back
      (faultyBackend [none, none, none, none, none, none, none,
        some (.driver "deadlock detected")])
      1 false (.driver "deadlock detected") []
      "CREATE INDEX IF NOT EXISTS idx_messages_id ON messages(id);" (by decide)
      (by decide)).2.2.2.2.2⟩

/-! ## Lookups, failures and empty events -/

theorem name_eq (db : DB) (jid : JID) (chatJID senderUser pushName : String) :
    (GetChatNameWithPushName db jid chatJID senderUser pushName).1 =
      match db.faults.head?.join, (chatRows db.chats chatJID).head? with
      | none, some c =>
        if c.Name ≠ "" then
          if pushName ≠ "" ∧ (c.Name = jid.User ∨ c.Name = senderUser) then pushName
          else c.Name
        else deriveChatName jid senderUser pushName
      | _, _ => deriveChatName jid senderUser pushName := by
  have h1 := GetChat_fst db chatJID
  rw [send_fst] at h1
  unfold GetChatNameWithPushName
  rcases hg : GetChat db chatJID with ⟨found, db1⟩
  rw [hg] at h1
  simp only [] at h1
  subst h1
  rcases db.faults.head?.join with _ | e
  · rcases (chatRows db.chats chatJID).head? with _ | c
    · rfl
    · simp only []
      by_cases hname : c.Name = ""
      · simp [hname]
      · simp only [ne_eq, hname, not_false_eq_true, if_true]
        split <;> rfl
  · rfl

theorem group_label_ne (label user : String) (h : label ≠ "") : label ++ user ≠ "" := by
  intro heq
  apply h
  have hlen : (label ++ user).length = 0 := by rw [heq]; rfl
  rw [String.length_append] at hlen
  have h0 : label.length = 0 := by omega
  exact String.ext (List.length_eq_zero.mp h0)

theorem deriveChatName_eq_empty (jid : JID) (senderUser pushName : String) :
    deriveChatName jid senderUser pushName = "" ↔
      jid.Server ≠ "g.us" ∧ jid.Server ≠ "newsletter" ∧ pushName = "" ∧ senderUser = "" ∧
        jid.User = "" := by
  unfold deriveChatName
  by_cases hg : jid.Server = "g.us"
  · simp only [hg, if_true, ne_eq, not_true_eq_false, false_and, iff_false]
    exact group_label_ne "Group " jid.User (by decide)
  · by_cases hn : jid.Server = "newsletter"
    · simp only [hg, hn, if_true, if_false, ne_eq, not_true_eq_false, false_and, and_false,
        iff_false]
      exact group_label_ne "Newsletter " jid.User (by decide)
    · simp only [hg, hn, if_false, ne_eq, not_false_eq_true, true_and]
      by_cases hp : pushName = ""
      · by_cases hs : senderUser = ""
        · simp [hp, hs]
        · simp [hp, hs]
      · by_cases hs : senderUser = ""
        · by_cases hu : pushName = jid.User
          · subst hs
            rw [← hu]
            simp [hp]
          · subst hs
            simp [hp, hu]
        · by_cases hps : pushName = senderUser
          · simp [hp, hs, hps]
          · by_cases hu : pushName = jid.User
            · simp [hp, hs, hps, hu]
            · simp [hp, hs, hps, hu]

/-- C18: `CreateMessage` is a no-op without a payload: for a nil event and for an event whose
`Message` is nil it returns no error and hands back the backend as it was, rows, fault plan and
trace included, so that no chat lookup (nor any other statement) was sent. -/
theorem C18_no_payload_is_noop {P : Type} (x : Extractors P) (db : DB) :
    CreateMessage x db none = (none, db) ∧
    ∀ evt : Event P, evt.Message = none →
      CreateMessage x db (some evt) = (none, db) ∧
      (CreateMessage x db (some evt)).2.trace = db.trace ∧
      (CreateMessage x db (some evt)).2.chats = db.chats ∧
      (CreateMessage x db (some evt)).2.messages = db.messages := by
  refine ⟨rfl, ?_⟩
  intro evt hm
  have h : CreateMessage x db (some evt) = (none, db) := by
    simp only [CreateMessage, hm]
  rw [h]
  exact ⟨rfl, rfl, rfl, rfl⟩

/-- C18 on a store with one chat: an event without payload changes nothing and sends nothing. -/
theorem C18_no_payload_is_noop_witness :
    CreateMessage sampleExtractors (storeOf [⟨"628111@s.whatsapp.net", "John", 10, 0⟩] [])
        (some { Info := (textEvent "hi" "John" 100 0).Info, Message := none }) =
      (none, storeOf [⟨"628111@s.whatsapp.net", "John", 10, 0⟩] []) :=
  ((C18_no_payload_is_noop sampleExtractors
      (storeOf [⟨"628111@s.whatsapp.net", "John", 10, 0⟩] [])).2
    { Info := (textEvent "hi" "John" 100 0).Info, Message := none } rfl).1

/-- C20: `GetChatNameWithPushName` returns the empty string if and only if there is no stored
non-empty name to use (the lookup fails, or no row has the chat JID, or the row's name is
empty), the address is direct (server neither `g.us` nor `newsletter`), and `pushName`, the
sender identifier and the user fragment are all empty. -/
theorem C20_empty_name_iff (db : DB) (jid : JID) (chatJID senderUser pushName : String)
    (hkey : chatsKeyed db.chats) :
    (GetChatNameWithPushName db jid chatJID senderUser pushName).1 = "" ↔
      ((db.faults.head?.join ≠ none ∨ ∀ c ∈ db.chats, c.JID = chatJID → c.Name = "") ∧
        jid.Server ≠ "g.us" ∧ jid.Server ≠ "newsletter" ∧ pushName = "" ∧ senderUser = "" ∧
        jid.User = "") := by
  rw [name_eq]
  rcases hf : db.faults.head?.join with _ | e
  · rcases hh : (chatRows db.chats chatJID).head? with _ | c
    · simp only []
      rw [deriveChatName_eq_empty]
      have hnil : chatRows db.chats chatJID = [] := List.head?_eq_none_iff.mp hh
      have hall : ∀ c ∈ db.chats, c.JID = chatJID → c.Name = "" := by
        intro c hc hj
        have hmem : c ∈ chatRows db.chats chatJID := by
          unfold chatRows
          rw [List.mem_filter]
          exact ⟨hc, by simpa using hj⟩
        rw [hnil] at hmem
        cases hmem
      constructor
      · intro h
        exact ⟨Or.inr hall, h⟩
      · intro h
        exact h.2
    · simp only []
      have hmem : c ∈ chatRows db.chats chatJID := List.mem_of_mem_head? hh
      unfold chatRows at hmem
      rw [List.mem_filter] at hmem
      have hcj : c.JID = chatJID := by simpa using hmem.2
      by_cases hname : c.Name = ""
      · simp only [hname, ne_eq, not_true_eq_false, if_false]
        rw [deriveChatName_eq_empty]
        have hall : ∀ d ∈ db.chats, d.JID = chatJID → d.Name = "" := by
          intro d hd hj
          have hrows := chatRows_of_mem hkey hmem.1
          have hd' : d ∈ chatRows db.chats c.JID := by
            unfold chatRows
            rw [List.mem_filter]
            exact ⟨hd, by simpa using hj.trans hcj.symm⟩
          rw [hrows] at hd'
          rw [List.mem_singleton.mp hd']
          exact hname
        constructor
        · intro h
          exact ⟨Or.inr hall, h⟩
        · intro h
          exact h.2
      · simp only [ne_eq, hname, not_false_eq_true, if_true]
        constructor
        · intro h
          exfalso
          split at h
          · rename_i hc
            exact hc.1 h
          · exact hname h
        · intro h
          exfalso
          rcases h.1 with h1 | h1
          · simp at h1
          · exact hname (h1 c hmem.1 hcj)
  · simp only []
    rw [deriveChatName_eq_empty]
    constructor
    · intro h
      exact ⟨Or.inl (by simp), h⟩
    · intro h
      exact h.2

/-- C20 on an empty store: a direct address with empty user fragment, sender identifier and
push name resolves to the empty name. -/
theorem C20_empty_name_iff_witness :
    (GetChatNameWithPushName (storeOf [] []) (directJID "") "@s.whatsapp.net" "" "").1 = "" :=
  (C20_empty_name_iff (storeOf [] []) (directJID "") "@s.whatsapp.net" "" "" (by decide)).mpr
    ⟨Or.inr (by decide), by decide, by decide, rfl, rfl, rfl⟩

theorem StoreChat_refused {db : DB} (chat : Chat) {e : Err}
    (hfault : db.faults.head?.join = some e) :
    StoreChat db chat = (some e, (db.send (.upsertChat chat)).2) := by
  unfold StoreChat
  have h := send_fst db (.upsertChat chat)
  rw [hfault] at h
  rcases hs : db.send (.upsertChat chat) with ⟨r, db1⟩
  rw [hs] at h
  simp only [] at h
  subst h
  rfl

/-- C17 (what the code does): on a stored chat, a failure `e` of the chat lookup comes back
wrapped as `get chat failed: e`, while a failure `e` of the chat upsert and a failure `e` of the
message upsert both come back as `e` itself, with no context and equal to each other. -/
theorem C17_only_the_lookup_is_wrapped {P : Type} (x : Extractors P) (db : DB) (evt : Event P)
    (payload : P) (c : Chat) (e : Err) (rest : List (Option Err))
    (hpayload : evt.Message = some payload) (hkey : chatsKeyed db.chats)
    (hstored : c ∈ db.chats) (hjid : c.JID = x.JIDString evt.Info.Chat) :
    (db.faults = none :: some e :: rest →
      (CreateMessage x db (some evt)).1 = some (.wrap "get chat failed: " e)) ∧
    (db.faults = none :: none :: some e :: rest →
      (CreateMessage x db (some evt)).1 = some e) ∧
    (db.faults = none :: none :: none :: some e :: rest →
      ¬ (x.ExtractMessageTextFromProto payload = "" ∧
          (x.ExtractMediaInfo payload).mediaType = "") →
      (CreateMessage x db (some evt)).1 = some e) := by
  have hrow : (chatRows db.chats (x.JIDString evt.Info.Chat)).head? = some c := by
    rw [← hjid, chatRows_of_mem hkey hstored]; rfl
  have hsnd := GetChatNameWithPushName_snd db evt.Info.Chat (x.JIDString evt.Info.Chat)
    evt.Info.Sender.User evt.Info.PushName
  rcases hn : GetChatNameWithPushName db evt.Info.Chat (x.JIDString evt.Info.Chat)
    evt.Info.Sender.User evt.Info.PushName with ⟨name, db1⟩
  rw [hn] at hsnd
  simp only [] at hsnd
  have hrow1 : (chatRows db1.chats (x.JIDString evt.Info.Chat)).head? = some c := by
    rw [hsnd, send_chats]; exact hrow
  refine ⟨?_, ?_, ?_⟩
  · intro hf
    have hfault : db1.faults.head?.join = some e := by
      rw [hsnd, send_faults, hf]; rfl
    have hget : (GetChat db1 (x.JIDString evt.Info.Chat)).1 = (none, some e) := by
      rw [GetChat_fst, send_fst, hfault]
    rcases hg : GetChat db1 (x.JIDString evt.Info.Chat) with ⟨found, db2⟩
    rw [hg] at hget
    simp only [] at hget
    subst hget
    simp only [CreateMessage, hpayload, hn, hg]
  · intro hf
    have hgo1 : passes db1.faults 1 = true := by
      rw [hsnd, send_faults, hf]; rfl
    have hget := GetChat_present hgo1 hrow1
    have hfault : (db1.send (.selectChat (x.JIDString evt.Info.Chat))).2.faults.head?.join =
        some e := by
      rw [send_faults, hsnd, send_faults, hf]; rfl
    simp only [CreateMessage, hpayload, hn, hget, StoreChat_refused _ hfault]
  · intro hf hfull
    have hgo : passes db.faults 3 = true := by rw [hf]; rfl
    obtain ⟨db3, _, _, hfaults, heq⟩ := CreateMessage_stored x db evt payload c hpayload hgo hrow
    rw [heq, if_neg hfull]
    have hfault : db3.faults.head?.join = some e := by rw [hfaults, hf]; rfl
    exact (StoreMessage_refused _ hfault).1

/-- C17 at a stored chat and a text message: the driver error `connection reset` comes back
wrapped when the lookup fails and bare when the chat upsert or the message upsert fails. -/
theorem C17_only_the_lookup_is_wrapped_witness :
    (CreateMessage sampleExtractors
        { storeOf [⟨"628111@s.whatsapp.net", "John", 10, 0⟩] [] with
          faults := [none, some (.driver "connection reset")] }
        (some (textEvent "hi" "John" 100 0))).1 =
      some (.wrap "get chat failed: " (.driver "connection reset")) ∧
    (CreateMessage sampleExtractors
        { storeOf [⟨"628111@s.whatsapp.net", "John", 10, 0⟩] [] with
          faults := [none, none, some (.driver "connection reset")] }
        (some (textEvent "hi" "John" 100 0))).1 = some (.driver "connection reset") ∧
    (CreateMessage sampleExtractors
        { storeOf [⟨"628111@s.whatsapp.net", "John", 10, 0⟩] [] with
          faults := [none, none, none, some (.driver "connection reset")] }
        (some (textEvent "hi" "John" 100 0))).1 = some (.driver "connection reset") :=
  ⟨(C17_only_the_lookup_is_wrapped sampleExtractors
      { storeOf [⟨"628111@s.whatsapp.net", "John", 10, 0⟩] [] with
        faults := [none, some (.driver "connection reset")] }
      (textEvent "hi" "John" 100 0) ⟨"hi", 0, noMedia⟩ ⟨"628111@s.whatsapp.net", "John", 10, 0⟩
      (.driver "connection reset") [] rfl (by decide) (by decide) rfl).1 rfl,
   (C17_only_the_lookup_is_wrapped sampleExtractors
      { storeOf [⟨"628111@s.whatsapp.net", "John", 10, 0⟩] [] with
        faults := [none, none, some (.driver "connection reset")] }
      (textEvent "hi" "John" 100 0) ⟨"hi", 0, noMedia⟩ ⟨"628111@s.whatsapp.net", "John", 10, 0⟩
      (.driver "connection reset") [] rfl (by decide) (by decide) rfl).2.1 rfl,
   (C17_only_the_lookup_is_wrapped sampleExtractors
      { storeOf [⟨"628111@s.whatsapp.net", "John", 10, 0⟩] [] with
        faults := [none, none, none, some (.driver "connection reset")] }
      (textEvent "hi" "John" 100 0) ⟨"hi", 0, noMedia⟩ ⟨"628111@s.whatsapp.net", "John", 10, 0⟩
      (.driver "connection reset") [] rfl (by decide) (by decide) rfl).2.2 rfl (by decide)⟩

/-! ## Start-up and repeated migration -/

/-- C11 (what the code does): when `InitializeSchema` returns an error during `initApp`, the
start-up does not stop: the process is not ended, no fatal message is logged, and admin seeding,
protocol client initialisation and use-case construction all run. -/
theorem C11_startup_goes_on_after_migration_error (db : DB) (err : Err)
    (_herr : (InitializeSchema db).1 = some err) :
    (initApp (.ok db) InitializeSchema).exited = false ∧
    StartupStep.seedDefaultAdmin ∈ (initApp (.ok db) InitializeSchema).steps ∧
    StartupStep.initWaCLI ∈ (initApp (.ok db) InitializeSchema).steps ∧
    StartupStep.newUsecases ∈ (initApp (.ok db) InitializeSchema).steps ∧
    (∀ msg, StartupStep.fatal msg ∉ (initApp (.ok db) InitializeSchema).steps) ∧
    (initApp (.ok db) InitializeSchema).storage = some (InitializeSchema db).2 := by
  refine ⟨rfl, ?_, ?_, ?_, ?_, rfl⟩
  · simp [initApp]
  · simp [initApp]
  · simp [initApp]
  · intro msg
    simp [initApp]

/-- C11 on a fresh backend whose first migration script fails: `InitializeSchema` returns
`failed to run migration 1: ...`, and `initApp` still runs every later step. -/
theorem C11_startup_goes_on_after_migration_error_witness :
    (InitializeSchema (faultyBackend [none, none, none, some (.driver "disk full")])).1 =
      some (.wrap "failed to run migration 1: " (.driver "disk full")) ∧
    (initApp (.ok (faultyBackend [none, none, none, some (.driver "disk full")]))
      InitializeSchema).exited = false ∧
    (initApp (.ok (faultyBackend [none, none, none, some (.driver "disk full")]))
      InitializeSchema).steps =
      [.createFolder, .initChatStorage, .initializeSchema, .seedDefaultAdmin,
        .initAuthDBPostgres, .initWaDB, .initWaCLI, .newUsecases] :=
  ⟨by decide,
   (C11_startup_goes_on_after_migration_error
      (faultyBackend [none, none, none, some (.driver "disk full")])
      (.wrap "failed to run migration 1: " (.driver "disk full")) (by decide)).1,
   rfl⟩

/-- A run of `InitializeSchema` on a ledger that records every migration. -/
theorem InitializeSchema_settled (db : DB)
    (hall : getMigrations.length ≤ maxVersion db.schema_info)
    (hgo : passes db.faults 2 = true) :
    InitializeSchema db =
      (none, { db with faults := db.faults.drop 2
                       trace := db.trace ++ [.createSchemaInfo, .selectMaxVersion] }) := by
  unfold InitializeSchema
  rw [getSchemaVersion_ok hgo]
  simp only [List.drop_eq_nil_of_le hall, runMigrations]

/-- C12 as stated fails: on a backend whose ledger records every migration, `InitializeSchema`
sends two statements, and the first one is the data definition statement `CREATE TABLE IF NOT
EXISTS schema_info`, not the version read. -/
theorem C12_ledger_table_is_created_again :
    maxVersion (InitializeSchema freshBackend).2.schema_info = getMigrations.length ∧
    (InitializeSchema (InitializeSchema freshBackend).2).2.trace =
      (InitializeSchema freshBackend).2.trace ++ [.createSchemaInfo, .selectMaxVersion] ∧
    Stmt.isDDL .createSchemaInfo = true ∧
    Stmt.createSchemaInfo ≠ Stmt.selectMaxVersion := by
  have hmax : maxVersion (InitializeSchema freshBackend).2.schema_info = getMigrations.length := by
    rw [InitializeSchema_ok freshBackend (by decide)]
    decide
  have hgo : passes (InitializeSchema freshBackend).2.faults 2 = true := by
    rw [InitializeSchema_ok freshBackend (by decide)]
    rfl
  refine ⟨hmax, ?_, rfl, by decide⟩
  rw [InitializeSchema_settled _ (le_of_eq hmax.symm) hgo]

/-- C12 amended: when the ledger's highest version is at least the migration count and the two
round trips go through, `InitializeSchema` returns no error and sends exactly two statements,
the unconditional `CREATE TABLE IF NOT EXISTS schema_info` and the version read; it opens no
transaction, runs no versioned script, writes no ledger entry, and leaves chats, messages,
ledger and schema as they were. -/
theorem C12_repeated_run_reads_the_version_only (db : DB)
    (hall : getMigrations.length ≤ maxVersion db.schema_info)
    (hgo : passes db.faults 2 = true) :
    (InitializeSchema db).1 = none ∧
    (InitializeSchema db).2.trace = db.trace ++ [.createSchemaInfo, .selectMaxVersion] ∧
    (InitializeSchema db).2.schema_info = db.schema_info ∧
    (InitializeSchema db).2.schema = db.schema ∧
    (InitializeSchema db).2.chats = db.chats ∧
    (InitializeSchema db).2.messages = db.messages := by
  rw [InitializeSchema_settled db hall hgo]
  exact ⟨rfl, rfl, rfl, rfl, rfl, rfl⟩

/-- C12 amended, on a backend whose ledger reads 1, 2, 3: the run sends the two statements
and leaves the ledger as it was. -/
theorem C12_repeated_run_reads_the_version_only_witness :
    (InitializeSchema { freshBackend with schema_info := [1, 2, 3] }).1 = none ∧
    (InitializeSchema { freshBackend with schema_info := [1, 2, 3] }).2.trace =
      [.createSchemaInfo, .selectMaxVersion] ∧
    (InitializeSchema { freshBackend with schema_info := [1, 2, 3] }).2.schema_info =
      [1, 2, 3] :=
  ⟨(C12_repeated_run_reads_the_version_only { freshBackend with schema_info := [1, 2, 3] }
      (by decide) (by decide)).1,
   (C12_repeated_run_reads_the_version_only { freshBackend with schema_info := [1, 2, 3] }
      (by decide) (by decide)).2.1,
   (C12_repeated_run_reads_the_version_only { freshBackend with schema_info := [1, 2, 3] }
      (by decide) (by decide)).2.2.1⟩

/-! ## Batches -/

theorem execPrepared_eq (db : DB) (m : Message) :
    execPrepared db m =
      match db.faults.head?.join with
      | some e =>
        (some e, { db with faults := db.faults.tail, trace := db.trace ++ [.stmtExec m] })
      | none =>
        if (chatRows db.chats m.ChatJID).isEmpty then
          (some (.foreignKey "messages_chat_jid_fkey"),
            { db with faults := db.faults.tail, trace := db.trace ++ [.stmtExec m] })
        else
          (none, { db with messages := upsertMessageRow db.messages m
                           faults := db.faults.tail
                           trace := db.trace ++ [.stmtExec m] }) := by
  unfold execPrepared
  rw [send_eq]
  rcases db.faults.head?.join with _ | e <;> rfl

theorem execPrepared_chats (db : DB) (m : Message) : (execPrepared db m).2.chats = db.chats := by
  rw [execPrepared_eq]
  rcases db.faults.head?.join with _ | e
  · by_cases hE : (chatRows db.chats m.ChatJID).isEmpty = true
    · rw [if_pos hE]
    · rw [if_neg hE]
  · rfl

theorem execPrepared_messages (db : DB) (m : Message)
    (hok : (execPrepared db m).1 = none) :
    (execPrepared db m).2.messages = upsertMessageRow db.messages m := by
  rw [execPrepared_eq] at hok ⊢
  rcases hf : db.faults.head?.join with _ | e
  · rw [hf] at hok
    by_cases hE : (chatRows db.chats m.ChatJID).isEmpty = true
    · rw [if_pos hE] at hok
      cases hok
    · rw [if_neg hE]
  · rw [hf] at hok
    cases hok

theorem execBatch_chats (messages : List Message) (db : DB) :
    (execBatch messages db).2.chats = db.chats := by
  induction messages generalizing db with
  | nil => rfl
  | cons m rest ih =>
    unfold execBatch
    have h := execPrepared_chats db m
    rcases hp : execPrepared db m with ⟨_ | e, db1⟩
    · rw [hp] at h
      show (execBatch rest db1).2.chats = db.chats
      rw [ih]
      exact h
    · rw [hp] at h
      exact h

theorem execBatch_messages (messages : List Message) (db : DB)
    (hok : (execBatch messages db).1 = none) :
    (execBatch messages db).2.messages = messages.foldl upsertMessageRow db.messages := by
  induction messages generalizing db with
  | nil => rfl
  | cons m rest ih =>
    unfold execBatch at hok ⊢
    have h := execPrepared_messages db m
    rcases hp : execPrepared db m with ⟨_ | e, db1⟩
    · rw [hp] at h hok
      have h1 : db1.messages = upsertMessageRow db.messages m := h rfl
      show (execBatch rest db1).2.messages = _
      rw [ih db1 hok, h1, List.foldl_cons]
    · rw [hp] at hok
      cases hok

theorem StoreMessagesBatch_eq (db : DB) (messages : List Message)
    (h1 : db.faults.head?.join = none) (h2 : db.faults.tail.head?.join = none) :
    StoreMessagesBatch db messages =
      match execBatch messages
        { db with faults := db.faults.tail.tail
                  trace := db.trace ++ [.txBegin] ++ [.txPrepare] } with
      | (some err, db3) =>
        (some err,
          { db3 with chats := db.chats, messages := db.messages, schema_info := db.schema_info
                     schema := db.schema, faults := db3.faults.tail.tail
                     trace := db3.trace ++ [.stmtClose] ++ [.txRollback] })
      | (none, db3) =>
        match db3.faults.head?.join with
        | some e =>
          (some e,
            { db3 with chats := db.chats, messages := db.messages
                       schema_info := db.schema_info, schema := db.schema
                       faults := db3.faults.tail, trace := db3.trace ++ [.txCommit] })
        | none =>
          (none, { db3 with faults := db3.faults.tail, trace := db3.trace ++ [.txCommit] }) := by
  simp only [StoreMessagesBatch, Begin, send_eq, h1, h2]
  rcases execBatch messages
      { db with faults := db.faults.tail.tail
                trace := db.trace ++ [.txBegin] ++ [.txPrepare] } with ⟨_ | e, db3⟩
  · simp only [Tx.Commit, send_eq]
    rcases db3.faults.head?.join with _ | e4
    · simp only [closePrepared, Tx.Rollback, if_true]
    · simp only [closePrepared, Tx.Rollback, Tx.restore, if_true]
  · simp only [closePrepared, Tx.Rollback, Tx.restore, send_eq, Bool.false_eq_true, if_false]

theorem StoreMessagesBatch_begin_fails (db : DB) (messages : List Message) (e : Err)
    (h1 : db.faults.head?.join = some e) :
    StoreMessagesBatch db messages =
      (some e, { db with faults := db.faults.tail, trace := db.trace ++ [.txBegin] }) := by
  simp only [StoreMessagesBatch, Begin, send_eq, h1]

theorem StoreMessagesBatch_prepare_fails (db : DB) (messages : List Message) (e : Err)
    (h1 : db.faults.head?.join = none) (h2 : db.faults.tail.head?.join = some e) :
    StoreMessagesBatch db messages =
      (some e, { db with faults := db.faults.tail.tail.tail
                         trace := db.trace ++ [.txBegin] ++ [.txPrepare] ++ [.txRollback] }) := by
  simp only [StoreMessagesBatch, Begin, send_eq, h1, h2, Tx.Rollback, Tx.restore,
    Bool.false_eq_true, if_false]

/-- The outcome of `StoreMessagesBatch`: the chats are never touched; a call that fails keeps
no message; a call that succeeds keeps what the loop wrote. -/
theorem StoreMessagesBatch_outcome (db : DB) (messages : List Message) :
    (StoreMessagesBatch db messages).2.chats = db.chats ∧
    ((StoreMessagesBatch db messages).1 ≠ none →
      (StoreMessagesBatch db messages).2.messages = db.messages) ∧
    ((StoreMessagesBatch db messages).1 = none →
      (StoreMessagesBatch db messages).2.messages =
        messages.foldl upsertMessageRow db.messages) := by
  rcases h1 : db.faults.head?.join with _ | e1
  · rcases h2 : db.faults.tail.head?.join with _ | e2
    · rw [StoreMessagesBatch_eq db messages h1 h2]
      have hc := execBatch_chats messages
        { db with faults := db.faults.tail.tail
                  trace := db.trace ++ [.txBegin] ++ [.txPrepare] }
      have hm := execBatch_messages messages
        { db with faults := db.faults.tail.tail
                  trace := db.trace ++ [.txBegin] ++ [.txPrepare] }
      rcases hb : execBatch messages
        { db with faults := db.faults.tail.tail
                  trace := db.trace ++ [.txBegin] ++ [.txPrepare] } with ⟨_ | e3, db3⟩
      · rw [hb] at hc hm
        have hm1 : db3.messages = messages.foldl upsertMessageRow db.messages := hm rfl
        dsimp only
        rcases db3.faults.head?.join with _ | e4
        · exact ⟨hc, fun h => absurd rfl h, fun _ => hm1⟩
        · exact ⟨rfl, fun _ => rfl, fun h => by cases h⟩
      · exact ⟨rfl, fun _ => rfl, fun h => by cases h⟩
    · rw [StoreMessagesBatch_prepare_fails db messages e2 h1 h2]
      exact ⟨rfl, fun _ => rfl, fun h => by cases h⟩
  · rw [StoreMessagesBatch_begin_fails db messages e1 h1]
    exact ⟨rfl, fun _ => rfl, fun h => by cases h⟩

theorem execBatch_through (pre rest : List Message) (db : DB)
    (hgo : passes db.faults pre.length = true)
    (hchats : ∀ a ∈ pre, chatRows db.chats a.ChatJID ≠ []) :
    execBatch (pre ++ rest) db =
      execBatch rest
        { db with messages := pre.foldl upsertMessageRow db.messages
                  faults := db.faults.drop pre.length
                  trace := db.trace ++ pre.map Stmt.stmtExec } := by
  induction pre generalizing db with
  | nil =>
    rcases db with ⟨chats, messages, ledger, schema, faults, trace⟩
    simp
  | cons m more ih =>
    have hgo' : passes db.faults (more.length + 1) = true := hgo
    obtain ⟨h1, htail⟩ := passes_succ hgo'
    have hm : (chatRows db.chats m.ChatJID).isEmpty = false := by
      have := hchats m (List.mem_cons_self _ _)
      cases hrows : chatRows db.chats m.ChatJID with
      | nil => exact absurd hrows this
      | cons a l => rfl
    have hstep : execBatch (m :: (more ++ rest)) db =
        execBatch (more ++ rest)
          { db with messages := upsertMessageRow db.messages m
                    faults := db.faults.tail
                    trace := db.trace ++ [.stmtExec m] } := by
      conv_lhs => rw [execBatch]
      rw [execPrepared_eq, h1]
      simp only [hm, Bool.false_eq_true, if_false]
    show execBatch (m :: (more ++ rest)) db = _
    rw [hstep, ih { db with messages := upsertMessageRow db.messages m
                            faults := db.faults.tail
                            trace := db.trace ++ [.stmtExec m] } htail
      (fun a ha => hchats a (List.mem_cons_of_mem _ ha))]
    simp only [List.foldl_cons, List.map_cons, List.append_assoc, List.singleton_append,
      List.length_cons]
    congr 2
    cases db.faults <;> simp

theorem healthy_head {fs : List (Option Err)} (h : healthy fs = true) :
    fs.head?.join = none :=
  (passes_succ (healthy_passes h 1)).1

theorem upsertMessageRow_other (messages : List Message) (a : Message) {id chatJID : String}
    (h : ¬ (a.ID = id ∧ a.ChatJID = chatJID)) :
    messageRows (upsertMessageRow messages a) id chatJID = messageRows messages id chatJID := by
  induction messages with
  | nil => simp [upsertMessageRow, messageRows, List.filter_cons, h]
  | cons b rest ih =>
    unfold upsertMessageRow
    by_cases hk : b.ID = a.ID ∧ b.ChatJID = a.ChatJID
    · have hb : ¬ (b.ID = id ∧ b.ChatJID = chatJID) := by
        intro hb
        exact h ⟨hk.1.symm.trans hb.1, hk.2.symm.trans hb.2⟩
      rw [if_pos hk]
      unfold messageRows
      simp only [List.filter_cons, h, hb, decide_False, Bool.false_eq_true, if_false]
    · rw [if_neg hk]
      unfold messageRows at ih ⊢
      simp only [List.filter_cons, ih]

theorem foldl_upsert_other (post messages : List Message) {id chatJID : String}
    (h : ∀ a ∈ post, ¬ (a.ID = id ∧ a.ChatJID = chatJID)) :
    messageRows (post.foldl upsertMessageRow messages) id chatJID =
      messageRows messages id chatJID := by
  induction post generalizing messages with
  | nil => rfl
  | cons a rest ih =>
    rw [List.foldl_cons, ih _ (fun b hb => h b (List.mem_cons_of_mem _ hb)),
      upsertMessageRow_other _ _ (h a (List.mem_cons_self _ _))]

theorem foldl_upsert_keyed (batch messages : List Message) (hkey : messagesKeyed messages) :
    messagesKeyed (batch.foldl upsertMessageRow messages) := by
  induction batch generalizing messages with
  | nil => exact hkey
  | cons a rest ih =>
    rw [List.foldl_cons]
    exact ih _ (upsertMessageRow_keyed a hkey)

theorem execBatch_stops_on_key (pre post : List Message) (m : Message) (db : DB)
    (hgo : passes db.faults (pre.length + 1) = true)
    (hchats : ∀ a ∈ pre, chatRows db.chats a.ChatJID ≠ [])
    (hmissing : chatRows db.chats m.ChatJID = []) :
    (execBatch (pre ++ m :: post) db).1 = some (.foreignKey "messages_chat_jid_fkey") := by
  obtain ⟨hpre, hnext⟩ := passes_add pre.length 1 hgo
  rw [execBatch_through pre (m :: post) db hpre hchats, execBatch, execPrepared_eq]
  simp only [(passes_succ hnext).1, hmissing, List.isEmpty_nil, if_true]

theorem execBatch_stops_on_fault (pre post : List Message) (m : Message) (db : DB) (e : Err)
    (hgo : passes db.faults pre.length = true)
    (hfault : (db.faults.drop pre.length).head?.join = some e)
    (hchats : ∀ a ∈ pre, chatRows db.chats a.ChatJID ≠ []) :
    (execBatch (pre ++ m :: post) db).1 = some e := by
  rw [execBatch_through pre (m :: post) db hgo hchats, execBatch, execPrepared_eq]
  simp only [hfault]

theorem StoreMessagesBatch_fst (db : DB) (messages : List Message)
    (h1 : db.faults.head?.join = none) (h2 : db.faults.tail.head?.join = none) :
    (StoreMessagesBatch db messages).1 =
      match execBatch messages
        { db with faults := db.faults.tail.tail
                  trace := db.trace ++ [.txBegin] ++ [.txPrepare] } with
      | (some err, _) => some err
      | (none, db3) => db3.faults.head?.join := by
  rw [StoreMessagesBatch_eq db messages h1 h2]
  rcases execBatch messages
      { db with faults := db.faults.tail.tail
                trace := db.trace ++ [.txBegin] ++ [.txPrepare] } with ⟨_ | e, db3⟩
  · dsimp only
    rcases db3.faults.head?.join with _ | e4 <;> rfl
  · rfl

theorem StoreMessagesBatch_stops (db : DB) (messages : List Message) (err : Err)
    (h1 : db.faults.head?.join = none) (h2 : db.faults.tail.head?.join = none)
    (hloop : (execBatch messages
      { db with faults := db.faults.tail.tail
                trace := db.trace ++ [.txBegin] ++ [.txPrepare] }).1 = some err) :
    (StoreMessagesBatch db messages).1 = some err := by
  rw [StoreMessagesBatch_fst db messages h1 h2]
  rcases hb : execBatch messages
      { db with faults := db.faults.tail.tail
                trace := db.trace ++ [.txBegin] ++ [.txPrepare] } with ⟨_ | e, db3⟩
  · rw [hb] at hloop
    cases hloop
  · rw [hb] at hloop
    exact hloop

theorem StoreMessagesBatch_commits (db : DB) (messages : List Message) (db3 : DB)
    (h1 : db.faults.head?.join = none) (h2 : db.faults.tail.head?.join = none)
    (hloop : execBatch messages
      { db with faults := db.faults.tail.tail
                trace := db.trace ++ [.txBegin] ++ [.txPrepare] } = (none, db3)) :
    (StoreMessagesBatch db messages).1 = db3.faults.head?.join := by
  rw [StoreMessagesBatch_fst db messages h1 h2, hloop]

/-- C13: `StoreMessagesBatch` is all-or-nothing.  (1) Whenever the call returns an error, the
messages and chats are exactly those before the call, whatever was upserted earlier in the
batch.  (2) Whenever it returns no error, every message of the list was upserted, in order.
(3) When the first failing upsert is that of a message whose chat JID has no Chat row, the
call returns the foreign-key error, and (4) when it is refused by the driver with `e`, the call
returns `e`.  (5) With a healthy driver and a Chat row for every message, the call returns no
error.  (6) In the list upserted, the last entry with a given `(ID, ChatJID)` is the row kept
for that key: later entries overwrite earlier ones. -/
theorem C13_batch_all_or_nothing (db : DB) (messages : List Message) :
    ((StoreMessagesBatch db messages).1 ≠ none →
      (StoreMessagesBatch db messages).2.messages = db.messages ∧
      (StoreMessagesBatch db messages).2.chats = db.chats) ∧
    ((StoreMessagesBatch db messages).1 = none →
      (StoreMessagesBatch db messages).2.messages =
        messages.foldl upsertMessageRow db.messages) ∧
    (∀ pre m post, messages = pre ++ m :: post →
      passes db.faults (pre.length + 3) = true →
      (∀ a ∈ pre, chatRows db.chats a.ChatJID ≠ []) →
      chatRows db.chats m.ChatJID = [] →
      (StoreMessagesBatch db messages).1 = some (.foreignKey "messages_chat_jid_fkey")) ∧
    (∀ pre m post e, messages = pre ++ m :: post →
      passes db.faults (pre.length + 2) = true →
      (db.faults.drop (pre.length + 2)).head?.join = some e →
      (∀ a ∈ pre, chatRows db.chats a.ChatJID ≠ []) →
      (StoreMessagesBatch db messages).1 = some e) ∧
    (healthy db.faults = true →
      (∀ a ∈ messages, chatRows db.chats a.ChatJID ≠ []) →
      (StoreMessagesBatch db messages).1 = none) ∧
    (messagesKeyed db.messages →
      ∀ pre m post, messages = pre ++ m :: post →
        (∀ a ∈ post, ¬ (a.ID = m.ID ∧ a.ChatJID = m.ChatJID)) →
        messageRows (messages.foldl upsertMessageRow db.messages) m.ID m.ChatJID = [m]) := by
  obtain ⟨hchats, hfail, hok⟩ := StoreMessagesBatch_outcome db messages
  refine ⟨fun h => ⟨hfail h, hchats⟩, hok, ?_, ?_, ?_, ?_⟩
  · intro pre m post hsplit hgo hpre hmissing
    have hgo' : passes db.faults (2 + (pre.length + 1)) = true := by
      rw [show 2 + (pre.length + 1) = pre.length + 3 by omega]; exact hgo
    obtain ⟨h2, hrest⟩ := passes_add 2 (pre.length + 1) hgo'
    have hh1 := (passes_succ h2).1
    have hh2 := (passes_succ (passes_succ h2).2).1
    rw [← tail_two] at hrest
    apply StoreMessagesBatch_stops db messages _ hh1 hh2
    rw [hsplit]
    exact execBatch_stops_on_key pre post m
      { db with faults := db.faults.tail.tail
                trace := db.trace ++ [.txBegin] ++ [.txPrepare] } hrest hpre hmissing
  · intro pre m post e hsplit hgo hfault hpre
    have hgo' : passes db.faults (2 + pre.length) = true := by
      rw [show 2 + pre.length = pre.length + 2 by omega]; exact hgo
    obtain ⟨h2, hrest⟩ := passes_add 2 pre.length hgo'
    have hh1 := (passes_succ h2).1
    have hh2 := (passes_succ (passes_succ h2).2).1
    rw [← tail_two] at hrest
    have hfault' : (db.faults.tail.tail.drop pre.length).head?.join = some e := by
      rw [tail_two, List.drop_drop, show 2 + pre.length = pre.length + 2 by omega]
      exact hfault
    apply StoreMessagesBatch_stops db messages _ hh1 hh2
    rw [hsplit]
    exact execBatch_stops_on_fault pre post m
      { db with faults := db.faults.tail.tail
                trace := db.trace ++ [.txBegin] ++ [.txPrepare] } e hrest hfault' hpre
  · intro hhealthy hall
    have hh1 := healthy_head hhealthy
    have hh2 : db.faults.tail.head?.join = none :=
      (passes_succ (passes_succ (healthy_passes hhealthy 2)).2).1
    have hthrough := execBatch_through messages []
      { db with faults := db.faults.tail.tail
                trace := db.trace ++ [.txBegin] ++ [.txPrepare] }
      (by rw [tail_two]; exact healthy_passes (healthy_drop hhealthy 2) _) hall
    rw [List.append_nil, execBatch] at hthrough
    rw [StoreMessagesBatch_commits db messages _ hh1 hh2 hthrough]
    dsimp only
    rw [tail_two, List.drop_drop]
    exact healthy_head (healthy_drop hhealthy _)
  · intro hkey pre m post hsplit hpost
    rw [hsplit, List.foldl_append, List.foldl_cons, foldl_upsert_other post _ hpost]
    exact upsertMessageRow_rows m (foldl_upsert_keyed pre db.messages hkey)

/-- C13, the example of the spec: the store holds the chat `X` only; in a batch of five the
third message names the chat `Y`; the call returns the foreign-key error and no message of the
batch is kept. -/
theorem C13_batch_all_or_nothing_witness :
    (StoreMessagesBatch (storeOf [⟨"X", "Alice", 10, 0⟩] []) sampleBatch).1 =
      some (.foreignKey "messages_chat_jid_fkey") ∧
    (StoreMessagesBatch (storeOf [⟨"X", "Alice", 10, 0⟩] []) sampleBatch).2.messages = [] :=
  ⟨(C13_batch_all_or_nothing (storeOf [⟨"X", "Alice", 10, 0⟩] []) sampleBatch).2.2.1
      [textMessage "A1" "X" "one" 1, textMessage "A2" "X" "two" 2]
      (textMessage "A3" "Y" "three" 3)
      [textMessage "A4" "X" "four" 4, textMessage "A5" "X" "five" 5]
      rfl (by decide) (by decide) (by decide),
   ((C13_batch_all_or_nothing (storeOf [⟨"X", "Alice", 10, 0⟩] []) sampleBatch).1
      (by decide)).1⟩

/-! ## Listings -/

theorem keepRows_eq {α : Type} (p : α → Option Bool) (q : α → Bool) (rows : List α)
    (h : ∀ row, p row = some (q row)) : keepRows p rows = some (rows.filter q) := by
  induction rows with
  | nil => rfl
  | cons a rest ih =>
    unfold keepRows
    rw [h a, ih]
    cases hq : q a <;> simp [List.filter_cons, hq]

theorem newestFirst_sorted (rows : List Message) :
    (newestFirst rows).Pairwise (fun a b => b.Timestamp ≤ a.Timestamp) := by
  haveI : IsTotal Message (fun a b => b.Timestamp ≤ a.Timestamp) :=
    ⟨fun a b => le_total b.Timestamp a.Timestamp⟩
  haveI : IsTrans Message (fun a b => b.Timestamp ≤ a.Timestamp) :=
    ⟨fun _ _ _ hab hbc => le_trans hbc hab⟩
  exact List.sorted_insertionSort (fun a b : Message => b.Timestamp ≤ a.Timestamp) rows

theorem newestFirst_perm (rows : List Message) : (newestFirst rows).Perm rows :=
  List.perm_insertionSort _ rows

theorem latestFirst_sorted (rows : List Chat) :
    (latestFirst rows).Pairwise (fun a b => b.LastMessageTime ≤ a.LastMessageTime) := by
  haveI : IsTotal Chat (fun a b => b.LastMessageTime ≤ a.LastMessageTime) :=
    ⟨fun a b => le_total b.LastMessageTime a.LastMessageTime⟩
  haveI : IsTrans Chat (fun a b => b.LastMessageTime ≤ a.LastMessageTime) :=
    ⟨fun _ _ _ hab hbc => le_trans hbc hab⟩
  exact List.sorted_insertionSort (fun a b : Chat => b.LastMessageTime ≤ a.LastMessageTime) rows

theorem latestFirst_perm (rows : List Chat) : (latestFirst rows).Perm rows :=
  List.perm_insertionSort _ rows

theorem queryMessages_ok {db : DB} (q : Select) (args : List Arg)
    (hgo : passes db.faults 1 = true) :
    (queryMessages db q args).1 = q.messages args db := by
  unfold queryMessages
  rw [send_eq, (passes_succ hgo).1]
  rfl

theorem queryChats_ok {db : DB} (q : Select) (args : List Arg)
    (hgo : passes db.faults 1 = true) :
    (queryChats db q args).1 = q.chats args db := by
  unfold queryChats
  rw [send_eq, (passes_succ hgo).1]
  rfl

/-- The `WHERE` clause of `GetMessages` holds on a row exactly when the filter admits it. -/
theorem messagesQuery_holds (f : MessageFilter) (m : Message) :
    allHold (fun c row => Cond.onMessage (messagesQuery (some f)).2 row c)
      (messagesQuery (some f)).1.conds m = some (f.admits m) := by
  rcases f with ⟨jid, st, en, mo, fm, lim⟩
  by_cases hj : jid = ""
  · subst hj
    rcases st with _ | st <;> rcases en with _ | en <;> cases mo <;>
      rcases fm with _ | fm <;> by_cases hl : lim > 0 <;>
      simp [messagesQuery, allHold, Cond.onMessage, bound, MessageFilter.admits, hl]
  · rcases st with _ | st <;> rcases en with _ | en <;> cases mo <;>
      rcases fm with _ | fm <;> by_cases hl : lim > 0 <;>
      simp [messagesQuery, allHold, Cond.onMessage, bound, MessageFilter.admits, hj, hl]

/-- The `LIMIT` of `GetMessages` is the filter's limit when positive, and there is no
`OFFSET`. -/
theorem messagesQuery_counts (f : MessageFilter) :
    rowCount "LIMIT" (messagesQuery (some f)).2 (messagesQuery (some f)).1.limit =
        .ok (if f.Limit > 0 then some f.Limit.toNat else none) ∧
      (messagesQuery (some f)).1.offset = none := by
  rcases f with ⟨jid, st, en, mo, fm, lim⟩
  by_cases hj : jid = ""
  · subst hj
    rcases st with _ | st <;> rcases en with _ | en <;> cases mo <;>
      rcases fm with _ | fm <;> by_cases hl : lim > 0 <;>
      simp [messagesQuery, rowCount, bound, hl] <;> omega
  · rcases st with _ | st <;> rcases en with _ | en <;> cases mo <;>
      rcases fm with _ | fm <;> by_cases hl : lim > 0 <;>
      simp [messagesQuery, rowCount, bound, hj, hl] <;> omega

theorem GetMessages_rows {db : DB} (filter : Option MessageFilter)
    (hgo : passes db.faults 1 = true) :
    (GetMessages db filter).1 =
      .ok (match filter with
        | none => newestFirst (db.messages.filter (admitsMessage none))
        | some f => cutTo f.Limit (newestFirst (db.messages.filter (admitsMessage (some f))))) := by
  unfold GetMessages
  rw [queryMessages_ok _ _ hgo]
  rcases filter with _ | f
  · have hk := keepRows_eq (allHold (fun c row => Cond.onMessage [] row c) []) (admitsMessage none)
      db.messages (fun _ => rfl)
    simp only [Select.messages, messagesQuery, hk, rowCount, limitRows, offsetRows]
  · have hk := keepRows_eq _ (admitsMessage (some f)) db.messages (messagesQuery_holds f)
    obtain ⟨hlimit, hoffset⟩ := messagesQuery_counts f
    unfold Select.messages
    rw [hk, hoffset, hlimit]
    simp only [rowCount, offsetRows]
    unfold cutTo
    split <;> rfl

/-- C14: when the query goes through, `GetMessages` returns the stored messages that the filter
admits (chat JID equal when non-empty, timestamp within `StartTime` and `EndTime` inclusive when
given, media type non-empty when `MediaOnly`, `IsFromMe` equal when given), newest first, cut
to the first `Limit` rows when `Limit > 0` only; with a nil filter it returns every message.
The list before the cut is in descending order of timestamp and is a rearrangement of the
admitted rows, so no row is lost, repeated or added. -/
theorem C14_messages_are_filtered_and_ordered (db : DB) (filter : Option MessageFilter)
    (hgo : passes db.faults 1 = true) :
    (GetMessages db filter).1 =
      .ok (match filter with
        | none => newestFirst (db.messages.filter (admitsMessage none))
        | some f =>
          cutTo f.Limit (newestFirst (db.messages.filter (admitsMessage (some f))))) ∧
    (newestFirst (db.messages.filter (admitsMessage filter))).Pairwise
      (fun a b => b.Timestamp ≤ a.Timestamp) ∧
    (newestFirst (db.messages.filter (admitsMessage filter))).Perm
      (db.messages.filter (admitsMessage filter)) ∧
    db.messages.filter (admitsMessage none) = db.messages :=
  ⟨GetMessages_rows filter hgo, newestFirst_sorted _, newestFirst_perm _,
    List.filter_eq_self.mpr (fun _ _ => rfl)⟩

/-- C14, the example of the spec: media type is set on 2 of the 5 messages of chat `X`; the
filter with that chat JID and `MediaOnly` returns exactly those two, the newer one first. -/
theorem C14_messages_are_filtered_and_ordered_witness :
    (GetMessages sampleStore
        (some { ChatJID := "X", StartTime := none, EndTime := none, MediaOnly := true,
                IsFromMe := none, Limit := 0 })).1 =
      .ok [mediaMessage "4" "X" "video" 4, mediaMessage "2" "X" "image" 2] :=
  (C14_messages_are_filtered_and_ordered sampleStore
    (some { ChatJID := "X", StartTime := none, EndTime := none, MediaOnly := true,
            IsFromMe := none, Limit := 0 }) (by decide)).1

/-! ## Patterns -/

theorem toLower_plain (c : Char) (h1 : c ≠ '%') (h2 : c ≠ '_') (h3 : c ≠ '\\') :
    c.toLower ≠ '%' ∧ c.toLower ≠ '_' ∧ c.toLower ≠ '\\' := by
  show (if c.toNat ≥ 65 ∧ c.toNat ≤ 90 then Char.ofNat (c.toNat + 32) else c) ≠ '%' ∧
    (if c.toNat ≥ 65 ∧ c.toNat ≤ 90 then Char.ofNat (c.toNat + 32) else c) ≠ '_' ∧
    (if c.toNat ≥ 65 ∧ c.toNat ≤ 90 then Char.ofNat (c.toNat + 32) else c) ≠ '\\'
  split
  · rename_i h
    have hb : c.toNat - 65 < 26 := by omega
    have hall : ∀ k, k < 26 → Char.ofNat (k + 65 + 32) ≠ '%' ∧ Char.ofNat (k + 65 + 32) ≠ '_' ∧
        Char.ofNat (k + 65 + 32) ≠ '\\' := by decide
    have h' := hall (c.toNat - 65) hb
    rw [show c.toNat - 65 + 65 = c.toNat by omega] at h'
    exact h'
  · exact ⟨h1, h2, h3⟩

theorem likeTokens_plain (t rest : List Char)
    (h : ∀ c ∈ t, c ≠ '%' ∧ c ≠ '_' ∧ c ≠ '\\') :
    likeTokens false (t ++ rest) = t.map LikeToken.lit ++ likeTokens false rest := by
  induction t with
  | nil => rfl
  | cons c t ih =>
    obtain ⟨h1, h2, h3⟩ := h c (List.mem_cons_self _ _)
    rw [List.cons_append, likeTokens]
    simp only [h1, h2, h3, if_false, List.map_cons, List.cons_append]
    rw [ih (fun d hd => h d (List.mem_cons_of_mem _ hd))]

theorem matchTokens_lits (t : List Char) (rest : List LikeToken) (s : List Char) :
    matchTokens (t.map LikeToken.lit ++ rest) s = true ↔
      ∃ s1, s = t ++ s1 ∧ matchTokens rest s1 = true := by
  induction t generalizing s with
  | nil => simp
  | cons c t ih =>
    cases s with
    | nil => simp [matchTokens]
    | cons d s1 =>
      have hstep : matchTokens (List.map LikeToken.lit (c :: t) ++ rest) (d :: s1) =
          (d == c && matchTokens (List.map LikeToken.lit t ++ rest) s1) := rfl
      rw [hstep, Bool.and_eq_true, beq_iff_eq, ih]
      constructor
      · rintro ⟨hdc, s2, hs, hm⟩
        subst hdc
        subst hs
        exact ⟨s2, rfl, hm⟩
      · rintro ⟨s2, hs, hm⟩
        rw [List.cons_append] at hs
        injection hs with h1 h2
        exact ⟨h1, s2, h2, hm⟩

theorem matchTokens_any_end (s : List Char) : matchTokens [.any] s = true := by
  rw [matchTokens, List.any_eq_true]
  exact ⟨[], (List.mem_tails _ _).mpr List.nil_suffix, rfl⟩

theorem likeMatch_infix (t s : List Char) (h : ∀ c ∈ t, c ≠ '%' ∧ c ≠ '_' ∧ c ≠ '\\') :
    likeMatch ('%' :: (t ++ ['%'])) s = true ↔ t <:+: s := by
  unfold likeMatch
  have h0 : likeTokens false ('%' :: (t ++ ['%'])) =
      .any :: (t.map LikeToken.lit ++ [.any]) := by
    rw [likeTokens]
    simp only [show ¬ ('%' = '\\') by decide, if_false, if_true]
    rw [likeTokens_plain t ['%'] h]
    rfl
  rw [h0, matchTokens, List.any_eq_true, List.infix_iff_prefix_suffix]
  constructor
  · rintro ⟨u, hu, hm⟩
    obtain ⟨s1, rfl, _⟩ := (matchTokens_lits t [.any] u).mp hm
    exact ⟨t ++ s1, List.prefix_append t s1, (List.mem_tails _ _).mp hu⟩
  · rintro ⟨u, ⟨s1, rfl⟩, hu⟩
    exact ⟨t ++ s1, (List.mem_tails _ _).mpr hu,
      (matchTokens_lits t [.any] _).mpr ⟨s1, rfl, matchTokens_any_end s1⟩⟩

theorem ilike_plain (text content : String) (h : plainText text = true) :
    ilike ("%" ++ text ++ "%") content = true ↔ containsFold content text := by
  unfold ilike containsFold
  have hchars : ("%" ++ text ++ "%").toList.map Char.toLower =
      '%' :: (text.toList.map Char.toLower ++ ['%']) := by
    show (("%" ++ text ++ "%").data).map Char.toLower = _
    rw [String.data_append, String.data_append]
    simp only [List.map_append, List.map_cons, List.map_nil, List.cons_append, List.nil_append,
      List.singleton_append]
    rfl
  rw [hchars]
  apply likeMatch_infix
  intro c hc
  obtain ⟨d, hd, rfl⟩ := List.mem_map.mp hc
  unfold plainText at h
  rw [List.all_eq_true] at h
  have := h d hd
  simp only [Bool.and_eq_true, decide_eq_true_eq] at this
  exact toLower_plain d this.1.1 this.1.2 this.2

/-! ## Searches -/

theorem SearchMessages_rows {db : DB} (chatJID searchText : String) (limit : Int)
    (hgo : passes db.faults 1 = true) :
    (SearchMessages db chatJID searchText limit).1 =
      if limit < 0 then .error (.driver "pq: LIMIT must not be negative")
      else .ok ((newestFirst (db.messages.filter (likeSearch chatJID searchText))).take
        limit.toNat) := by
  unfold SearchMessages
  rw [queryMessages_ok _ _ hgo]
  have hk := keepRows_eq
    (allHold (fun c row => Cond.onMessage
      [Arg.text chatJID, Arg.text ("%" ++ searchText ++ "%"), Arg.int limit] row c)
      [Cond.chatJidEq 1, Cond.contentILike 2])
    (likeSearch chatJID searchText) db.messages
    (fun m => by simp [allHold, Cond.onMessage, bound, likeSearch])
  unfold Select.messages
  rw [hk]
  by_cases hneg : limit < 0
  · simp only [rowCount, bound, List.get?_cons_succ, List.get?_cons_zero, hneg, if_true]
    rfl
  · simp only [rowCount, bound, List.get?_cons_succ, List.get?_cons_zero, hneg, if_false,
      limitRows, offsetRows]

/-- C15 as stated fails: the search text `a_c` in chat `X` returns, besides the message with
content `Hello a_c`, the message with content `abc`, which does not contain `a_c`: the
underscore of the text is read as a wildcard. -/
theorem C15_underscore_is_a_wildcard :
    (SearchMessages sampleStore "X" "a_c" 10).1 =
      .ok [textMessage "3" "X" "Hello a_c" 3, textMessage "1" "X" "abc" 1] ∧
    ¬ foundBySearch "X" "a_c" (textMessage "1" "X" "abc" 1) := by
  refine ⟨by decide, by decide⟩

/-- C15 amended: when the query goes through, `SearchMessages` with a limit that is not
negative returns the messages of that chat whose content matches the case-insensitive pattern
`%searchText%`, newest first, cut to the first `limit` rows, and a negative limit is refused by
the server; for a search text without `%`, `_` and backslash the messages matched are exactly
those of the chat whose content contains the text as a case-insensitive substring. -/
theorem C15_search_matches_a_pattern (db : DB) (chatJID searchText : String) (limit : Int)
    (hgo : passes db.faults 1 = true) :
    (0 ≤ limit →
      (SearchMessages db chatJID searchText limit).1 =
        .ok ((newestFirst (db.messages.filter (likeSearch chatJID searchText))).take
          limit.toNat)) ∧
    (limit < 0 →
      (SearchMessages db chatJID searchText limit).1 =
        .error (.driver "pq: LIMIT must not be negative")) ∧
    (plainText searchText = true →
      ∀ m, likeSearch chatJID searchText m = true ↔ foundBySearch chatJID searchText m) ∧
    (newestFirst (db.messages.filter (likeSearch chatJID searchText))).Pairwise
      (fun a b => b.Timestamp ≤ a.Timestamp) ∧
    (newestFirst (db.messages.filter (likeSearch chatJID searchText))).Perm
      (db.messages.filter (likeSearch chatJID searchText)) := by
  refine ⟨?_, ?_, ?_, newestFirst_sorted _, newestFirst_perm _⟩
  · intro h
    rw [SearchMessages_rows chatJID searchText limit hgo, if_neg (not_lt.mpr h)]
  · intro h
    rw [SearchMessages_rows chatJID searchText limit hgo, if_pos h]
  · intro hplain m
    unfold likeSearch foundBySearch
    rw [Bool.and_eq_true, decide_eq_true_eq, ilike_plain searchText m.Content hplain]

/-- C15 amended, on the sample store: the plain text `HELLO` finds the one message of chat `X`
whose content contains it, whatever the case. -/
theorem C15_search_matches_a_pattern_witness :
    (SearchMessages sampleStore "X" "HELLO" 10).1 =
      .ok [textMessage "3" "X" "Hello a_c" 3] ∧
    (likeSearch "X" "HELLO" (textMessage "3" "X" "Hello a_c" 3) = true ↔
      foundBySearch "X" "HELLO" (textMessage "3" "X" "Hello a_c" 3)) :=
  ⟨(C15_search_matches_a_pattern sampleStore "X" "HELLO" 10 (by decide)).1 (by decide),
   (C15_search_matches_a_pattern sampleStore "X" "HELLO" 10 (by decide)).2.2.1 (by decide)
     (textMessage "3" "X" "Hello a_c" 3)⟩

/-! ## Chat listings -/

/-- The `WHERE` clause of `GetChats` holds on a row exactly when the pattern filter matches. -/
theorem chatsQuery_holds (f : ChatFilter) (messages : List Message) (c : Chat) :
    allHold (fun cond row => Cond.onChat (chatsQuery (some f)).2 messages row cond)
      (chatsQuery (some f)).1.conds c = some (f.matchesLike messages c) := by
  rcases f with ⟨name, media, lim, off⟩
  by_cases hn : name = ""
  · subst hn
    cases media <;> by_cases hl : lim > 0 <;> by_cases ho : off > 0 <;>
      simp [chatsQuery, allHold, Cond.onChat, bound, ChatFilter.matchesLike, hasMedia, hl, ho]
  · cases media <;> by_cases hl : lim > 0 <;> by_cases ho : off > 0 <;>
      simp [chatsQuery, allHold, Cond.onChat, bound, ChatFilter.matchesLike, hasMedia, hn, hl,
        ho]

/-- The `LIMIT` and `OFFSET` of `GetChats` are the filter's when positive. -/
theorem chatsQuery_counts (f : ChatFilter) :
    rowCount "LIMIT" (chatsQuery (some f)).2 (chatsQuery (some f)).1.limit =
        .ok (if f.Limit > 0 then some f.Limit.toNat else none) ∧
      rowCount "OFFSET" (chatsQuery (some f)).2 (chatsQuery (some f)).1.offset =
        .ok (if f.Offset > 0 then some f.Offset.toNat else none) := by
  rcases f with ⟨name, media, lim, off⟩
  by_cases hn : name = ""
  · subst hn
    cases media <;> by_cases hl : lim > 0 <;> by_cases ho : off > 0 <;>
      simp [chatsQuery, rowCount, bound, hl, ho] <;> omega
  · cases media <;> by_cases hl : lim > 0 <;> by_cases ho : off > 0 <;>
      simp [chatsQuery, rowCount, bound, hn, hl, ho] <;> omega

theorem GetChats_rows {db : DB} (filter : Option ChatFilter)
    (hgo : passes db.faults 1 = true) :
    (GetChats db filter).1 =
      .ok (match filter with
        | none => latestFirst db.chats
        | some f =>
          cutTo f.Limit (skipTo f.Offset
            (latestFirst (db.chats.filter (f.matchesLike db.messages))))) := by
  unfold GetChats
  rw [queryChats_ok _ _ hgo]
  rcases filter with _ | f
  · have hk := keepRows_eq
      (allHold (fun cond row => Cond.onChat [] db.messages row cond) []) (fun _ => true)
      db.chats (fun _ => rfl)
    rw [List.filter_eq_self.mpr (fun _ _ => rfl)] at hk
    simp only [Select.chats, chatsQuery, hk, rowCount, limitRows, offsetRows]
  · have hk := keepRows_eq _ (f.matchesLike db.messages) db.chats
      (chatsQuery_holds f db.messages)
    obtain ⟨hlimit, hoffset⟩ := chatsQuery_counts f
    unfold Select.chats
    rw [hk, hoffset, hlimit]
    unfold cutTo skipTo
    by_cases hl : f.Limit > 0 <;> by_cases ho : f.Offset > 0 <;>
      simp only [hl, ho, if_true, if_false, limitRows, offsetRows]

/-- C16 as stated fails: the filter with `SearchName = _` returns the chats `Bob` and `Alice`,
neither of whose names contains an underscore: the underscore is read as a wildcard. -/
theorem C16_underscore_matches_every_name :
    (GetChats sampleStore
        (some { SearchName := "_", HasMedia := false, Limit := 0, Offset := 0 })).1 =
      .ok [⟨"Y", "Bob", 20, 0⟩, ⟨"X", "Alice", 10, 0⟩] ∧
    ¬ containsFold "Bob" "_" ∧ ¬ containsFold "Alice" "_" := by
  refine ⟨by decide, by decide, by decide⟩

/-- C16 amended: when the query goes through, `GetChats` returns the chats whose name matches
the case-insensitive pattern `%SearchName%` when `SearchName` is non-empty and that have a
message with a non-empty media type when `HasMedia`, ordered by `LastMessageTime` descending,
then without the first `Offset` rows when `Offset > 0` and cut to `Limit` rows when
`Limit > 0`; a nil filter returns every chat, and so does the selection of a filter with no
field set; for a `SearchName` without `%`, `_` and backslash the chats selected are exactly
those the two conditions of the claim admit. -/
theorem C16_chats_match_a_pattern (db : DB) (filter : Option ChatFilter)
    (hgo : passes db.faults 1 = true) :
    (GetChats db filter).1 =
      .ok (match filter with
        | none => latestFirst db.chats
        | some f =>
          cutTo f.Limit (skipTo f.Offset
            (latestFirst (db.chats.filter (f.matchesLike db.messages))))) ∧
    (∀ f : ChatFilter, plainText f.SearchName = true →
      ∀ c, f.matchesLike db.messages c = true ↔ f.admits db.messages c) ∧
    (∀ f : ChatFilter, f.SearchName = "" → f.HasMedia = false →
      db.chats.filter (f.matchesLike db.messages) = db.chats) ∧
    (∀ rows : List Chat, (latestFirst rows).Pairwise
      (fun a b => b.LastMessageTime ≤ a.LastMessageTime) ∧ (latestFirst rows).Perm rows) := by
  refine ⟨GetChats_rows filter hgo, ?_, ?_, fun rows =>
    ⟨latestFirst_sorted rows, latestFirst_perm rows⟩⟩
  · intro f hplain c
    unfold ChatFilter.matchesLike ChatFilter.admits
    rw [Bool.and_eq_true, Bool.or_eq_true, decide_eq_true_eq,
      ilike_plain f.SearchName c.Name hplain]
    constructor
    · rintro ⟨h1, h2⟩
      refine ⟨fun hne => ?_, fun hm => ?_⟩
      · rcases h1 with h1 | h1
        · exact absurd h1 hne
        · exact h1
      · rw [hm] at h2
        simpa using h2
    · rintro ⟨h1, h2⟩
      refine ⟨?_, ?_⟩
      · by_cases hs : f.SearchName = ""
        · exact Or.inl hs
        · exact Or.inr (h1 hs)
      · cases hm : f.HasMedia
        · rfl
        · simpa using h2 hm
  · intro f hs hm
    apply List.filter_eq_self.mpr
    intro c _
    unfold ChatFilter.matchesLike
    rw [hs, hm]
    rfl

/-- C16 amended, on the sample store: the filter `bo` with `HasMedia` returns the chat `Bob`. -/
theorem C16_chats_match_a_pattern_witness :
    (GetChats sampleStore
        (some { SearchName := "bo", HasMedia := true, Limit := 5, Offset := 0 })).1 =
      .ok [⟨"Y", "Bob", 20, 0⟩] :=
  (C16_chats_match_a_pattern sampleStore
    (some { SearchName := "bo", HasMedia := true, Limit := 5, Offset := 0 }) (by decide)).1

/-! ## Statement texts and argument lists -/

set_option maxRecDepth 100000 in
theorem messagesQuery_placeholders (f : MessageFilter) :
    placeholders (messagesQuery (some f)).1.sql =
      List.range' 1 (messagesQuery (some f)).2.length := by
  rcases f with ⟨jid, st, en, mo, fm, lim⟩
  by_cases hj : jid = ""
  · subst hj
    rcases st with _ | st <;> rcases en with _ | en <;> cases mo <;>
      rcases fm with _ | fm <;> by_cases hl : lim > 0 <;>
      simp only [messagesQuery, hl, if_true, if_false, ne_eq, not_true_eq_false,
        List.nil_append, List.length_nil, List.length_cons, List.length_append,
        List.length_singleton, Bool.false_eq_true, List.cons_append, zero_add,
        Nat.reduceAdd] <;> decide
  · rcases st with _ | st <;> rcases en with _ | en <;> cases mo <;>
      rcases fm with _ | fm <;> by_cases hl : lim > 0 <;>
      simp only [messagesQuery, hj, hl, if_true, if_false, ne_eq, not_false_eq_true,
        List.nil_append, List.length_nil, List.length_cons, List.length_append,
        List.length_singleton, Bool.false_eq_true, List.cons_append, zero_add,
        Nat.reduceAdd] <;> decide

set_option maxRecDepth 100000 in
theorem chatsQuery_placeholders (f : ChatFilter) :
    placeholders (chatsQuery (some f)).1.sql = List.range' 1 (chatsQuery (some f)).2.length := by
  rcases f with ⟨name, media, lim, off⟩
  by_cases hn : name = ""
  · subst hn
    cases media <;> by_cases hl : lim > 0 <;> by_cases ho : off > 0 <;>
      simp only [chatsQuery, hl, ho, if_true, if_false, ne_eq, not_true_eq_false,
        List.nil_append, List.length_nil, List.length_cons, List.length_append,
        List.length_singleton, Bool.false_eq_true, List.cons_append, zero_add,
        Nat.reduceAdd] <;> decide
  · cases media <;> by_cases hl : lim > 0 <;> by_cases ho : off > 0 <;>
      simp only [chatsQuery, hn, hl, ho, if_true, if_false, ne_eq, not_false_eq_true,
        List.nil_append, List.length_nil, List.length_cons, List.length_append,
        List.length_singleton, Bool.false_eq_true, List.cons_append, zero_add,
        Nat.reduceAdd] <;> decide

set_option maxRecDepth 100000 in
theorem messagesQuery_placeholders_nil :
    placeholders (messagesQuery none).1.sql = List.range' 1 (messagesQuery none).2.length := by
  decide

set_option maxRecDepth 100000 in
theorem chatsQuery_placeholders_nil :
    placeholders (chatsQuery none).1.sql = List.range' 1 (chatsQuery none).2.length := by
  decide

theorem messagesQuery_values (f : MessageFilter) :
    (∀ p, Cond.chatJidEq p ∈ (messagesQuery (some f)).1.conds →
      bound (messagesQuery (some f)).2 p = some (.text f.ChatJID)) ∧
    (∀ p, Cond.timestampGe p ∈ (messagesQuery (some f)).1.conds →
      ∃ t, f.StartTime = some t ∧ bound (messagesQuery (some f)).2 p = some (.time t)) ∧
    (∀ p, Cond.timestampLe p ∈ (messagesQuery (some f)).1.conds →
      ∃ t, f.EndTime = some t ∧ bound (messagesQuery (some f)).2 p = some (.time t)) ∧
    (∀ p, Cond.isFromMeEq p ∈ (messagesQuery (some f)).1.conds →
      ∃ b, f.IsFromMe = some b ∧ bound (messagesQuery (some f)).2 p = some (.bool b)) ∧
    (∀ p, (messagesQuery (some f)).1.limit = some p →
      bound (messagesQuery (some f)).2 p = some (.int f.Limit)) := by
  rcases f with ⟨jid, st, en, mo, fm, lim⟩
  by_cases hj : jid = ""
  · subst hj
    rcases st with _ | st <;> rcases en with _ | en <;> cases mo <;>
      rcases fm with _ | fm <;> by_cases hl : lim > 0 <;>
      simp [messagesQuery, bound, hl]
  · rcases st with _ | st <;> rcases en with _ | en <;> cases mo <;>
      rcases fm with _ | fm <;> by_cases hl : lim > 0 <;>
      simp [messagesQuery, bound, hj, hl]

theorem chatsQuery_values (f : ChatFilter) :
    (∀ p, Cond.nameILike p ∈ (chatsQuery (some f)).1.conds →
      bound (chatsQuery (some f)).2 p = some (.text ("%" ++ f.SearchName ++ "%"))) ∧
    (∀ p, (chatsQuery (some f)).1.limit = some p →
      bound (chatsQuery (some f)).2 p = some (.int f.Limit)) ∧
    (∀ p, (chatsQuery (some f)).1.offset = some p →
      bound (chatsQuery (some f)).2 p = some (.int f.Offset)) ∧
    (∀ l o, (chatsQuery (some f)).1.limit = some l → (chatsQuery (some f)).1.offset = some o →
      l < o) := by
  rcases f with ⟨name, media, lim, off⟩
  by_cases hn : name = ""
  · subst hn
    cases media <;> by_cases hl : lim > 0 <;> by_cases ho : off > 0 <;>
      simp [chatsQuery, bound, hl, ho]
  · cases media <;> by_cases hl : lim > 0 <;> by_cases ho : off > 0 <;>
      simp [chatsQuery, bound, hn, hl, ho]

/-- C19: for every filter, nil or with any combination of fields set, the text and the argument
list that `GetMessages` and `GetChats` hand to the driver agree. Read from left to right, the
placeholders of the text are `$1`, `$2`, up to `$n`, each once and in increasing order, where `n`
is the length of the argument list (none and an empty list for a nil filter). The argument bound
to the placeholder of a clause is the value of the filter field the clause was built from: the
chat JID, the start time, the end time, the sender flag and the limit in `GetMessages`; the
search name between two `%`, the limit and the offset in `GetChats`, where the placeholder of
`LIMIT` is smaller than that of `OFFSET`. -/
theorem C19_placeholders_match_arguments (mf : Option MessageFilter) (cf : Option ChatFilter) :
    placeholders (messagesQuery mf).1.sql = List.range' 1 (messagesQuery mf).2.length ∧
    placeholders (chatsQuery cf).1.sql = List.range' 1 (chatsQuery cf).2.length ∧
    (mf = none → (messagesQuery mf).2 = []) ∧
    (cf = none → (chatsQuery cf).2 = []) ∧
    (∀ f, mf = some f →
      (∀ p, Cond.chatJidEq p ∈ (messagesQuery mf).1.conds →
        bound (messagesQuery mf).2 p = some (.text f.ChatJID)) ∧
      (∀ p, Cond.timestampGe p ∈ (messagesQuery mf).1.conds →
        ∃ t, f.StartTime = some t ∧ bound (messagesQuery mf).2 p = some (.time t)) ∧
      (∀ p, Cond.timestampLe p ∈ (messagesQuery mf).1.conds →
        ∃ t, f.EndTime = some t ∧ bound (messagesQuery mf).2 p = some (.time t)) ∧
      (∀ p, Cond.isFromMeEq p ∈ (messagesQuery mf).1.conds →
        ∃ b, f.IsFromMe = some b ∧ bound (messagesQuery mf).2 p = some (.bool b)) ∧
      (∀ p, (messagesQuery mf).1.limit = some p →
        bound (messagesQuery mf).2 p = some (.int f.Limit))) ∧
    (∀ f, cf = some f →
      (∀ p, Cond.nameILike p ∈ (chatsQuery cf).1.conds →
        bound (chatsQuery cf).2 p = some (.text ("%" ++ f.SearchName ++ "%"))) ∧
      (∀ p, (chatsQuery cf).1.limit = some p →
        bound (chatsQuery cf).2 p = some (.int f.Limit)) ∧
      (∀ p, (chatsQuery cf).1.offset = some p →
        bound (chatsQuery cf).2 p = some (.int f.Offset)) ∧
      (∀ l o, (chatsQuery cf).1.limit = some l → (chatsQuery cf).1.offset = some o → l < o)) := by
  refine ⟨?_, ?_, ?_, ?_, ?_, ?_⟩
  · rcases mf with _ | f
    · exact messagesQuery_placeholders_nil
    · exact messagesQuery_placeholders f
  · rcases cf with _ | f
    · exact chatsQuery_placeholders_nil
    · exact chatsQuery_placeholders f
  · intro h
    subst h
    rfl
  · intro h
    subst h
    rfl
  · intro f h
    subst h
    exact messagesQuery_values f
  · intro f h
    subst h
    exact chatsQuery_values f

set_option maxRecDepth 100000 in
/-- C19 at a message filter with every field set and a chat filter with every field set: the
texts sent to the driver, their argument lists, and the agreement of the two. -/
theorem C19_placeholders_match_arguments_witness :
    (messagesQuery (some ⟨"628111@s.whatsapp.net", some 10, some 90, true, some false, 5⟩)).1.sql =
      "SELECT id, chat_jid, sender, content, timestamp, is_from_me, media_type, filename, url, media_key, file_sha256, file_enc_sha256, file_length, created_at, updated_at FROM messages WHERE chat_jid = $1 AND timestamp >= $2 AND timestamp <= $3 AND media_type <> '' AND is_from_me = $4 ORDER BY timestamp DESC LIMIT $5" ∧
    (messagesQuery (some ⟨"628111@s.whatsapp.net", some 10, some 90, true, some false, 5⟩)).2 =
      [.text "628111@s.whatsapp.net", .time 10, .time 90, .bool false, .int 5] ∧
    (chatsQuery (some ⟨"ann", true, 20, 40⟩)).1.sql =
      "SELECT jid, name, last_message_time, ephemeral_expiration, created_at, updated_at FROM chats c WHERE c.name ILIKE $1 AND EXISTS (SELECT 1 FROM messages m WHERE m.chat_jid = c.jid AND m.media_type <> '') ORDER BY last_message_time DESC LIMIT $2 OFFSET $3" ∧
    (chatsQuery (some ⟨"ann", true, 20, 40⟩)).2 = [.text "%ann%", .int 20, .int 40] ∧
    placeholders
        (messagesQuery (some ⟨"628111@s.whatsapp.net", some 10, some 90, true, some false, 5⟩)).1.sql =
      [1, 2, 3, 4, 5] ∧
    placeholders (chatsQuery (some ⟨"ann", true, 20, 40⟩)).1.sql = [1, 2, 3] :=
  ⟨by decide, by decide, by decide, by decide,
    (C19_placeholders_match_arguments
      (some ⟨"628111@s.whatsapp.net", some 10, some 90, true, some false, 5⟩)
      (some ⟨"ann", true, 20, 40⟩)).1,
    (C19_placeholders_match_arguments
      (some ⟨"628111@s.whatsapp.net", some 10, some 90, true, some false, 5⟩)
      (some ⟨"ann", true, 20, 40⟩)).2.1⟩

/-! ## Basic authentication -/

theorem HasPrefix_iff (s pre : String) :
    HasPrefix s pre = true ↔ ∃ rest : String, s = pre ++ rest := by
  unfold HasPrefix
  rw [List.isPrefixOf_iff_prefix]
  constructor
  · rintro ⟨t, ht⟩
    refine ⟨String.mk t, ?_⟩
    apply String.ext
    rw [String.data_append]
    exact ht.symm
  · rintro ⟨rest, rfl⟩
    refine ⟨rest.toList, ?_⟩
    exact (String.data_append pre rest).symm

theorem TrimPrefix_append (pre rest : String) : TrimPrefix (pre ++ rest) pre = rest := by
  unfold TrimPrefix
  rw [if_pos ((HasPrefix_iff _ _).mpr ⟨rest, rfl⟩)]
  apply String.ext
  show (pre ++ rest).data.drop pre.length = rest.data
  rw [String.data_append]
  exact List.drop_left _ _

theorem span_sep (sep : Char) (before after : List Char) (h : sep ∉ before) :
    (before ++ sep :: after).span (fun ch => decide (ch ≠ sep)) = (before, sep :: after) := by
  induction before with
  | nil => simp [List.span_eq_take_drop, List.takeWhile, List.dropWhile]
  | cons b rest ih =>
    have hb : b ≠ sep := fun e => h (by rw [e]; exact List.mem_cons_self _ _)
    have hrest : sep ∉ rest := fun e => h (List.mem_cons_of_mem _ e)
    have ih1 := ih hrest
    have hdec : decide (b ≠ sep) = true := decide_eq_true hb
    rw [List.span_eq_take_drop, Prod.mk.injEq] at ih1
    rw [List.span_eq_take_drop, List.cons_append, List.takeWhile_cons, List.dropWhile_cons]
    simp only [hdec, if_true]
    rw [ih1.1, ih1.2]

theorem span_parts (sep : Char) (l before rest : List Char)
    (h : l.span (fun ch => decide (ch ≠ sep)) = (before, rest)) :
    l = before ++ rest ∧ sep ∉ before ∧ (∀ x after, rest = x :: after → x = sep) := by
  rw [List.span_eq_take_drop, Prod.mk.injEq] at h
  obtain ⟨h1, h2⟩ := h
  refine ⟨?_, ?_, ?_⟩
  · rw [← h1, ← h2]
    exact (List.takeWhile_append_dropWhile _ _).symm
  · intro hmem
    rw [← h1] at hmem
    have := List.mem_takeWhile_imp hmem
    simp at this
  · intro x after hx
    have hne : l.dropWhile (fun ch => decide (ch ≠ sep)) ≠ [] := by rw [h2, hx]; simp
    have hhd := List.head_dropWhile_not (fun ch => decide (ch ≠ sep)) l hne
    simp only [h2, hx, List.head_cons] at hhd
    simpa using hhd

/-- `SplitN` gives two parts exactly when the text is the first part, the separator and the
second part, the first part holding no separator. -/
theorem SplitN_pair (s : String) (sep : Char) (a b : String) :
    SplitN s sep = [a, b] ↔ s = a ++ String.singleton sep ++ b ∧ sep ∉ a.toList := by
  constructor
  · intro h
    unfold SplitN at h
    rcases hsp : s.toList.span (fun ch => decide (ch ≠ sep)) with ⟨before, rest⟩
    rw [hsp] at h
    obtain ⟨hl, hnot, hx⟩ := span_parts sep _ _ _ hsp
    rcases rest with _ | ⟨x, after⟩
    · simp at h
    · have hxs := hx x after rfl
      subst hxs
      simp only [List.cons.injEq, and_true] at h
      obtain ⟨ha, hb⟩ := h
      subst ha
      subst hb
      refine ⟨?_, hnot⟩
      apply String.ext
      rw [String.data_append, String.data_append]
      simpa using hl
  · rintro ⟨hs, hnot⟩
    unfold SplitN
    have hl : s.toList = a.toList ++ sep :: b.toList := by
      rw [hs]
      show (a ++ String.singleton sep ++ b).data = _
      rw [String.data_append, String.data_append]
      simp [String.singleton]
    rw [hl, span_sep sep _ _ hnot]
    rfl

theorem userRows_keyed (users : List AppUser) (hkey : usersKeyed users) (u : AppUser)
    (hu : u ∈ users) : userRows users u.username = [u] := by
  induction users with
  | nil => cases hu
  | cons v rest ih =>
    unfold usersKeyed at hkey
    rw [List.map_cons, List.nodup_cons] at hkey
    obtain ⟨hv, hrest⟩ := hkey
    unfold userRows
    rcases List.mem_cons.mp hu with rfl | hmem
    · rw [List.filter_cons_of_pos (by simp)]
      congr 1
      apply List.filter_eq_nil_iff.mpr
      intro w hw hwu
      apply hv
      rw [← of_decide_eq_true hwu]
      exact List.mem_map_of_mem _ hw
    · have hne : v.username ≠ u.username := by
        intro e
        apply hv
        rw [e]
        exact List.mem_map_of_mem _ hmem
      rw [List.filter_cons_of_neg (by simpa using hne)]
      exact ih hrest hmem

theorem scanUser_answered (db : AuthDB) (username : String)
    (hgo : passes db.faults 1 = true) :
    (scanUser db username).1 =
      match (userRows db.app_users username).head? with
      | none => .error .ErrNoRows
      | some u =>
        match u.enabled with
        | none =>
          .error (.driver "sql: Scan error on column index 1, name \"enabled\": sql/driver: couldn't convert <nil> (<nil>) into type bool")
        | some enabled => .ok (u.password_hash, enabled) := by
  unfold scanUser AuthDB.send
  rcases hf : db.faults with _ | ⟨f, rest⟩
  · dsimp only
    rcases (userRows db.app_users username).head? with _ | u
    · rfl
    · dsimp only
      rcases u.enabled with _ | en
      · rfl
      · rfl
  · rw [hf] at hgo
    rcases f with _ | e
    · dsimp only
      rcases (userRows db.app_users username).head? with _ | u
      · rfl
      · dsimp only
        rcases u.enabled with _ | en
        · rfl
        · rfl
    · simp [passes] at hgo

theorem scanUser_refused (db : AuthDB) (username : String) (e : Err)
    (hf : db.faults.head? = some (some e)) : (scanUser db username).1 = .error e := by
  unfold scanUser AuthDB.send
  rcases hfs : db.faults with _ | ⟨f, rest⟩
  · rw [hfs] at hf
    cases hf
  · rw [hfs] at hf
    simp only [List.head?_cons, Option.some.injEq] at hf
    subst hf
    rfl

/-- With the lookup answered and the primary key honoured, the lookup yields a hash and
`enabled = true` exactly for the usernames of enabled rows. -/
theorem scanUser_enabled (db : AuthDB) (username hash : String)
    (hkey : usersKeyed db.app_users) (hgo : passes db.faults 1 = true) :
    (scanUser db username).1 = .ok (hash, true) ↔
      ∃ u ∈ db.app_users, u.username = username ∧ u.enabled = some true ∧
        u.password_hash = hash := by
  rw [scanUser_answered db username hgo]
  constructor
  · intro h
    rcases hh : (userRows db.app_users username).head? with _ | u
    · rw [hh] at h
      cases h
    · rw [hh] at h
      dsimp only at h
      have hmem : u ∈ userRows db.app_users username := List.mem_of_mem_head? hh
      unfold userRows at hmem
      rw [List.mem_filter] at hmem
      refine ⟨u, hmem.1, of_decide_eq_true hmem.2, ?_, ?_⟩
      · rcases hen : u.enabled with _ | en
        · rw [hen] at h
          cases h
        · rw [hen] at h
          simp only [Except.ok.injEq, Prod.mk.injEq] at h
          rw [h.2]
      · rcases hen : u.enabled with _ | en
        · rw [hen] at h
          cases h
        · rw [hen] at h
          simp only [Except.ok.injEq, Prod.mk.injEq] at h
          exact h.1
  · rintro ⟨u, hu, hname, hen, hhash⟩
    subst hname
    rw [userRows_keyed db.app_users hkey u hu]
    simp only [List.head?_cons, hen, hhash]

theorem SQLBasicAuthPostgres_outcome (compare : String → String → Option Err) (db : AuthDB)
    (c : Ctx) :
    (SQLBasicAuthPostgres compare db c).1 = c.Next ∨
      (SQLBasicAuthPostgres compare db c).1 =
        (c.Set "WWW-Authenticate" "Basic realm=\"Restricted\"").SendStatus 401 := by
  unfold SQLBasicAuthPostgres
  dsimp only
  split
  · split
    · split
      · split
        · split
          · split
            · exact Or.inl rfl
            · exact Or.inr rfl
          · exact Or.inr rfl
        · exact Or.inr rfl
      · exact Or.inr rfl
    · exact Or.inr rfl
  · exact Or.inr rfl

theorem Next_ne_unauthorized (c : Ctx) :
    c.Next ≠ (c.Set "WWW-Authenticate" "Basic realm=\"Restricted\"").SendStatus 401 := by
  intro h
  have hc := congrArg Ctx.calls h
  simp [Ctx.Next, Ctx.Set, Ctx.SendStatus] at hc

/-- The handler hands the request on exactly when each test of the source succeeds. -/
theorem SQLBasicAuthPostgres_next (compare : String → String → Option Err) (db : AuthDB)
    (c : Ctx) :
    (SQLBasicAuthPostgres compare db c).1 = c.Next ↔
      HasPrefix (c.Get "Authorization") "Basic " = true ∧
      ∃ decoded username password hash,
        DecodeString (TrimPrefix (c.Get "Authorization") "Basic ") = .ok decoded ∧
        SplitN decoded ':' = [username, password] ∧
        (scanUser db username).1 = .ok (hash, true) ∧
        compare hash password = none := by
  have hne := Next_ne_unauthorized c
  unfold SQLBasicAuthPostgres
  dsimp only
  by_cases hp : HasPrefix (c.Get "Authorization") "Basic " = true
  · rw [if_pos hp]
    rcases hd : DecodeString (TrimPrefix (c.Get "Authorization") "Basic ") with si | decoded
    · dsimp only
      constructor
      · intro h
        exact absurd h.symm hne
      · rintro ⟨_, _, _, _, _, h, _⟩
        cases h
    · dsimp only
      rcases hs : SplitN decoded ':' with _ | ⟨username, _ | ⟨password, _ | ⟨x, more⟩⟩⟩
      · dsimp only
        constructor
        · intro h
          exact absurd h.symm hne
        · rintro ⟨_, _, _, _, _, h1, h2, _⟩
          cases h1
          rw [hs] at h2
          cases h2
      · dsimp only
        constructor
        · intro h
          exact absurd h.symm hne
        · rintro ⟨_, _, _, _, _, h1, h2, _⟩
          cases h1
          rw [hs] at h2
          cases h2
      · dsimp only
        rcases hq : scanUser db username with ⟨row, db1⟩
        rcases row with e | ⟨hash, enabled⟩
        · dsimp only
          constructor
          · intro h
            exact absurd h.symm hne
          · rintro ⟨_, _, _, _, _, h1, h2, h3, _⟩
            cases h1
            rw [hs] at h2
            cases h2
            rw [hq] at h3
            cases h3
        · dsimp only
          cases enabled
          · simp only [Bool.false_eq_true, if_false]
            constructor
            · intro h
              exact absurd h.symm hne
            · rintro ⟨_, _, _, _, _, h1, h2, h3, _⟩
              cases h1
              rw [hs] at h2
              cases h2
              rw [hq] at h3
              cases h3
          · simp only [if_true]
            by_cases hc : compare hash password = none
            · rw [if_pos hc]
              constructor
              · intro _
                exact ⟨hp, decoded, username, password, hash, rfl, hs, by rw [hq], hc⟩
              · intro _
                rfl
            · rw [if_neg hc]
              constructor
              · intro h
                exact absurd h.symm hne
              · rintro ⟨_, _, _, _, _, h1, h2, h3, h4⟩
                cases h1
                rw [hs] at h2
                cases h2
                rw [hq] at h3
                cases h3
                exact absurd h4 hc
      · dsimp only
        constructor
        · intro h
          exact absurd h.symm hne
        · rintro ⟨_, _, _, _, _, h1, h2, _⟩
          cases h1
          rw [hs] at h2
          cases h2
  · rw [if_neg hp]
    constructor
    · intro h
      exact absurd h.symm hne
    · rintro ⟨h, _⟩
      exact absurd h hp

/-- C21: `SQLBasicAuthPostgres` either hands the request to the next handler or answers it with
the header `WWW-Authenticate: Basic realm="Restricted"` and status 401, never both and nothing
else. When the lookup is answered by the driver (and `username` is the primary key of
`app_users`), the request is handed on if and only if the `Authorization` header is `Basic `
followed by a payload that `base64.StdEncoding` decodes to a text `username:password` in which
`username` holds no `:` (so the split is at the first `:` and `password` may hold more of
them), `username` is the username of a row of `app_users` whose `enabled` is true, and
`password` matches the `password_hash` of that row. A lookup that the driver fails is answered
with 401 as well. -/
theorem C21_next_iff_credentials_hold (compare : String → String → Option Err) (db : AuthDB)
    (c : Ctx) :
    ((SQLBasicAuthPostgres compare db c).1 = c.Next ∨
      (SQLBasicAuthPostgres compare db c).1 =
        (c.Set "WWW-Authenticate" "Basic realm=\"Restricted\"").SendStatus 401) ∧
    c.Next ≠ (c.Set "WWW-Authenticate" "Basic realm=\"Restricted\"").SendStatus 401 ∧
    (usersKeyed db.app_users → passes db.faults 1 = true →
      ((SQLBasicAuthPostgres compare db c).1 = c.Next ↔
        ∃ payload username password : String,
          c.Get "Authorization" = "Basic " ++ payload ∧
          DecodeString payload = .ok (username ++ ":" ++ password) ∧
          ':' ∉ username.toList ∧
          ∃ u ∈ db.app_users, u.username = username ∧ u.enabled = some true ∧
            compare u.password_hash password = none)) ∧
    (∀ e, db.faults.head? = some (some e) →
      (SQLBasicAuthPostgres compare db c).1 =
        (c.Set "WWW-Authenticate" "Basic realm=\"Restricted\"").SendStatus 401) := by
  refine ⟨SQLBasicAuthPostgres_outcome compare db c, Next_ne_unauthorized c, ?_, ?_⟩
  · intro hkey hgo
    rw [SQLBasicAuthPostgres_next]
    constructor
    · rintro ⟨hp, decoded, username, password, hash, hd, hs, hq, hc⟩
      obtain ⟨payload, hpay⟩ := (HasPrefix_iff _ _).mp hp
      rw [hpay, TrimPrefix_append] at hd
      obtain ⟨htext, hnot⟩ := (SplitN_pair decoded ':' username password).mp hs
      obtain ⟨u, hu, hname, hen, hhash⟩ := (scanUser_enabled db username hash hkey hgo).mp hq
      refine ⟨payload, username, password, hpay, ?_, hnot, u, hu, hname, hen, ?_⟩
      · rw [hd, htext]
        rfl
      · rw [hhash]
        exact hc
    · rintro ⟨payload, username, password, hpay, hd, hnot, u, hu, hname, hen, hc⟩
      refine ⟨(HasPrefix_iff _ _).mpr ⟨payload, hpay⟩, username ++ ":" ++ password, username,
        password, u.password_hash, ?_, ?_, ?_, hc⟩
      · rw [hpay, TrimPrefix_append]
        exact hd
      · exact (SplitN_pair _ ':' username password).mpr ⟨rfl, hnot⟩
      · exact (scanUser_enabled db username u.password_hash hkey hgo).mpr
          ⟨u, hu, hname, hen, rfl⟩
  · intro e he
    rcases SQLBasicAuthPostgres_outcome compare db c with h | h
    · obtain ⟨_, _, username, _, _, _, _, hq, _⟩ :=
        (SQLBasicAuthPostgres_next compare db c).mp h
      rw [scanUser_refused db username e he] at hq
      cases hq
    · exact h

/-- C21 on sample rows: `admin` is enabled with password `s:cret`, `guest` is disabled, the
`enabled` of `ghost` is `NULL`. The header `Basic YWRtaW46czpjcmV0` decodes to `admin:s:cret`
and the request is handed on; a wrong password, the disabled user, the user without `enabled`,
an unknown user, a text without `:`, a payload that is not base64, the scheme in lower case, a
missing header, and a lookup failed by the driver are all answered with 401. -/
theorem C21_next_iff_credentials_hold_witness :
    (SQLBasicAuthPostgres sampleCompare ⟨sampleUsers, [], []⟩
        (requestWith "Basic YWRtaW46czpjcmV0")).1.calls = [.Next] ∧
    DecodeString "YWRtaW46czpjcmV0" = .ok "admin:s:cret" ∧
    (∃ payload username password : String,
      (requestWith "Basic YWRtaW46czpjcmV0").Get "Authorization" = "Basic " ++ payload ∧
      DecodeString payload = .ok (username ++ ":" ++ password) ∧
      ':' ∉ username.toList ∧
      ∃ u ∈ sampleUsers, u.username = username ∧ u.enabled = some true ∧
        sampleCompare u.password_hash password = none) ∧
    (∀ auth ∈ ["Basic YWRtaW46c2VjcmV0", "Basic Z3Vlc3Q6cHc=", "Basic Z2hvc3Q6cHc=",
        "Basic Ong=", "Basic YWRtaW4=", "Basic YWRtaW46czpjcmV0!", "basic YWRtaW46czpjcmV0", ""],
      (SQLBasicAuthPostgres sampleCompare ⟨sampleUsers, [], []⟩ (requestWith auth)).1.calls =
        [.Set "WWW-Authenticate" "Basic realm=\"Restricted\"", .SendStatus 401]) ∧
    (SQLBasicAuthPostgres sampleCompare ⟨sampleUsers, [some (.driver "connection refused")], []⟩
        (requestWith "Basic YWRtaW46czpjcmV0")).1.calls =
      [.Set "WWW-Authenticate" "Basic realm=\"Restricted\"", .SendStatus 401] :=
  ⟨by decide, by decide,
    ((C21_next_iff_credentials_hold sampleCompare ⟨sampleUsers, [], []⟩
      (requestWith "Basic YWRtaW46czpjcmV0")).2.2.1 (by decide) (by decide)).mp (by decide),
    by decide,
    congrArg Ctx.calls
      ((C21_next_iff_credentials_hold sampleCompare
        ⟨sampleUsers, [some (.driver "connection refused")], []⟩
        (requestWith "Basic YWRtaW46czpjcmV0")).2.2.2 (.driver "connection refused") rfl)⟩

end ChatStorage
